import Mathlib

/-!
Yate jabber server: dialback authentication, the pending stanza workers and
the stanza handlers

A shallow embedding of `modules/jabber/jabberserver.cpp`:

* `YJBEngine::buildDialbackKey`
* `YJBEngine::processDbResult`, `YJBEngine::processDbVerify`,
  `YJBEngine::notifyDbVerifyResult`, `YJBEngine::processStreamEvent`
* `JBPendingWorker::add`, `JBPendingWorker::run`, `JBPendingWorker::initialize`
* the start of the workers in `JBModule::initialize` and the `Start` case of
  `YJBEngine::processEvent`
* `YJBEngine::restrictedResource`, `YJBEngine::bindingResource`,
  `YJBEngine::removeBindingResource`, `YJBEngine::processBind`
* `UserAuthMessage::dispatched`
* `JBPendingWorker::processChat`, `JBPendingWorker::processIq` and the iq
  handlers of the engine (`processIqRoster`, `processIqVCard`,
  `processIqPrivate`, `processIqRegister`, `processIqAuth`, `discoInfo`,
  `discoItems`), `JBPendingJob::sendStanza`
* `YJBEngine::processPresenceStanza`, `YJBEngine::processStartIn`,
  `YJBEngine::processAuthIn`
* `YJBEngine::initialize` and `JBModule::initialize`

and of `RadioBufDesc::validSamples` in `libs/yradio/yateradio.h`.

Calls into the jabber library (streams, hashers, the stream registry) are
recorded as a list of effects, in program order.  Library operations whose
code is not part of these sources are taken as parameters.
-/

namespace Yate

/-! ## Library types -/

/-- The hash primitive behind the `SHA1` hasher class: `digest` is the raw
digest of everything fed to the hasher and `hex` its hexadecimal rendering. -/
structure HashPrimitive where
  Digest : Type
  digest : String → Digest
  hex : Digest → String

/-- A `SHA1` hasher object: the data it was fed so far. -/
structure SHA1 where
  buf : String
  deriving DecidableEq, Repr

/-- Constructor `SHA1(const String&)`: a hasher already fed with `s`. -/
def SHA1.init (s : String) : SHA1 := ⟨s⟩

/-- The `operator<<` of a hasher: feed more data. -/
def SHA1.update (h : SHA1) (s : String) : SHA1 := ⟨h.buf ++ s⟩

/-- The `hexDigest()` of a hasher. -/
def SHA1.hexDigest (P : HashPrimitive) (h : SHA1) : String := P.hex (P.digest h.buf)

/-- The `XMPPError::Type` values the handlers below use; `Other` stands for
every remaining error code. -/
inductive XMPPError where
  | NoError
  | ItemNotFound
  | HostUnknown
  | NoRemote
  | NotAuthorized
  | RemoteConn
  | RemoteTimeout
  | InvalidId
  | Internal
  | Shutdown
  | ServiceUnavailable
  | Conflict
  | NotAcceptable
  | EncryptionRequired
  | NotAllowed
  | Forbidden
  | Gone
  | UnsupportedVersion
  | Other (code : Nat)
  deriving DecidableEq, Repr

/-- A `JabberID`: node, domain and resource. -/
structure JabberID where
  node : String
  domain : String
  resource : String
  deriving DecidableEq, Repr

/-- The full string of a jabber id: `[node@]domain[/resource]`. -/
def JabberID.str (j : JabberID) : String :=
  (if j.node = "" then "" else j.node ++ "@") ++ j.domain ++
    (if j.resource = "" then "" else "/" ++ j.resource)

/-- The bare jabber id: `[node@]domain`. -/
def JabberID.bare (j : JabberID) : String :=
  (if j.node = "" then "" else j.node ++ "@") ++ j.domain

/-- A jabber id made of a domain only. -/
def JabberID.ofDomain (d : String) : JabberID := ⟨"", d, ""⟩

/-- `JabberID::resource(const char*)`: the same id with the resource `r`. -/
def JabberID.setResource (j : JabberID) (r : String) : JabberID := ⟨j.node, j.domain, r⟩

/-! ## Streams, events and the engine -/

/-- `JBStream::Type`. -/
inductive StreamType where
  | c2s
  | s2s
  | comp
  | cluster
  deriving DecidableEq, Repr

/-- `JBStream::State`, as far as the handlers look at it. -/
inductive StreamState where
  | Idle
  | Starting
  | Running
  | Destroy
  deriving DecidableEq, Repr

/-- A pending dialback request held by an outgoing server stream: a
`NamedString` whose name is the request id and whose value is the key. -/
structure NamedString where
  name : String
  value : String
  deriving DecidableEq, Repr

/-- The SASL data of a stream (`XMPPSasl`): whether the PLAIN mechanism is in
use, and the parameters decoded from the client's response. -/
structure XMPPSasl where
  m_plain : Bool
  m_params : Option (List (String × String))
  deriving DecidableEq, Repr

/-- A stream, with the fields the handlers read or change. `toString` is the
stream name, `m_dbKey` the pending dialback request of a server stream. The
fields from `streamSecured` on are the flags the handlers test with `flag()`:
`StreamSecured`, `StreamTls`, `TlsRequired`, `StreamAuthenticated`,
`StreamRemoteVer1` and `PositivePriority`. -/
structure JBStream where
  toString : String
  type : StreamType
  incoming : Bool
  id : String
  «local» : JabberID
  remote : JabberID
  state : StreamState
  flags : Nat
  availableResource : Bool
  rosterRequested : Bool
  noAutoRestart : Bool
  dialback : Bool
  m_dbKey : Option NamedString
  m_sasl : Option XMPPSasl := none
  streamSecured : Bool := false
  streamTls : Bool := false
  tlsRequired : Bool := false
  streamAuthenticated : Bool := false
  streamRemoteVer1 : Bool := false
  positivePriority : Bool := false
  deriving DecidableEq, Repr

/-- Modelled from the spec: `JBServerStream::takeDb`, whose code is in the
jabber library. The pending request is handed to the caller and removed
from the stream. -/
def JBStream.takeDb (s : JBStream) : Option NamedString × JBStream :=
  (s.m_dbKey, { s with m_dbKey := none })

/-- Modelled from the spec: `JBStream::setAvailableResource(false)`, whose
code is in the jabber library. Returns whether the flag changed. -/
def JBStream.setAvailableResource (s : JBStream) (ok : Bool) : Bool × JBStream :=
  (s.availableResource != ok, { s with availableResource := ok })

/-- The tags `XMPPUtils::tag` tells apart for the workers. -/
inductive XmlTag where
  | Message
  | Iq
  | Presence
  | Other
  deriving DecidableEq, Repr

/-- An XML element: tag, attributes and text. -/
structure XmlElement where
  tag : XmlTag
  attributes : List (String × String)
  text : String
  deriving DecidableEq, Repr

/-- `XmlElement::getAttribute`, read into a `String`: empty when absent. -/
def XmlElement.getAttribute (x : XmlElement) (name : String) : String :=
  match x.attributes.find? (fun p => p.1 == name) with
  | some p => p.2
  | none => ""

/-- `XmlElement::getText`. -/
def XmlElement.getText (x : XmlElement) : String := x.text

/-- `JBEvent::Type`. -/
inductive JBEventType where
  | Message
  | Presence
  | Iq
  | Start
  | Auth
  | Bind
  | Running
  | Destroy
  | Terminated
  | DbResult
  | DbVerify
  | Unknown
  deriving DecidableEq, Repr

/-- A stream event. `stream` is the state of the stream the event was raised
on, `refOk` tells whether `ref()` succeeds on the event, `stanzaType` is the
`type` attribute of the stanza and `child` its first child. -/
structure JBEvent where
  type : JBEventType
  stream : Option JBStream
  element : Option XmlElement
  «from» : JabberID
  «to» : JabberID
  id : String
  text : String
  refOk : Bool
  child : Option XmlElement := none
  stanzaType : String := ""
  deriving DecidableEq, Repr

/-- `JBEvent::serverStream`: the stream when it is a server stream, which a
server to server stream and a component stream are. -/
def JBEvent.serverStream (ev : JBEvent) : Option JBStream :=
  match ev.stream with
  | some s => if s.type = StreamType.s2s ∨ s.type = StreamType.comp then some s else none
  | none => none

/-- A `Message` for the engine's message queue: name and parameters. -/
structure Message where
  name : String
  params : List (String × String)
  deriving DecidableEq, Repr

/-- `Message::addParam`. -/
def Message.addParam (m : Message) (n v : String) : Message :=
  { m with params := m.params ++ [(n, v)] }

/-- `JBModule::message`: a message completed with module and protocol. -/
def pluginMessage (name : String) : Message :=
  (Message.mk name []).addParam "module" "jabber" |>.addParam "protocol" "jabber"

/-- `String::boolText`. -/
def boolText (b : Bool) : String := if b then "true" else "false"

/-- `XMPPUtils::MsgType`: the types of a message stanza. -/
inductive MsgType where
  | Chat
  | GroupChat
  | HeadLine
  | Normal
  | MsgError
  deriving DecidableEq, Repr

/-- `XMPPUtils::IqType`; `IqCount` is the value given to an unknown type. -/
inductive IqType where
  | IqSet
  | IqGet
  | IqResult
  | IqError
  | IqCount
  deriving DecidableEq, Repr

/-- `XMPPUtils::Presence`: the types of a presence stanza, `PresenceNone`
being the absent type. -/
inductive Presence where
  | Probe
  | Subscribe
  | Subscribed
  | Unavailable
  | Unsubscribe
  | Unsubscribed
  | PresenceError
  | PresenceNone
  deriving DecidableEq, Repr

/-- The values of `XMPPNamespace::Type` the module names; `Count` is the
value given to a missing or unknown namespace. -/
inductive XMPPNamespace where
  | DiscoInfo
  | DiscoItems
  | IqVersion
  | Session
  | Roster
  | VCard
  | IqPrivate
  | Ping
  | IqRegister
  | IqAuth
  | MsgOffline
  | Register
  | Tls
  | Sasl
  | Bind
  | Count
  deriving DecidableEq, Repr

/-- A stanza built to be sent back: the iq error and the iq result of an
event (`JBEvent::buildIqError`, `JBEvent::buildIqResult`, with the name of the
child and its namespace when one is given), the error reply to a message
(`XMPPUtils::createMessage` with an error child), the replies built by the
jabber library for service discovery, software version and legacy
authentication, and an element taken from a message. -/
inductive Stanza where
  | iqError (id : String) (error : XMPPError)
  | iqResult (id : String) (child : Option (String × XMPPNamespace))
  | messageError (id : String) (error : XMPPError)
  | discoInfo (id : String) (c2s : Bool)
  | discoItems (id : String) (items : List String)
  | iqVersion (id name version : String)
  | iqAuthOffer (id : String) (plain : Bool)
  | xml (x : XmlElement)
  deriving DecidableEq, Repr

/-- A stream feature (`XMPPFeature`, `XMPPFeatureSasl`): its namespace,
whether it is required, and for SASL the offered mechanisms. -/
structure XMPPFeature where
  ns : XMPPNamespace
  required : Bool
  md5 : Bool := false
  plain : Bool := false
  deriving DecidableEq, Repr

/-- The calls the handlers make on streams, on the stream registry and on
the message queue, in program order. Debug output is not recorded. A
`notifyPresence` or `notifyPresenceDirected` call enqueues one
`resource.notify` message; `sendStanza` is `JBStream::sendStanza` (or
`sendStreamXml` when `regular` is false) with the `from` and `to` attributes
set on the stanza beforehand, empty when none was set; `dispatch` is a message
handed to `Engine::dispatch`. -/
inductive Effect where
  | takeDb (stream : String) (taken : Option NamedString)
  | sendDbVerify (stream : String) (src dst id : String) (rsp : XMPPError)
  | sendDbResult (stream : String) (src dst : String) (rsp : XMPPError)
  | terminate (stream : String) (destroy : Bool) (error : XMPPError)
  | createServerStream (lcl remote dbId dbKey : String) (dbOnly : Bool)
      (created : Option String)
  | notifyPresence (stream : String) (online : Bool)
  | enqueue (m : Message)
  | start (stream : String)
  | sendStanzaError (stream : Option String) (id : String) (error : XMPPError)
  | bind (stream : String) (resource id : String)
  | authenticated (stream : String) (ok : Bool) (rspValue : String) (error : XMPPError)
      (username id resource : String)
  | sendStanza (stream : String) (src dst : String) (xml : Stanza) (regular : Bool)
  | dispatch (m : Message)
  | setRosterRequested (stream : String)
  | notifyPresenceDirected (src dst : JabberID) (online fromRemote toRemote : Bool)
  | lock (stream : String)
  | unlock (stream : String)
  | lockEngine
  | unlockEngine
  | setTlsRequired (stream : String) (required : Bool)
  | startFeatures (stream : String) (features : List XMPPFeature) (caps : Bool)
  | startServer (stream : String) (features : List XMPPFeature) (useVer1 : Bool)
  | startComp (stream : String) (lcl remote : String)
  deriving DecidableEq, Repr

/-- The operations of the jabber library, of the class library and of the
engine the module calls and whose code is not part of these sources.
`dispatch n m` is the answer of the message handlers to the message `m`
when it is the `n`-th message dispatched; `startsWith s what` is
`s.startsWith(what)`; `findClientStreams jid res` lists the incoming client
streams of `jid` whose resource is in `res`. -/
structure Library where
  hash : HashPrimitive
  decodeDbRsp : XmlElement → XMPPError
  findServerStream : String → String → Bool → Bool → Option JBStream
  createServerStream : String → String → String → String → Bool → Option JBStream
  stringHash : String → Nat
  jidEq : JabberID → JabberID → Bool
  dispatch : Nat → Message → Bool
  md5Hex : String → String
  startsWith : String → String → Bool
  findFirstChild : XmlElement → String → String → Option XmlElement
  findClientStreams : JabberID → List String → List JBStream
  findStream : String → StreamType → Option JBStream
  checkDupId : JBStream → Bool
  buildMD5Digest : XMPPSasl → String → Bool → String
  buildSha1Digest : JBStream → String → String
  jabberID : String → JabberID

/-- The fields of `YJBEngine` the handlers read or change. `m_c2sFeatures`
lists the namespaces of the features advertised on client streams, which is
what the handlers ask of it; the two hashes are the `m_entityCapsHash` of
`m_c2sFeatures` and of `m_features`. -/
structure YJBEngine where
  m_dialbackSecret : String
  m_domains : List String
  m_dynamicDomains : List String
  m_components : List String
  m_items : List JabberID
  m_restrictedResources : List String := []
  m_bindingResources : List JabberID := []
  m_c2sTlsRequired : Bool := false
  m_allowUnsecurePlainAuth : Bool := false
  m_c2sFeatures : List XMPPNamespace := []
  m_c2sEntityCapsHash : String := ""
  m_entityCapsHash : String := ""
  m_progName : String := ""
  m_progVersion : String := ""
  deriving DecidableEq, Repr

/-- `YJBEngine::buildDialbackKey`. -/
def buildDialbackKey (P : HashPrimitive) (e : YJBEngine) (id lcl remote : String) : String :=
  let sha := SHA1.init e.m_dialbackSecret
  let shaKey := SHA1.init (sha.hexDigest P)
  let shaKey := ((((shaKey.update lcl).update " ").update remote).update " ").update id
  shaKey.hexDigest P

/-- `YJBEngine::findDomain`, as a test: configured or dynamic domains. -/
def findDomain (e : YJBEngine) (domain : String) (cfg : Bool) : Bool :=
  if cfg then e.m_domains.contains domain else e.m_dynamicDomains.contains domain

/-- `YJBEngine::hasDomain`. -/
def hasDomain (e : YJBEngine) (domain : String) : Bool :=
  if domain = "" then false
  else findDomain e domain true || findDomain e domain false

/-- `YJBEngine::setComponent`. -/
def setComponent (e : YJBEngine) (domain : String) (add : Bool) : YJBEngine :=
  let oc := e.m_components.contains domain
  let od := findDomain e domain false
  if add then
    { e with
      m_components := if !oc then e.m_components ++ [domain] else e.m_components
      m_dynamicDomains :=
        if !od then e.m_dynamicDomains ++ [domain] else e.m_dynamicDomains }
  else
    { e with
      m_components := if oc then e.m_components.erase domain else e.m_components
      m_dynamicDomains :=
        if od then e.m_dynamicDomains.erase domain else e.m_dynamicDomains }

/-- `YJBEngine::isServerItemDomain`. -/
def isServerItemDomain (e : YJBEngine) (domain : String) : Bool :=
  e.m_items.any (fun jid => domain == jid.domain)

/-- `YJBEngine::userRegister`, without the socket address parameters. -/
def userRegister (stream : JBStream) (reg : Bool) (inst : String) : Message :=
  let m := pluginMessage (if reg then "user.register" else "user.unregister")
  let m := if stream.type = StreamType.c2s then m.addParam "username" stream.remote.bare
           else m.addParam "server" (boolText true)
  let data : JabberID := ⟨stream.remote.node, stream.remote.domain, inst⟩
  m.addParam "data" data.str

/-- `YJBEngine::notifyDbVerifyResult`. -/
def notifyDbVerifyResult (L : Library) (lcl remote : JabberID) (id : String)
    (rsp : XMPPError) : List Effect :=
  if id = "" then []
  else
    match L.findServerStream lcl.str remote.str false false with
    | some notify =>
      if notify.id = id then [Effect.sendDbResult notify.toString lcl.str remote.str rsp]
      else []
    | none => []

/-- `YJBEngine::processDbResult`. The stream id is read through `c_str()`,
which is null for an empty string. -/
def processDbResult (L : Library) (e : YJBEngine) (ev : JBEvent) : List Effect :=
  let stream := ev.serverStream
  let id : Option String :=
    match stream with
    | some s => if s.id = "" then none else some s.id
    | none => none
  let failed : List Effect :=
    match stream with
    | some s => [Effect.sendDbResult s.toString ev.to.str ev.from.str XMPPError.RemoteConn]
    | none => []
  match id with
  | some i =>
    if ev.text ≠ "" ∧ stream.isSome ∧ ev.to.str ≠ "" ∧ hasDomain e ev.to.str = true
        ∧ ev.from.str ≠ "" then
      let s := L.findServerStream ev.to.str ev.from.str true true
      let dbOnly := s.isSome
      let s := L.createServerStream ev.to.str ev.from.str i ev.text dbOnly
      let call := Effect.createServerStream ev.to.str ev.from.str i ev.text dbOnly
        (s.map JBStream.toString)
      match s with
      | some _ => [call]
      | none => call :: failed
    else failed
  | none => failed

/-- `YJBEngine::processDbVerify`: the stream after the call and the calls
made. -/
def processDbVerify (L : Library) (e : YJBEngine) (ev : JBEvent) :
    Option JBStream × List Effect :=
  match ev.serverStream, ev.element with
  | some stream, some element =>
    let id := element.getAttribute "id"
    if stream.incoming then
      let key := if id ≠ "" then buildDialbackKey L.hash e id ev.to.str ev.from.str else ""
      if key ≠ "" ∧ key = element.getText then
        (some stream,
          [Effect.sendDbVerify stream.toString ev.to.str ev.from.str id XMPPError.NoError])
      else
        (some stream,
          [Effect.sendDbVerify stream.toString ev.to.str ev.from.str id
            XMPPError.NotAuthorized])
    else
      let (db, stream) := stream.takeDb
      let taken := [Effect.takeDb stream.toString db]
      let notified : List Effect :=
        match db with
        | some d =>
          if id ≠ "" ∧ d.name = id then
            let r := L.decodeDbRsp element
            let r := if r = XMPPError.ItemNotFound ∨ r = XMPPError.HostUnknown
                     then XMPPError.NoRemote else r
            notifyDbVerifyResult L ev.to ev.from id r
          else []
        | none => []
      let terminated : List Effect :=
        if stream.dialback then [Effect.terminate stream.toString true XMPPError.NoError]
        else []
      (some stream, taken ++ notified ++ terminated)
  | _, _ => (ev.stream, [])

/-- `YJBEngine::processStreamEvent`, for an event that carries the stream
`s`: the engine and the stream after the call, and the calls made. -/
def processStreamEvent (L : Library) (e : YJBEngine) (ev : JBEvent) (s : JBStream) :
    YJBEngine × JBStream × List Effect :=
  let reg := ev.type = JBEventType.Running
  if s.incoming then
    if reg then
      if s.type ≠ StreamType.c2s then (e, s, [Effect.enqueue (userRegister s true "")])
      else (e, s, [])
    else
      let (changed, s) := s.setAvailableResource false
      let s := { s with rosterRequested := false }
      let (pres, m) : List Effect × Message :=
        if s.type = StreamType.c2s then
          (if changed ∧ s.remote.resource ≠ "" then [Effect.notifyPresence s.toString false]
           else [],
           userRegister s false s.remote.resource)
        else ([], userRegister s false "")
      let e := if s.type = StreamType.comp then setComponent e s.remote.str false else e
      (e, s, pres ++ [Effect.enqueue m])
  else
    let (s, db) : JBStream × List Effect :=
      if ¬ reg then
        if s.type = StreamType.s2s ∨ s.type = StreamType.comp then
          let (db, s2) := s.takeDb
          match db with
          | some d =>
            (s2, Effect.takeDb s2.toString db
              :: notifyDbVerifyResult L s2.local s2.remote d.name XMPPError.RemoteTimeout)
          | none => (s2, [Effect.takeDb s2.toString db])
        else (s, [])
      else (s, [])
    let m := pluginMessage "user.notify"
    let m := m.addParam "account" s.toString
    let m := if s.type = StreamType.c2s then m.addParam "username" s.local.node else m
    let m := m.addParam "server" s.local.domain
    let m := m.addParam "jid" s.local.str
    let m := m.addParam "registered" (boolText reg)
    let m := if ¬ reg ∧ ev.text ≠ "" then m.addParam "error" ev.text else m
    let restart := s.state ≠ StreamState.Destroy ∧ ¬ s.noAutoRestart
    let m := m.addParam "autorestart" (boolText restart)
    (e, s, db ++ [Effect.enqueue m])

/-- The messages hashed while building a key: the secret, then the tuple
keyed by the secret's digest. -/
def dialbackMessages (P : HashPrimitive) (secret id lcl remote : String) : List String :=
  [secret, P.hex (P.digest secret) ++ lcl ++ " " ++ remote ++ " " ++ id]

/-- The hash primitive has no collision among the messages of `ms`. -/
def CollisionFreeOn (P : HashPrimitive) (ms : List String) : Prop :=
  ∀ a ∈ ms, ∀ b ∈ ms, P.hex (P.digest a) = P.hex (P.digest b) → a = b

/-- How many of secret, id, local and remote differ between two calls. -/
def changedInputs (s id lcl remote s2 id2 lcl2 remote2 : String) : Nat :=
  (if s = s2 then 0 else 1) + (if id = id2 then 0 else 1)
    + (if lcl = lcl2 then 0 else 1) + (if remote = remote2 then 0 else 1)

/-- A toy hash primitive that copies its input, used to evaluate the
handlers on concrete events. -/
def copyHash : HashPrimitive := ⟨String, fun s => s, fun d => "#" ++ d⟩

/-! ## The pending stanza workers -/

/-- `JBPendingJob`: a stanza waiting to be routed, with the snapshot of the
stream it was received on. -/
structure JBPendingJob where
  m_event : JBEvent
  m_stream : String
  m_streamType : StreamType
  m_local : String
  m_flags : Nat
  m_serverTarget : Bool
  m_serverItemTarget : Bool
  deriving DecidableEq, Repr

/-- Modelled from the spec: `JBEvent::releaseStream(true)`, whose code is in
the jabber library. The event gives up its stream (the job keeps a snapshot,
not a live reference) and keeps its element. -/
def JBEvent.releaseStream (ev : JBEvent) : JBEvent := { ev with stream := none }

/-- Constructor `JBPendingJob::JBPendingJob` for an event on the stream `s`. -/
def JBPendingJob.init (L : Library) (e : YJBEngine) (ev : JBEvent) (s : JBStream) :
    JBPendingJob :=
  let m_serverItemTarget := ev.to.str ≠ "" && isServerItemDomain e ev.to.domain
  let m_serverTarget := !m_serverItemTarget && (ev.to.str = "" || L.jidEq ev.to s.local)
  { m_event := ev.releaseStream
    m_stream := s.toString
    m_streamType := s.type
    m_local := s.local.domain
    m_flags := s.flags
    m_serverTarget := m_serverTarget
    m_serverItemTarget := m_serverItemTarget }

/-- A worker thread: its index in the global list, its job list and whether
its cancellation was requested. -/
structure JBPendingWorker where
  m_index : Nat
  m_jobs : List JBPendingJob
  cancelled : Bool
  deriving DecidableEq, Repr

/-- A call of a worker into one of the routers. -/
inductive RouterCall where
  | processChat (worker : Nat) (job : JBPendingJob)
  | processIq (worker : Nat) (job : JBPendingJob)
  deriving DecidableEq, Repr

/-- The job handed to the router. -/
def RouterCall.job : RouterCall → JBPendingJob
  | RouterCall.processChat _ j => j
  | RouterCall.processIq _ j => j

/-- The worker that made the call. -/
def RouterCall.worker : RouterCall → Nat
  | RouterCall.processChat w _ => w
  | RouterCall.processIq w _ => w

/-- The static data of `JBPendingWorker` (`s_threads`, `s_threadCount`),
`Engine::exiting()`, and the calls made so far: `routed` lists the calls
into the routers and `errors` the calls of `sendStanzaError`. -/
structure PendingPool where
  s_threads : List (Option JBPendingWorker)
  s_threadCount : Nat
  exiting : Bool
  routed : List RouterCall
  errors : List (JBEvent × XMPPError)
  deriving DecidableEq, Repr

/-- The entry `s_threads[index]`. -/
def PendingPool.thread (p : PendingPool) (index : Nat) : Option JBPendingWorker :=
  (p.s_threads[index]?).join

/-- The assignment `s_threads[index] = x`. -/
def PendingPool.setThread (p : PendingPool) (index : Nat) (x : Option JBPendingWorker) :
    PendingPool :=
  { p with s_threads := p.s_threads.set index x }

/-- `JBPendingWorker::initialize`, on a pool that was not started: `threads`
workers with empty job lists, each registered at its index. -/
def JBPendingWorker.initialize (threads : Nat) : PendingPool :=
  { s_threads := (List.range threads).map (fun i => some ⟨i, [], false⟩)
    s_threadCount := threads
    exiting := false
    routed := []
    errors := [] }

/-- The string hashed by `JBPendingWorker::add` to pick a worker: `from`,
followed by `to` on a server stream. -/
def partitionKey (ev : JBEvent) (t : StreamType) : String :=
  ev.from.str ++ (if t = StreamType.s2s then ev.to.str else "")

/-- `JBPendingWorker::add`: the value returned and the pool afterwards. -/
def JBPendingWorker.add (L : Library) (e : YJBEngine) (p : PendingPool) (ev : JBEvent) :
    Bool × PendingPool :=
  match ev.element, ev.stream with
  | some _, some s =>
    if p.exiting then
      (false, { p with errors := p.errors ++ [(ev, XMPPError.Shutdown)] })
    else if !ev.refOk then
      (false, { p with errors := p.errors ++ [(ev, XMPPError.Internal)] })
    else
      let id := partitionKey ev s.type
      let index := L.stringHash id % p.s_threadCount
      match p.thread index with
      | some th =>
        let th := { th with m_jobs := th.m_jobs ++ [JBPendingJob.init L e ev s] }
        (true, p.setThread index (some th))
      | none =>
        (false, { p with errors := p.errors ++ [(ev, XMPPError.Internal)] })
  | _, _ => (false, p)

/-- `JBPendingWorker::resetIndex` of the worker `w`. -/
def JBPendingWorker.resetIndex (p : PendingPool) (w : JBPendingWorker) : PendingPool :=
  if w.m_index < p.s_threadCount ∧ (p.thread w.m_index).isSome then
    p.setThread w.m_index none
  else p

/-- One turn of the loop of `JBPendingWorker::run` for the worker registered
at `index`: leave on cancellation, otherwise take the first job off the list
and hand it to the router of its tag. -/
def JBPendingWorker.run (p : PendingPool) (index : Nat) : PendingPool :=
  match p.thread index with
  | none => p
  | some w =>
    if w.cancelled then JBPendingWorker.resetIndex p w
    else
      match w.m_jobs with
      | [] => p
      | job :: rest =>
        let p := p.setThread index (some { w with m_jobs := rest })
        match job.m_event.element with
        | some el =>
          match el.tag with
          | XmlTag.Message =>
            { p with routed := p.routed ++ [RouterCall.processChat w.m_index job] }
          | XmlTag.Iq => { p with routed := p.routed ++ [RouterCall.processIq w.m_index job] }
          | _ => p
        | none => p

/-- The cancellation of the worker at `index`, as `JBPendingWorker::stop`
requests it. -/
def JBPendingWorker.cancel (p : PendingPool) (index : Nat) : PendingPool :=
  match p.thread index with
  | some w => p.setThread index (some { w with cancelled := true })
  | none => p

/-- A step of the pool: a stanza event is added, a worker takes a turn of its
loop, or a worker is cancelled. -/
inductive PoolOp where
  | add (ev : JBEvent)
  | run (index : Nat)
  | cancel (index : Nat)
  deriving DecidableEq, Repr

/-- The job `add` builds for an event, when the event carries a stream. -/
def JBPendingJob.ofEvent (L : Library) (e : YJBEngine) (ev : JBEvent) : List JBPendingJob :=
  match ev.stream with
  | some s => [JBPendingJob.init L e ev s]
  | none => []

/-- Runs a schedule of steps from the pool `p`. Returns the final pool and
the jobs of the events `add` accepted, in the order of the calls. -/
def runOps (L : Library) (e : YJBEngine) :
    PendingPool → List PoolOp → PendingPool × List JBPendingJob
  | p, [] => (p, [])
  | p, PoolOp.add ev :: ops =>
    let r := JBPendingWorker.add L e p ev
    let r2 := runOps L e r.2 ops
    (r2.1, (if r.1 then JBPendingJob.ofEvent L e ev else []) ++ r2.2)
  | p, PoolOp.run index :: ops => runOps L e (JBPendingWorker.run p index) ops
  | p, PoolOp.cancel index :: ops => runOps L e (JBPendingWorker.cancel p index) ops

/-- The partition key of a queued job, read from its snapshot. -/
def JBPendingJob.key (j : JBPendingJob) : String := partitionKey j.m_event j.m_streamType

/-- The job carries a message or an iq: a worker hands it to a router. -/
def JBPendingJob.routable (j : JBPendingJob) : Bool :=
  match j.m_event.element with
  | some el => el.tag == XmlTag.Message || el.tag == XmlTag.Iq
  | none => false

/-- The jobs handed to the routers so far, in order. -/
def PendingPool.routedJobs (p : PendingPool) : List JBPendingJob := p.routed.map RouterCall.job

/-- The job belongs to the partition key `k`. -/
def keyIs (k : String) (j : JBPendingJob) : Bool := j.key == k

/-- The job belongs to the partition key `k` and is handed to a router. -/
def selects (k : String) (j : JBPendingJob) : Bool := j.key == k && j.routable

/-- Every registered worker sits at its own index and holds only jobs whose
key hashes to that index. -/
def PendingPool.WF (L : Library) (p : PendingPool) : Prop :=
  ∀ i w, p.thread i = some w →
    w.m_index = i ∧ ∀ job ∈ w.m_jobs, L.stringHash job.key % p.s_threadCount = i

/-- Every call into a router was made by the worker the job's key hashes to. -/
def PendingPool.RoutedBy (L : Library) (p : PendingPool) : Prop :=
  ∀ c ∈ p.routed, c.worker = L.stringHash c.job.key % p.s_threadCount

/-- The accepted jobs `A` of key `k` are the jobs of `k` handed to the routers
followed by a list that, while the worker of `k` is registered, is what its
job list holds for `k`. -/
def PendingPool.Fifo (L : Library) (k : String) (p : PendingPool)
    (A : List JBPendingJob) : Prop :=
  ∃ pend, A.filter (selects k) = p.routedJobs.filter (keyIs k) ++ pend
    ∧ ∀ w, p.thread (L.stringHash k % p.s_threadCount) = some w →
        pend = w.m_jobs.filter (selects k)

/-! ## Module start, stream start, resource binding and authentication -/

/-- The number of workers `JBModule::initialize` asks for: the configured
`workers` value (1 when it is absent or unreadable), brought into 1..10. -/
def workerCount (workers : Option Int) : Int :=
  let n := workers.getD 1
  if n < 1 then 1
  else if n > 10 then 10
  else n

/-- `JBPendingWorker::initialize` on the static data, `none` being a null
`s_threads`: workers are started only when none were. -/
def JBPendingWorker.initializeStatic (s_threads : Option PendingPool) (threads : Nat) :
    Option PendingPool :=
  match s_threads with
  | some p => some p
  | none => some ( JBPendingWorker.initialize threads)

/-- The start of the pending workers in the first `JBModule::initialize`,
where `s_threads` is still null. -/
def startPendingWorkers (workers : Option Int) : Option PendingPool :=
  JBPendingWorker.initializeStatic none (workerCount workers).toNat

/-- The `JBEvent::Start` case of `processEvent`; `processStartIn` is the
handler of incoming streams. -/
def processEventStart (L : Library) (processStartIn : JBEvent → List Effect)
    (ev : JBEvent) : List Effect :=
  match ev.stream with
  | none => []
  | some stream =>
    if stream.incoming then processStartIn ev
    else if !L.checkDupId stream then [Effect.start stream.toString]
    else [Effect.terminate stream.toString true XMPPError.InvalidId]

/-- `YJBEngine::restrictedResource`. -/
def restrictedResource (L : Library) (e : YJBEngine) (name : String) : Bool :=
  if e.m_restrictedResources.any (fun s => L.startsWith s name) then true
  else if e.m_items.any (fun jid => jid.resource != "" && L.startsWith jid.resource name)
  then true
  else false

/-- `YJBEngine::findBindingRes`: the first reservation equal to `user`. -/
def findBindingRes (L : Library) (e : YJBEngine) (user : JabberID) : Option JabberID :=
  e.m_bindingResources.find? (fun o => L.jidEq user o)

/-- `YJBEngine::removeBindingResource`. -/
def removeBindingResource (L : Library) (e : YJBEngine) (user : JabberID) : YJBEngine :=
  if user.str = "" then e
  else
    match findBindingRes L e user with
    | some _ =>
      { e with m_bindingResources := e.m_bindingResources.eraseP (fun o => L.jidEq user o) }
    | none => e

/-- The `resource.notify` query built by `bindingResource`. -/
def resourceQuery (user : JabberID) : Message :=
  ((((pluginMessage "resource.notify").addParam "operation" "query").addParam "nodata"
    (boolText true)).addParam "contact" user.bare).addParam "instance" user.resource

/-- `YJBEngine::bindingResource` when `t` messages were dispatched so far:
the value returned, the engine and the number of dispatched messages
afterwards. -/
def bindingResource (L : Library) (e : YJBEngine) (t : Nat) (user : JabberID) :
    Bool × YJBEngine × Nat :=
  if user.resource = "" ∨ restrictedResource L e user.resource = true
      ∨ (findBindingRes L e user).isSome = true then (false, e, t)
  else
    let ok := !L.dispatch t (resourceQuery user)
    if ok then (true, { e with m_bindingResources := e.m_bindingResources ++ [user] }, t + 1)
    else (false, e, t + 1)

/-- `JBEvent::clientStream`: the stream when it is a client stream. -/
def JBEvent.clientStream (ev : JBEvent) : Option JBStream :=
  match ev.stream with
  | some s => if s.type = StreamType.c2s then some s else none
  | none => none

/-- The static function `getChildText`. -/
def getChildText (L : Library) (xml : XmlElement) (tag ns : String) : String :=
  match L.findFirstChild xml tag ns with
  | some ch => ch.getText
  | none => ""

/-- The outcome of `processBind`: the engine and the number of dispatched
messages afterwards, the calls made, and the jabber ids whose reservation was
attempted in the fallback loop, in order. -/
structure BindResult where
  engine : YJBEngine
  t : Nat
  effects : List Effect
  attempts : List JabberID
  deriving DecidableEq, Repr

/-- The first part of `processBind`: the reservation of the requested
resource of `jid`. The resource is cleared when it cannot be reserved or when
a stream other than `c2s` already holds it. -/
def bindRequested (L : Library) (e : YJBEngine) (t : Nat) (c2s : JBStream)
    (jid : JabberID) : JabberID × YJBEngine × Nat :=
  if jid.resource ≠ "" then
    let r := bindingResource L e t jid
    if r.1 then
      let list := L.findClientStreams jid [jid.resource]
      if list.any (fun s => s.toString != c2s.toString) then
        ((jid.setResource ""), removeBindingResource L r.2.1 jid, r.2.2)
      else (jid, r.2.1, r.2.2)
    else ((jid.setResource ""), r.2.1, r.2.2)
  else (jid, e, t)

/-- The fallback loop of `processBind`, with `n` turns left. -/
def bindFallback (L : Library) (c2s : JBStream) :
    Nat → YJBEngine → Nat → JabberID → JabberID × YJBEngine × Nat × List JabberID
  | 0, e, t, jid => (jid, e, t, [])
  | n + 1, e, t, jid =>
    let jid := (jid.setResource (L.md5Hex c2s.id))
    let r := bindingResource L e t jid
    if r.1 then (jid, r.2.1, r.2.2, [jid])
    else
      let rest := bindFallback L c2s n r.2.1 r.2.2 (jid.setResource "")
      (rest.1, rest.2.1, rest.2.2.1, jid :: rest.2.2.2)

/-- The resource `processBind` settles on before it registers the user: the
jabber id (with an empty resource when none could be reserved), the engine,
the number of dispatched messages and the fallback attempts. -/
def bindChoose (L : Library) (e : YJBEngine) (t : Nat) (c2s : JBStream)
    (requested : String) : JabberID × YJBEngine × Nat × List JabberID :=
  let r := bindRequested L e t c2s (c2s.remote.setResource requested)
  if r.1.resource = "" then bindFallback L c2s 3 r.2.1 r.2.2 r.1
  else (r.1, r.2.1, r.2.2, [])

/-- `YJBEngine::processBind` when `t` messages were dispatched so far. -/
def processBind (L : Library) (e : YJBEngine) (t : Nat) (ev : JBEvent) : BindResult :=
  let reject : BindResult :=
    ⟨e, t, [Effect.sendStanzaError (ev.stream.map JBStream.toString) ev.id
      XMPPError.ServiceUnavailable], []⟩
  match ev.clientStream, ev.child with
  | some c2s, some child =>
    if c2s.incoming then
      let r := bindChoose L e t c2s (getChildText L child "resource" "bind")
      let jid := r.1
      let ok := jid.resource != "" && L.dispatch r.2.2.1 (userRegister c2s true jid.resource)
      let t2 := if jid.resource ≠ "" then r.2.2.1 + 1 else r.2.2.1
      let effects :=
        if ok then [Effect.bind c2s.toString jid.resource ev.id]
        else [Effect.sendStanzaError (some c2s.toString) ev.id XMPPError.NotAuthorized]
      ⟨removeBindingResource L r.2.1 jid, t2, effects, r.2.2.2⟩
    else reject
  | _, _ => reject

/-- The `user.auth` message handled by `UserAuthMessage::dispatched`: its
parameters, the value returned by the handlers, and the stream it was built
for. -/
structure UserAuthMessage where
  params : List (String × String)
  retValue : String
  m_stream : String
  m_streamType : StreamType
  m_bindingUser : Option JabberID
  deriving DecidableEq, Repr

/-- `NamedList::getParam`: the value of the first parameter of that name. -/
def UserAuthMessage.getParam (m : UserAuthMessage) (name : String) : Option String :=
  (m.params.find? (fun p => p.1 == name)).map (fun p => p.2)

/-- `NamedList::getValue`: the value of a parameter, empty when absent. -/
def UserAuthMessage.getValue (m : UserAuthMessage) (name : String) : String :=
  (m.getParam name).getD ""

/-- The credential check of `UserAuthMessage::dispatched` on the stream found
for the message: `ok` and the value to send back with a SASL success. -/
def UserAuthMessage.check (L : Library) (m : UserAuthMessage) (accepted : Bool)
    (stream : JBStream) : Bool × String :=
  let username := L.jabberID (m.getValue "username")
  if accepted ∧ m.retValue = "-" then (false, "")
  else if ¬ (accepted ∨ m.retValue ≠ "") then (false, "")
  else if username.str = "" then (false, "")
  else if m.m_streamType = StreamType.c2s then
    match stream.m_sasl with
    | some sasl =>
      match m.getParam "response" with
      | some rsp =>
        if sasl.m_plain then (rsp == m.retValue, "")
        else
          let digest := L.buildMD5Digest sasl m.retValue true
          if rsp == digest then (true, L.buildMD5Digest sasl m.retValue false)
          else (false, "")
      | none => (false, "")
    | none =>
      match m.getParam "digest" with
      | some auth => (L.buildSha1Digest stream m.retValue == auth, "")
      | none =>
        match m.getParam "password" with
        | some auth => (auth == m.retValue, "")
        | none => (false, "")
  else if stream.type = StreamType.comp then
    (L.buildSha1Digest stream m.retValue == m.getValue "handshake", "")
  else (false, "")

/-- `UserAuthMessage::dispatched`. -/
def UserAuthMessage.dispatched (L : Library) (m : UserAuthMessage) (accepted : Bool) :
    List Effect :=
  match L.findStream m.m_stream m.m_streamType with
  | some stream =>
    let r := m.check L accepted stream
    [Effect.authenticated stream.toString r.1 r.2 XMPPError.NotAuthorized
      (L.jabberID (m.getValue "username")).node (m.getValue "requestid")
      (m.getValue "instance")]
  | none => []

/-! ## Reading the recorded calls -/

/-- The call is a `sendDbResult`: a dialback result handed to a stream. -/
def Effect.isSendDbResult : Effect → Bool
  | Effect.sendDbResult _ _ _ _ => true
  | _ => false

/-- The call is a `terminate` of a stream. -/
def Effect.isTerminate : Effect → Bool
  | Effect.terminate _ _ _ => true
  | _ => false

/-- The call is a `takeDb` that found a pending request. -/
def Effect.isTake : Effect → Bool
  | Effect.takeDb _ (some _) => true
  | _ => false

/-- The call is a `takeDb`, whatever it found. -/
def Effect.isTakeDb : Effect → Bool
  | Effect.takeDb _ _ => true
  | _ => false

/-- The call is a `createServerStream` that gave a stream. -/
def Effect.isCreated : Effect → Bool
  | Effect.createServerStream _ _ _ _ _ (some _) => true
  | _ => false

/-- `processDbResult` obtained an outgoing stream. -/
def obtainsStream (effs : List Effect) : Bool := effs.any Effect.isCreated

/-- The adjustment of a decoded verify response made by `processDbVerify`
before it is relayed. -/
def adjustDbRsp (r : XMPPError) : XMPPError :=
  if r = XMPPError.ItemNotFound ∨ r = XMPPError.HostUnknown then XMPPError.NoRemote else r

/-- The `DbVerify` events of `evs` processed in turn on the stream `s`, as
`processEvent` hands them to `processDbVerify`. -/
def processDbVerifySeq (L : Library) (e : YJBEngine) (s : JBStream) :
    List JBEvent → JBStream × List Effect
  | [] => (s, [])
  | ev :: rest =>
    let r := processDbVerify L e { ev with stream := some s }
    let r2 := processDbVerifySeq L e (r.1.getD s) rest
    (r2.1, r.2 ++ r2.2)

/-- The first event of `evs` that carries an element, with that element:
`processDbVerify` returns at once on an event without one. -/
def firstVerify : List JBEvent → Option (JBEvent × XmlElement)
  | [] => none
  | ev :: rest =>
    match ev.element with
    | some el => some (ev, el)
    | none => firstVerify rest

/-- A sequence of `DbVerify` events followed by the termination event `term`
on the stream `s`. -/
def verifyThenTerminate (L : Library) (e : YJBEngine) (s : JBStream)
    (evs : List JBEvent) (term : JBEvent) : JBStream × List Effect :=
  let r := processDbVerifySeq L e s evs
  let r2 := processStreamEvent L e { term with stream := some r.1 } r.1
  (r2.2.1, r.2 ++ r2.2.2)

/-! ## Concrete streams and events -/

/-- An engine servicing `b.example` with dialback secret `S`. -/
def demoEngine : YJBEngine :=
  { m_dialbackSecret := "S", m_domains := ["b.example"], m_dynamicDomains := [],
    m_components := [], m_items := [] }

/-- The incoming server stream `s2s/1` from `a.example`, stream id `r1`. -/
def demoIncoming : JBStream :=
  { toString := "s2s/1", type := StreamType.s2s, incoming := true, id := "r1",
    «local» := JabberID.ofDomain "b.example", remote := JabberID.ofDomain "a.example",
    state := StreamState.Starting, flags := 0, availableResource := false,
    rosterRequested := false, noAutoRestart := false, dialback := false, m_dbKey := none }

/-- The outgoing server stream `s2s/2` to `a.example`, holding the pending
dialback request `r1`. -/
def demoOutgoing : JBStream :=
  { toString := "s2s/2", type := StreamType.s2s, incoming := false, id := "o1",
    «local» := JabberID.ofDomain "b.example", remote := JabberID.ofDomain "a.example",
    state := StreamState.Running, flags := 0, availableResource := false,
    rosterRequested := false, noAutoRestart := false, dialback := false,
    m_dbKey := some ⟨"r1", "k1"⟩ }

/-- A library whose registry holds `demoIncoming`, creates outgoing streams
on request and decodes the `type` attribute of a verify response. -/
def demoLibrary : Library :=
  { hash := copyHash
    decodeDbRsp := fun el =>
      if el.getAttribute "type" = "valid" then XMPPError.NoError
      else if el.getAttribute "type" = "error" then XMPPError.ItemNotFound
      else XMPPError.NotAuthorized
    findServerStream := fun _ _ out _ => if out then none else some demoIncoming
    createServerStream := fun _ _ id key dbOnly =>
      some { demoOutgoing with dialback := dbOnly, m_dbKey := some ⟨id, key⟩ }
    stringHash := String.length
    jidEq := fun a b => a == b
    dispatch := fun _ m => m.name == "user.register"
    md5Hex := fun s => "md5:" ++ s
    startsWith := fun s what => what != "" && what.data.isPrefixOf s.data
    findFirstChild := fun x tag _ => if x.attributes.any (fun p => p.1 == tag) then
      some ⟨XmlTag.Other, [], x.getAttribute tag⟩ else none
    findClientStreams := fun _ _ => []
    findStream := fun _ _ => none
    checkDupId := fun _ => false
    buildMD5Digest := fun _ pwd rsp => (if rsp then "md5-rsp:" else "md5-auth:") ++ pwd
    buildSha1Digest := fun s pwd => "sha1:" ++ s.id ++ pwd
    jabberID := fun str => ⟨"", str, ""⟩ }

/-- An event of type `t` on the stream `s`, from `a.example` to `b.example`. -/
def demoEvent (t : JBEventType) (s : JBStream) (el : Option XmlElement) (text : String) :
    JBEvent :=
  { type := t, stream := some s, element := el, «from» := JabberID.ofDomain "a.example",
    «to» := JabberID.ofDomain "b.example", id := "", text := text, refOk := true }

/-- A `db:verify` element with the given id, type and text. -/
def demoVerify (id type text : String) : XmlElement :=
  ⟨XmlTag.Other, [("id", id), ("type", type)], text⟩

/-- A verify request on `demoIncoming` carrying the key of (r1, b.example,
a.example) under the copying primitive. -/
def demoVerifyRequest : JBEvent :=
  demoEvent JBEventType.DbVerify demoIncoming
    (some (demoVerify "r1" "" "##Sb.example a.example r1")) ""

/-- A dialback result on `demoIncoming` presenting the key `text`. -/
def demoDbResult (text : String) : JBEvent :=
  demoEvent JBEventType.DbResult demoIncoming none text

/-- A verify response on the outgoing stream `s` with the given id and
type. -/
def demoVerifyResponse (s : JBStream) (id type : String) : JBEvent :=
  demoEvent JBEventType.DbVerify s (some (demoVerify id type "")) ""

/-- A message stanza with the given text, received on `demoIncoming`. -/
def demoMessage (text : String) : JBEvent :=
  demoEvent JBEventType.Message demoIncoming (some ⟨XmlTag.Message, [], text⟩) ""

/-- A schedule on two workers: two messages of one conversation are added,
then the worker of that conversation takes two turns. -/
def demoSchedule : List PoolOp :=
  [PoolOp.add (demoMessage "one"), PoolOp.add (demoMessage "two"), PoolOp.run 0,
   PoolOp.run 0]

/-- The worker at `index` takes `n` turns of its loop in a row. -/
def runTurns (index : Nat) : Nat → PendingPool → PendingPool
  | 0, p => p
  | n + 1, p => runTurns index n (JBPendingWorker.run p index)

/-- A message stanza from the user `node` of `a.example` to `b.example`,
received on the server stream `demoIncoming`. -/
def demoStanza (node : String) : JBEvent :=
  { demoMessage "hello" with «from» := ⟨node, "a.example", ""⟩ }

/-- Two started workers, the first one holding one job when it is
cancelled. -/
def demoCancelled : PendingPool :=
  (runOps demoLibrary demoEngine ( JBPendingWorker.initialize 2)
    [PoolOp.add (demoMessage "one"), PoolOp.cancel 0]).1

/-- The reservation `processBind` ends up with for the jabber id `jid`,
from the engine `e`: none, with an empty resource and the engine unchanged,
or `jid` itself, not reserved in `e` and appended to the reservations. -/
def Reserved (L : Library) (e : YJBEngine) (jid : JabberID) (e1 : YJBEngine) : Prop :=
  (jid.resource = "" ∧ e1 = e)
    ∨ (jid.resource ≠ "" ∧ findBindingRes L e jid = none
        ∧ e1 = { e with m_bindingResources := e.m_bindingResources ++ [jid] })

/-- The incoming client stream `c2s/42` of the user `alice@b.example`. -/
def demoClient : JBStream :=
  { toString := "c2s/42", type := StreamType.c2s, incoming := true, id := "c2s/42",
    «local» := JabberID.ofDomain "b.example", remote := ⟨"alice", "b.example", ""⟩,
    state := StreamState.Running, flags := 0, availableResource := false,
    rosterRequested := false, noAutoRestart := false, dialback := false, m_dbKey := none }

/-- A bind request on `demoClient` asking for the resource `res`. -/
def demoBind (res : String) : JBEvent :=
  { demoEvent JBEventType.Bind demoClient none "" with
    id := "b1", child := some ⟨XmlTag.Other, [("resource", res)], ""⟩ }

/-- An engine where the names `admin` are restricted and the resource `home`
of `bob@b.example` is being bound. -/
def demoBindEngine : YJBEngine :=
  { demoEngine with
    m_restrictedResources := ["admin"]
    m_bindingResources := [⟨"bob", "b.example", "home"⟩] }

/-- The answer of the authenticator is a denial: accepted with the returned
value `-`, or not accepted with an empty returned value. -/
def UserAuthMessage.denied (m : UserAuthMessage) (accepted : Bool) : Prop :=
  (accepted = true ∧ m.retValue = "-") ∨ (accepted = false ∧ m.retValue = "")

/-- The credential the client presented on `stream` matches the value
returned by the authenticator, case by case as the claim lists them. The
legacy password counts when no digest was presented. -/
inductive CredentialMatches (L : Library) (m : UserAuthMessage) (stream : JBStream) : Prop
  | saslPlain (sasl : XMPPSasl) (rsp : String) :
      m.m_streamType = StreamType.c2s → stream.m_sasl = some sasl → sasl.m_plain = true →
      m.getParam "response" = some rsp → rsp = m.retValue → CredentialMatches L m stream
  | saslMD5 (sasl : XMPPSasl) (rsp : String) :
      m.m_streamType = StreamType.c2s → stream.m_sasl = some sasl → sasl.m_plain = false →
      m.getParam "response" = some rsp → rsp = L.buildMD5Digest sasl m.retValue true →
      CredentialMatches L m stream
  | legacyDigest (digest : String) :
      m.m_streamType = StreamType.c2s → stream.m_sasl = none →
      m.getParam "digest" = some digest → digest = L.buildSha1Digest stream m.retValue →
      CredentialMatches L m stream
  | legacyPassword (password : String) :
      m.m_streamType = StreamType.c2s → stream.m_sasl = none →
      m.getParam "digest" = none → m.getParam "password" = some password →
      password = m.retValue → CredentialMatches L m stream
  | component :
      m.m_streamType ≠ StreamType.c2s → stream.type = StreamType.comp →
      m.getValue "handshake" = L.buildSha1Digest stream m.retValue →
      CredentialMatches L m stream

/-- The `user.auth` message of the legacy password request of `alice` on
`demoClient`, answered with the password `secret`. -/
def demoAuth (password : String) : UserAuthMessage :=
  { params := [("username", "alice@b.example"), ("password", password),
      ("requestid", "a1"), ("instance", "work")]
    retValue := "secret", m_stream := "c2s/42", m_streamType := StreamType.c2s,
    m_bindingUser := none }

/-- The demo library with `demoClient` registered. -/
def demoAuthLibrary : Library :=
  { demoLibrary with
    findStream := fun name t =>
      if name = "c2s/42" ∧ t = StreamType.c2s then some demoClient else none
    jabberID := fun str =>
      if str = "alice@b.example" then ⟨"alice", "b.example", ""⟩ else ⟨"", str, ""⟩ }

/-! ## Radio read buffers (`libs/yradio/yateradio.h`) -/

/-- `RadioBufDesc`, without the sample pointer: the current buffer offset
and the number of valid samples, two `unsigned int` that are only compared. -/
structure RadioBufDesc where
  offs : Nat
  valid : Nat
  deriving DecidableEq, Repr

/-- `RadioBufDesc::validSamples`. -/
def RadioBufDesc.validSamples (b : RadioBufDesc) (minSamples : Nat) : Bool :=
  minSamples == 0 || decide (minSamples ≥ b.offs) || decide (minSamples ≥ b.valid)

/-- `RadioReadBufs`: the length of a buffer and the threshold for valid
samples. -/
structure RadioReadBufs where
  m_bufSamples : Nat
  m_validMin : Nat
  deriving DecidableEq, Repr

/-- Constructor `RadioReadBufs(len, validThres)`. -/
def RadioReadBufs.init (len validThres : Nat) : RadioReadBufs := ⟨len, validThres⟩

/-- `RadioReadBufs::full`. -/
def RadioReadBufs.full (r : RadioReadBufs) (buf : RadioBufDesc) : Bool :=
  decide (buf.offs ≥ r.m_bufSamples)

/-- `RadioReadBufs::valid`. -/
def RadioReadBufs.valid (r : RadioReadBufs) (buf : RadioBufDesc) : Bool :=
  buf.validSamples r.m_validMin

/-! ## Stanza routers, presence, stream features and module start -/

/-- The answer of the message handlers to a dispatched message: the value
`Engine::dispatch` returns, the returned value and the parameters of the
message afterwards, the element `XMPPUtils::getXml` finds in its `response`
parameter, and the elements carried by its `xml` parameters, in order. -/
structure Answer where
  ok : Bool
  retValue : String
  params : List (String × String)
  response : Option XmlElement
  xmls : List XmlElement
  deriving DecidableEq, Repr

/-- What the stanza handlers take from the engine, from the class library
and from `XMPPUtils`, whose code is not part of these sources. `handle n m` is
the answer of the message handlers to `m` when it is the `n`-th message
dispatched; `childNs x` is the index in `XMPPUtils::s_ns` of the `xmlns` of
`x`, `xmlnsText x` that `xmlns` itself; `tagName` is `XmlElement::toString`;
`toInteger` and `toBoolean` are the `String` conversions with their default
value; `processRsp` is that of the entity capability list; `flagTls` tells
whether a flag word has `JBStream::StreamTls`; `sendOk` is the value `JBStream::sendStanza` returns; `msgTime` is the time of
the message being routed; `runParam` reads `Engine::runParams`. -/
structure Env where
  handle : Nat → Message → Answer
  msgType : String → MsgType
  iqType : String → IqType
  presenceType : String → Presence
  childNs : XmlElement → XMPPNamespace
  xmlnsText : XmlElement → String
  nsName : XMPPNamespace → String
  typeName : StreamType → String
  tagName : XmlElement → String
  isUnprefTag : XmlElement → String → Bool
  getTag : XmlElement → Option (String × XMPPNamespace)
  toInteger : String → Int → Int
  toBoolean : String → Bool → Bool
  subject : XmlElement → String
  body : XmlElement → String
  priority : XmlElement → Int
  xmlString : XmlElement → String
  getChatXml : Message → Option XmlElement
  processRsp : Option XmlElement → String → Bool → Bool
  sendOk : String → XmlElement → Bool
  remoteAddr : JBStream → Option (String × String)
  flagTls : Nat → Bool
  msgTime : String
  split : String → List String
  toLower : String → String
  runParam : String → String

/-- `NamedList::getParam`: the value of the first parameter of that name. -/
def NamedList.getParam (l : List (String × String)) (name : String) : Option String :=
  (l.find? (fun p => p.1 == name)).map (fun p => p.2)

/-- `NamedList::getValue`: the value of a parameter, empty when absent. -/
def NamedList.getValue (l : List (String × String)) (name : String) : String :=
  (NamedList.getParam l name).getD ""

/-- `NamedList::getIntValue` with the default value 0. -/
def NamedList.getIntValue (E : Env) (l : List (String × String)) (name : String) : Int :=
  match NamedList.getParam l name with
  | some v => E.toInteger v 0
  | none => 0

/-- `NamedList::getBoolValue`. -/
def NamedList.getBoolValue (E : Env) (l : List (String × String)) (name : String)
    (defvalue : Bool) : Bool :=
  match NamedList.getParam l name with
  | some v => E.toBoolean v defvalue
  | none => defvalue

/-- `NamedList::clearParam`: every parameter of that name is removed. -/
def NamedList.clearParam (l : List (String × String)) (name : String) :
    List (String × String) :=
  l.filter (fun p => p.1 != name)

/-- `NamedList::setParam`: the first parameter of that name gets the value,
or the parameter is added. -/
def NamedList.setParam : List (String × String) → String → String → List (String × String)
  | [], name, value => [(name, value)]
  | p :: rest, name, value =>
    if p.1 = name then (name, value) :: rest
    else p :: NamedList.setParam rest name value

/-- The static function `addValidParam`: the parameter is added when its
value is not empty. -/
def addValidParam (m : Message) (param value : String) : Message :=
  if value = "" then m else m.addParam param value

/-- The message after it was dispatched: its parameters are those of the
answer. -/
def Message.answered (m : Message) (a : Answer) : Message := { m with params := a.params }

/-- `YJBEngine::hasComponent`. -/
def hasComponent (e : YJBEngine) (domain : String) : Bool :=
  e.m_components.any (fun tmp => tmp == domain)

/-- `YJBEngine::getSubDomain`: the part of `domain` before the first
serviced domain it is a subdomain of, empty when there is none. -/
def getSubDomain (e : YJBEngine) (domain : String) : String :=
  match e.m_domains.find? (fun d =>
      ("." ++ d).data.isSuffixOf domain.data && decide (domain.length > ("." ++ d).length)) with
  | some d => String.mk (domain.data.take (domain.length - ("." ++ d).length))
  | none => ""

/-- `YJBEngine::getServerStream`: the stream found or created, and the calls
made. -/
def getServerStream (L : Library) (e : YJBEngine) (src dst : JabberID) :
    Option JBStream × List Effect :=
  match L.findServerStream src.domain dst.domain true true with
  | some s => (some s, [])
  | none =>
    if !hasDomain e src.domain then (none, [])
    else if getSubDomain e dst.domain ≠ "" then (none, [])
    else
      let s := L.createServerStream src.domain dst.domain "" "" false
      (s, [Effect.createServerStream src.domain dst.domain "" "" false
        (s.map JBStream.toString)])

/-- `YJBEngine::jabberFeature`. The `xml` parameter is a pointer: it is
recorded by its name, with an empty value. -/
def jabberFeature (E : Env) (xml : Option XmlElement) (t : XMPPNamespace)
    (sType : StreamType) (src dst operation : String) : Message :=
  let m := (pluginMessage "jabber.feature").addParam "feature" (E.nsName t)
  let m := addValidParam m "operation" operation
  let m := m.addParam "stream_type" (E.typeName sType)
  let m := m.addParam "from" src
  let m := addValidParam m "to" dst
  if xml.isSome then m.addParam "xml" "" else m

/-- The static function `buildIqResponse`. -/
def buildIqResponse (ev : JBEvent) (ok : Bool) (t : IqType) (xmlType : String)
    (ns : XMPPNamespace) : Stanza :=
  if ok then
    if t = IqType.IqGet then Stanza.iqResult ev.id (some (xmlType, ns))
    else Stanza.iqResult ev.id none
  else Stanza.iqError ev.id XMPPError.ServiceUnavailable

/-- The end shared by the iq handlers that ask the message handlers: the
feature message `m` is dispatched as the `n`-th message and the answer's
`response` element is returned, or else the response built from the answer. -/
def featureResponse (E : Env) (n : Nat) (ev : JBEvent) (m : Message) (t : IqType)
    (xmlType : String) (ns : XMPPNamespace) : Option Stanza × List Effect × Nat :=
  let a := E.handle n m
  match a.response with
  | some rsp => (some (Stanza.xml rsp), [Effect.dispatch m], n + 1)
  | none => (some (buildIqResponse ev a.ok t xmlType ns), [Effect.dispatch m], n + 1)

/-- `YJBEngine::processIqRoster` when `n` messages were dispatched so far:
the response, the calls made and the number of dispatched messages
afterwards. -/
def processIqRoster (E : Env) (n : Nat) (ev : JBEvent) (sType : StreamType) (t : IqType) :
    Option Stanza × List Effect × Nat :=
  if sType ≠ StreamType.c2s then
    if t = IqType.IqGet ∧ t = IqType.IqSet then
      (some (Stanza.iqError ev.id XMPPError.NotAllowed), [], n)
    else (none, [], n)
  else if t ≠ IqType.IqGet ∧ t ≠ IqType.IqSet then (none, [], n)
  else
    featureResponse E n ev
      (jabberFeature E ev.element XMPPNamespace.Roster sType ev.from.str ev.to.str "")
      t "query" XMPPNamespace.Roster

/-- `YJBEngine::processIqVCard`. -/
def processIqVCard (E : Env) (n : Nat) (ev : JBEvent) (sType : StreamType) (t : IqType) :
    Option Stanza × List Effect × Nat :=
  let refuse : Option Stanza × List Effect × Nat :=
    (some (Stanza.iqError ev.id XMPPError.ServiceUnavailable), [], n)
  let own := jabberFeature E ev.element XMPPNamespace.VCard sType ev.from.str "" ""
  if t ≠ IqType.IqGet ∧ t ≠ IqType.IqSet then (none, [], n)
  else if ev.from.bare = "" then refuse
  else if t = IqType.IqSet then
    if sType ≠ StreamType.c2s then refuse
    else if ev.to.str ≠ "" ∧ ev.to.str ≠ ev.from.domain then refuse
    else featureResponse E n ev own t "vCard" XMPPNamespace.VCard
  else if ev.to.str = "" ∨ ev.to.str = ev.from.domain then
    featureResponse E n ev own t "vCard" XMPPNamespace.VCard
  else
    featureResponse E n ev
      (jabberFeature E ev.element XMPPNamespace.VCard sType ev.from.str ev.to.str "")
      t "vCard" XMPPNamespace.VCard

/-- `YJBEngine::processIqPrivate`. -/
def processIqPrivate (E : Env) (n : Nat) (ev : JBEvent) (sType : StreamType) (t : IqType) :
    Option Stanza × List Effect × Nat :=
  if sType ≠ StreamType.c2s then
    if t = IqType.IqGet ∨ t = IqType.IqSet then
      (some (Stanza.iqError ev.id XMPPError.NotAllowed), [], n)
    else (none, [], n)
  else if t ≠ IqType.IqGet ∧ t ≠ IqType.IqSet then (none, [], n)
  else if ev.to.str ≠ "" ∧ ev.to.bare ≠ ev.from.bare then
    (some (Stanza.iqError ev.id XMPPError.Forbidden), [], n)
  else if ev.from.resource = "" then
    (some (Stanza.iqError ev.id XMPPError.ServiceUnavailable), [], n)
  else
    featureResponse E n ev
      (jabberFeature E ev.element XMPPNamespace.IqPrivate sType ev.from.str "" "")
      t "query" XMPPNamespace.IqPrivate

/-- `YJBEngine::processIqRegister`. -/
def processIqRegister (E : Env) (n : Nat) (ev : JBEvent) (sType : StreamType) (t : IqType)
    (domain : String) (flags : Nat) : Option Stanza × List Effect × Nat :=
  if sType ≠ StreamType.c2s then
    if t = IqType.IqGet ∨ t = IqType.IqSet then
      (some (Stanza.iqError ev.id XMPPError.NotAllowed), [], n)
    else (none, [], n)
  else if t ≠ IqType.IqGet ∧ t ≠ IqType.IqSet then (none, [], n)
  else
    let m := jabberFeature E ev.element XMPPNamespace.IqRegister sType ev.from.str "" ""
    let m := (m.addParam "stream_domain" domain).addParam "stream_flags" (toString flags)
    ((E.handle n m).response.map Stanza.xml, [Effect.dispatch m], n + 1)

/-- `YJBEngine::processIqAuth`. -/
def processIqAuth (E : Env) (e : YJBEngine) (ev : JBEvent) (sType : StreamType) (t : IqType)
    (flags : Nat) : Option Stanza :=
  if sType ≠ StreamType.c2s then
    if t = IqType.IqGet ∨ t = IqType.IqSet then some (Stanza.iqError ev.id XMPPError.NotAllowed)
    else none
  else if t ≠ IqType.IqGet ∧ t ≠ IqType.IqSet then none
  else if t = IqType.IqGet then
    some (Stanza.iqAuthOffer ev.id (e.m_allowUnsecurePlainAuth || E.flagTls flags))
  else some (Stanza.iqError ev.id XMPPError.ServiceUnavailable)

/-- `YJBEngine::discoInfo`, for an event whose child is `service`. -/
def discoInfo (L : Library) (E : Env) (e : YJBEngine) (ev : JBEvent) (service : XmlElement)
    (sType : StreamType) : Stanza :=
  if ev.stanzaType = "get" ∧ E.isUnprefTag service "query" = true then
    let node := service.getAttribute "node"
    let ok : Bool :=
      if node ≠ "" ∧ ev.to.domain ≠ "" ∧ L.startsWith node ev.to.domain = true then
        match node.data[ev.to.domain.length]? with
        | none => true
        | some c =>
          if c = Char.ofNat 35 then
            if sType = StreamType.c2s then
              String.mk (node.data.drop (ev.to.domain.length + 1)) == e.m_c2sEntityCapsHash
            else String.mk (node.data.drop (ev.to.domain.length + 1)) == e.m_entityCapsHash
          else true
      else node == ""
    if ok then Stanza.discoInfo ev.id (sType == StreamType.c2s)
    else Stanza.iqError ev.id XMPPError.ItemNotFound
  else Stanza.iqError ev.id XMPPError.ServiceUnavailable

/-- `YJBEngine::discoItems`, for an event whose child is `service`. -/
def discoItems (E : Env) (e : YJBEngine) (ev : JBEvent) (service : XmlElement) : Stanza :=
  if ev.stanzaType = "get" ∧ E.isUnprefTag service "query" = true then
    if service.getAttribute "node" = "" then
      Stanza.discoItems ev.id (e.m_items.map JabberID.str)
    else Stanza.iqError ev.id XMPPError.ItemNotFound
  else Stanza.iqError ev.id XMPPError.ServiceUnavailable

/-- `JBPendingJob::getStream`. -/
def JBPendingJob.getStream (L : Library) (e : YJBEngine) (job : JBPendingJob) :
    Option JBStream × List Effect :=
  if job.m_streamType ≠ StreamType.s2s then (L.findStream job.m_stream job.m_streamType, [])
  else getServerStream L e job.m_event.to job.m_event.from

/-- `JBPendingJob::sendStanza`. -/
def JBPendingJob.sendStanza (L : Library) (e : YJBEngine) (job : JBPendingJob)
    (xml : Option Stanza) (regular : Bool) : List Effect :=
  match xml with
  | none => []
  | some x =>
    let r := job.getStream L e
    match r.1 with
    | some stream =>
      r.2 ++ [Effect.sendStanza stream.toString job.m_event.to.str
        (if stream.type ≠ StreamType.c2s then job.m_event.from.str else "") x regular]
    | none => r.2

/-- `JBPendingJob::sendIqResultStanza`, without a child. -/
def JBPendingJob.sendIqResultStanza (L : Library) (e : YJBEngine) (job : JBPendingJob) :
    List Effect :=
  job.sendStanza L e (some (Stanza.iqResult job.m_event.id none)) true

/-- `JBPendingJob::sendIqErrorStanza`. -/
def JBPendingJob.sendIqErrorStanza (L : Library) (e : YJBEngine) (job : JBPendingJob)
    (error : XMPPError) : List Effect :=
  job.sendStanza L e (some (Stanza.iqError job.m_event.id error)) true

/-- `JBPendingJob::sendChatErrorStanza`. -/
def JBPendingJob.sendChatErrorStanza (L : Library) (e : YJBEngine) (job : JBPendingJob)
    (error : XMPPError) : List Effect :=
  job.sendStanza L e (some (Stanza.messageError job.m_event.id error)) true

/-- The first `switch` of `processIq`, for a get or a set addressed to the
server: the response of the namespaces answered there, none for the others. -/
def iqServerResponse (L : Library) (E : Env) (e : YJBEngine) (job : JBPendingJob)
    (t : IqType) (ns : XMPPNamespace) : Option Stanza :=
  let ev := job.m_event
  match ns, ev.child with
  | XMPPNamespace.DiscoInfo, some service => some (discoInfo L E e ev service job.m_streamType)
  | XMPPNamespace.DiscoItems, some service => some (discoItems E e ev service)
  | XMPPNamespace.IqVersion, some service =>
    if t = IqType.IqGet ∧ E.tagName service = "query" then
      some (Stanza.iqVersion ev.id e.m_progName e.m_progVersion)
    else some (Stanza.iqError ev.id XMPPError.ServiceUnavailable)
  | XMPPNamespace.Session, some service =>
    if job.m_streamType = StreamType.c2s ∧ t = IqType.IqSet ∧ E.tagName service = "session" then
      some (Stanza.iqResult ev.id none)
    else some (Stanza.iqError ev.id XMPPError.ServiceUnavailable)
  | _, _ => none

/-- The second `switch` of `processIq`: the calls made and the number of
dispatched messages when the namespace is handled there, none when the
`switch` is left for the generic route. -/
def iqKnownNamespace (L : Library) (E : Env) (e : YJBEngine) (n : Nat) (job : JBPendingJob)
    (t : IqType) (ns : XMPPNamespace) : Option (List Effect × Nat) :=
  let ev := job.m_event
  match ns with
  | XMPPNamespace.Roster =>
    if job.m_serverItemTarget then none
    else
      let r := processIqRoster E n ev job.m_streamType t
      let requested : List Effect :=
        if job.m_streamType = StreamType.c2s ∧ t = IqType.IqGet then
          match (job.getStream L e).1 with
          | some stream => (job.getStream L e).2 ++ [Effect.setRosterRequested stream.toString]
          | none => (job.getStream L e).2
        else []
      some (r.2.1 ++ job.sendStanza L e r.1 true ++ requested, r.2.2)
  | XMPPNamespace.VCard =>
    if job.m_streamType ≠ StreamType.c2s then none
    else if job.m_serverItemTarget ∨ (ev.to.str ≠ "" ∧ hasDomain e ev.to.domain = false) then none
    else
      let r := processIqVCard E n ev job.m_streamType t
      some (r.2.1 ++ job.sendStanza L e r.1 true, r.2.2)
  | XMPPNamespace.IqPrivate =>
    let r := processIqPrivate E n ev job.m_streamType t
    some (r.2.1 ++ job.sendStanza L e r.1 true, r.2.2)
  | XMPPNamespace.Ping =>
    if job.m_serverTarget ∨ (job.m_streamType = StreamType.c2s ∧ ev.to.bare = ev.from.bare) then
      if t = IqType.IqGet ∧ ev.child.map E.tagName = some "ping" then
        some (job.sendIqResultStanza L e, n)
      else some (job.sendIqErrorStanza L e XMPPError.ServiceUnavailable, n)
    else none
  | XMPPNamespace.IqRegister =>
    if job.m_serverTarget then
      let r := processIqRegister E n ev job.m_streamType t job.m_local job.m_flags
      some (r.2.1 ++ job.sendStanza L e r.1 false, r.2.2)
    else some (job.sendIqErrorStanza L e XMPPError.ServiceUnavailable, n)
  | XMPPNamespace.IqAuth =>
    if job.m_serverTarget then
      some (job.sendStanza L e (processIqAuth E e ev job.m_streamType t job.m_flags) false, n)
    else some (job.sendIqErrorStanza L e XMPPError.ServiceUnavailable, n)
  | _ => none

/-- The `jabber.iq` message built by `processIq`. -/
def iqRouteMessage (E : Env) (s_dumpIq : Bool) (ev : JBEvent) (respond : Bool) : Message :=
  let m := (Message.mk "jabber.iq" []).addParam "module" "jabber"
  let m := m.addParam "from" ev.from.bare
  let m := m.addParam "from_instance" ev.from.resource
  let m := m.addParam "to" ev.to.bare
  let m := m.addParam "to_instance" ev.to.resource
  let m := addValidParam m "id" ev.id
  let m := addValidParam m "type" ev.stanzaType
  let m := if respond then addValidParam m "xmlns" ((ev.child.map E.xmlnsText).getD "") else m
  let m :=
    match ev.element with
    | some iq => if s_dumpIq then m.addParam "data" (E.xmlString iq) else m
    | none => m
  m.addParam "xml" ""

/-- The end of `processIq`: the iq is routed as a `jabber.iq` message. -/
def iqRoute (L : Library) (E : Env) (e : YJBEngine) (s_dumpIq : Bool) (n : Nat)
    (job : JBPendingJob) (t : IqType) : List Effect × Nat :=
  let respond : Bool := t == IqType.IqGet || t == IqType.IqSet
  let m := iqRouteMessage E s_dumpIq job.m_event respond
  let a := E.handle n m
  let answer : List Effect :=
    if a.ok then
      if respond then
        match a.response with
        | some xml => job.sendStanza L e (some (Stanza.xml xml)) true
        | none =>
          if NamedList.getBoolValue E a.params "respond" false then job.sendIqResultStanza L e
          else []
      else []
    else if respond then job.sendIqErrorStanza L e XMPPError.ServiceUnavailable
    else []
  (Effect.dispatch m :: answer, n + 1)

/-- `JBPendingWorker::processIq` when `n` messages were dispatched so far:
the calls made and the number of dispatched messages afterwards. -/
def processIq (L : Library) (E : Env) (e : YJBEngine) (s_dumpIq : Bool) (n : Nat)
    (job : JBPendingJob) : List Effect × Nat :=
  let ev := job.m_event
  let t := E.iqType ev.stanzaType
  let ns : XMPPNamespace :=
    match ev.child with
    | some service => E.childNs service
    | none => XMPPNamespace.Count
  if ns = XMPPNamespace.DiscoInfo ∧ (t = IqType.IqResult ∨ t = IqType.IqError)
      ∧ E.processRsp ev.element ev.id (t == IqType.IqResult) = true then ([], n)
  else if job.m_serverTarget = true ∧ t ≠ IqType.IqGet ∧ t ≠ IqType.IqSet then ([], n)
  else
    match (if job.m_serverTarget then iqServerResponse L E e job t ns else none) with
    | some rsp => (job.sendStanza L e (some rsp) true, n)
    | none =>
      match iqKnownNamespace L E e n job t ns with
      | some r => r
      | none => iqRoute L E e s_dumpIq n job t

/-- The `msg.route` message built by `processChat`. -/
def chatRouteMessage (ev : JBEvent) : Message :=
  let m := (pluginMessage "msg.route").addParam "type" ev.stanzaType
  let m := addValidParam m "id" ev.id
  let m := m.addParam "caller" ev.from.bare
  let m := addValidParam m "called" ev.to.bare
  let m := addValidParam m "caller_instance" ev.from.resource
  addValidParam m "called_instance" ev.to.resource

/-- The router refused the message: the dispatch failed, or the value
returned is `-` or `error`. -/
def Answer.refused (a : Answer) : Bool := !a.ok || a.retValue == "-" || a.retValue == "error"

/-- The error `processChat` keeps for a refused route: ItemNotFound when an
`instance.count` parameter was returned, ServiceUnavailable otherwise. -/
def Answer.refusedError (a : Answer) : XMPPError :=
  if (NamedList.getParam a.params "instance.count").isSome then XMPPError.ItemNotFound
  else XMPPError.ServiceUnavailable

/-- The outcome of the routing loop of `processChat`: the error, the message
as the handlers left it, the calls made, the number of dispatched messages and
the element the event still holds. -/
structure ChatRoute where
  error : XMPPError
  m : Message
  effects : List Effect
  n : Nat
  xml : Option XmlElement
  deriving DecidableEq, Repr

/-- The `msg.execute` step of `processChat`, after the calls `done`: the
message is renamed, completed with the subject and the body of the stanza and
dispatched as the `n`-th message. The event gives up its element. -/
def chatExecute (E : Env) (n : Nat) (ev : JBEvent) (m : Message) (done : List Effect) :
    ChatRoute :=
  let m : Message := ⟨"msg.execute", NamedList.clearParam m.params "error"⟩
  let m :=
    match ev.element with
    | some xml => addValidParam (addValidParam m "subject" (E.subject xml)) "body" (E.body xml)
    | none => m
  let m := m.addParam "xml" ""
  let a := E.handle n m
  ⟨if a.ok then XMPPError.NoError else XMPPError.Gone, m.answered a,
    done ++ [Effect.dispatch m], n + 1, none⟩

/-- The routing loop of `processChat`. -/
def chatRoute (E : Env) (n : Nat) (ev : JBEvent) (localTarget : Bool) (mType : MsgType) :
    ChatRoute :=
  let m := chatRouteMessage ev
  if localTarget then
    let a := E.handle n m
    let m1 := m.answered a
    if a.refused then ⟨a.refusedError, m1, [Effect.dispatch m], n + 1, ev.element⟩
    else if ev.to.resource ≠ "" then
      if NamedList.getIntValue E a.params "instance.count" ≠ 0 then
        chatExecute E (n + 1) ev ⟨m1.name, NamedList.clearParam m1.params "instance.count"⟩
          [Effect.dispatch m]
      else if mType = MsgType.MsgError then
        ⟨XMPPError.NoError, m1, [Effect.dispatch m], n + 1, ev.element⟩
      else if mType = MsgType.GroupChat then
        ⟨XMPPError.ServiceUnavailable, m1, [Effect.dispatch m], n + 1, ev.element⟩
      else
        let m2 : Message := ⟨m1.name, NamedList.clearParam m1.params "called_instance"⟩
        let a2 := E.handle (n + 1) m2
        if a2.refused then
          ⟨a2.refusedError, m2.answered a2, [Effect.dispatch m, Effect.dispatch m2], n + 2,
            ev.element⟩
        else
          chatExecute E (n + 2) ev ((m2.answered a2).addParam "called_instance" ev.to.resource)
            [Effect.dispatch m, Effect.dispatch m2]
    else chatExecute E (n + 1) ev m1 [Effect.dispatch m]
  else chatExecute E n ev m []

/-- The target of a chat is a user of a serviced domain: the domain is
serviced and is neither a component nor a server item. -/
def chatLocalTarget (e : YJBEngine) (ev : JBEvent) : Bool :=
  hasDomain e ev.to.domain && !hasComponent e ev.to.domain && !isServerItemDomain e ev.to.domain

/-- The routing loop of `processChat` as it is run for a job, when `n`
messages were dispatched so far. -/
def chatRouteOf (E : Env) (e : YJBEngine) (n : Nat) (job : JBPendingJob) : ChatRoute :=
  chatRoute E n job.m_event (chatLocalTarget e job.m_event) (E.msgType job.m_event.stanzaType)

/-- The `jabber.feature` message by which `processChat` asks for the offline
storage of the stanza `xml`. -/
def offlineRequest (E : Env) (job : JBPendingJob) (xml : XmlElement) : Message :=
  (jabberFeature E (some xml) XMPPNamespace.MsgOffline job.m_streamType
    job.m_event.from.str job.m_event.to.str "").addParam "time" E.msgTime

/-- The offline storage step of `processChat` after a route that ended with
ItemNotFound on a local target: whether the message was stored, the calls
made and the number of dispatched messages. -/
def chatOffline (E : Env) (job : JBPendingJob) (mType : MsgType) (r : ChatRoute) :
    Bool × List Effect × Nat :=
  let xml : Option XmlElement :=
    match r.xml with
    | some x => some x
    | none => E.getChatXml r.m
  match xml with
  | some x =>
    if mType = MsgType.Chat ∨ mType = MsgType.Normal then
      let f := offlineRequest E job x
      ((E.handle r.n f).ok, [Effect.dispatch f], r.n + 1)
    else (false, [], r.n)
  | none => (false, [], r.n)

/-- `JBPendingWorker::processChat` when `n` messages were dispatched so far:
the calls made and the number of dispatched messages afterwards. -/
def processChat (L : Library) (E : Env) (e : YJBEngine) (n : Nat) (job : JBPendingJob) :
    List Effect × Nat :=
  let ev := job.m_event
  let mType := E.msgType ev.stanzaType
  let reply : XMPPError → List Effect := fun error =>
    if mType ≠ MsgType.MsgError then job.sendChatErrorStanza L e error else []
  if ev.to.str = "" then (reply XMPPError.ServiceUnavailable, n)
  else
    let localTarget := chatLocalTarget e ev
    if localTarget = true ∧ ev.to.resource = "" ∧ mType = MsgType.MsgError then ([], n)
    else if localTarget = true ∧ ev.to.resource = "" ∧ mType = MsgType.GroupChat then
      (reply XMPPError.ServiceUnavailable, n)
    else
      let r := chatRouteOf E e n job
      if r.error = XMPPError.NoError then (r.effects, r.n)
      else if localTarget = true ∧ r.error = XMPPError.ItemNotFound then
        let o := chatOffline E job mType r
        if o.1 then (r.effects ++ o.2.1, o.2.2)
        else (r.effects ++ o.2.1 ++ reply XMPPError.ServiceUnavailable, o.2.2)
      else (r.effects ++ reply r.error, r.n)

/-- Modelled from the spec: `JBStream::setAvailableResource(ok, positive)`,
whose code is in the jabber library. The positive priority flag is set when
the resource is available with a non negative priority and cleared otherwise;
the value returned tells whether the availability changed. -/
def JBStream.setAvailableResourcePrio (s : JBStream) (ok positive : Bool) :
    Bool × JBStream :=
  (s.availableResource != ok,
    { s with availableResource := ok, positivePriority := ok && positive })

/-- Modelled from the spec: `JBStream::setTlsRequired`, whose code is in the
jabber library. The TLS required flag of the stream is set or cleared. -/
def JBStream.setTlsRequired (s : JBStream) (required : Bool) : JBStream :=
  { s with tlsRequired := required }

/-- The `resource.subscribe` message of `processPresenceStanza`, without the
XML data. -/
def presenceSubscribe (e : YJBEngine) (ev : JBEvent) (c2s : Bool) : Message :=
  ((((pluginMessage "resource.subscribe").addParam "operation" ev.stanzaType).addParam
    "subscriber" ev.from.bare).addParam "subscriber_local" (boolText c2s)).addParam
    "notifier" ev.to.bare |>.addParam "notifier_local" (boolText (hasDomain e ev.to.domain))

/-- The `resource.notify` message of `processPresenceStanza` for a
subscription answer, a probe or a presence error, without the XML data. -/
def presenceNotify (e : YJBEngine) (ev : JBEvent) (c2s : Bool) (pres : Presence) : Message :=
  let m := ((pluginMessage "resource.notify").addParam "operation" ev.stanzaType).addParam
    "from" ev.from.bare |>.addParam "from_local" (boolText c2s)
  let m :=
    if ev.to.str ≠ "" then
      (m.addParam "to" ev.to.bare).addParam "to_local" (boolText (hasDomain e ev.to.domain))
    else m
  if pres = Presence.PresenceError then
    let m := if ev.from.resource ≠ "" then m.addParam "from_instance" ev.from.resource else m
    if ev.to.resource ≠ "" then m.addParam "to_instance" ev.to.resource else m
  else m

/-- The delivery of the stored messages in `processPresenceStanza`: the
stored messages are asked for with the `n`-th dispatched message, each one is
sent on the stream, and their removal is enqueued when one was sent. -/
def presenceOffline (E : Env) (n : Nat) (ev : JBEvent) (c2s : JBStream) : List Effect :=
  let m := jabberFeature E none XMPPNamespace.MsgOffline StreamType.c2s ev.from.str "" "query"
  let a := E.handle n m
  if a.ok then
    Effect.dispatch m
      :: a.xmls.map (fun xml => Effect.sendStanza c2s.toString "" "" (Stanza.xml xml) true)
      ++ (if a.xmls.any (fun xml => E.sendOk c2s.toString xml) then
            [Effect.enqueue (jabberFeature E none XMPPNamespace.MsgOffline StreamType.c2s
              ev.from.str "" "delete")]
          else [])
  else [Effect.dispatch m]

/-- The `switch` of `processPresenceStanza` on the presence type, for an
event on the stream `s`: the stream afterwards, the calls made, the number of
dispatched messages, and whether the `switch` returned (it did not when it was
left with `break`). -/
def presenceSwitch (E : Env) (e : YJBEngine) (n : Nat) (ev : JBEvent) (s : JBStream)
    (pres : Presence) : JBStream × List Effect × Nat × Bool :=
  let c2s : Bool := s.type == StreamType.c2s
  let online : Bool := pres == Presence.PresenceNone
  if pres = Presence.PresenceNone ∨ pres = Presence.Unavailable then
    if c2s then
      if ev.to.str = "" then
        if s.remote.resource = "" then (s, [], n, false)
        else
          let prio : Int := (ev.element.map E.priority).getD 0
          let r := s.setAvailableResourcePrio online (decide (prio ≥ 0))
          let offlinechat := r.1 && online && r.2.positivePriority
          if offlinechat then
            (r.2, Effect.notifyPresence s.toString online :: presenceOffline E n ev r.2,
              n + 1, true)
          else (r.2, [Effect.notifyPresence s.toString online], n, true)
      else
        (s, [Effect.notifyPresenceDirected ev.from ev.to online false
          (hasDomain e ev.to.domain)], n, true)
    else (s, [Effect.notifyPresenceDirected ev.from ev.to online true false], n, true)
  else if pres = Presence.Subscribe ∨ pres = Presence.Unsubscribe then
    if ev.to.str ≠ "" then (s, [Effect.enqueue (presenceSubscribe e ev c2s)], n, true)
    else (s, [], n, false)
  else if ev.to.str ≠ "" ∨ pres = Presence.PresenceError then
    (s, [Effect.enqueue (presenceNotify e ev c2s pres)], n, true)
  else (s, [], n, false)

/-- `YJBEngine::processPresenceStanza` when `n` messages were dispatched so
far: the stream afterwards, the calls made and the number of dispatched
messages. The entity capabilities kept by `processCaps` are not recorded. -/
def processPresenceStanza (E : Env) (e : YJBEngine) (n : Nat) (ev : JBEvent) :
    Option JBStream × List Effect × Nat :=
  match ev.stream with
  | none => (none, [], n)
  | some s =>
    if ev.serverStream.isNone ∧ ev.clientStream.isNone then (some s, [], n)
    else
      let refused : List Effect :=
        if ev.clientStream.isSome ∧ s.incoming = false then
          [Effect.sendStanzaError (some s.toString) ev.id XMPPError.ServiceUnavailable]
        else []
      let r := presenceSwitch E e n ev s (E.presenceType ev.stanzaType)
      if r.2.2.2 then (some r.1, refused ++ r.2.1, r.2.2.1)
      else
        (some r.1,
          refused ++ r.2.1
            ++ [Effect.sendStanzaError (some s.toString) ev.id XMPPError.ServiceUnavailable],
          r.2.2.1)

/-- `XMPPFeatureList::get`: the feature of a namespace. -/
def featureGet (features : List XMPPFeature) (ns : XMPPNamespace) : Option XMPPFeature :=
  features.find? (fun f => f.ns == ns)

/-- The features `processStartIn` offers on a stream whose remote party
asked for version 1, other than a server to server stream, and whether the
entity capabilities are sent along. `s` is the stream as the handler reads its
flags. -/
def startFeatures (e : YJBEngine) (s : JBStream) (s2sVer1 : Bool) : List XMPPFeature × Bool :=
  let c2s : Bool := s.type == StreamType.c2s
  let features : List XMPPFeature :=
    if !s.streamSecured && (c2s || s2sVer1) then [⟨XMPPNamespace.Tls, s.tlsRequired, false, false⟩]
    else []
  let tls := featureGet features XMPPNamespace.Tls
  let addReg : Bool := c2s && e.m_c2sFeatures.contains XMPPNamespace.Register
  if ¬ (tls.isSome ∧ (tls.map XMPPFeature.required) = some true) then
    let features :=
      if !s.streamAuthenticated && c2s then
        features ++ [⟨XMPPNamespace.Sasl, true, true, s.streamTls || e.m_allowUnsecurePlainAuth⟩]
      else features
    let features :=
      if addReg then features ++ [⟨XMPPNamespace.Register, false, false, false⟩] else features
    let sasl := featureGet features XMPPNamespace.Sasl
    let features :=
      if ¬ (sasl.isSome ∧ (sasl.map XMPPFeature.required) = some true) then
        if c2s then features ++ [⟨XMPPNamespace.Bind, true, false, false⟩] else features
      else features
    (features, true)
  else if addReg ∧ tls.isSome ∧ (tls.map XMPPFeature.required) = some false then
    (features ++ [⟨XMPPNamespace.Register, false, false, false⟩], false)
  else (features, false)

/-- `YJBEngine::processStartIn` for an event on the stream `s`: the engine
and the stream afterwards, and the calls made. `s_s2sFeatures` is the module
setting of that name. -/
def processStartIn (L : Library) (e : YJBEngine) (s_s2sFeatures : Bool) (ev : JBEvent)
    (s : JBStream) : YJBEngine × JBStream × List Effect :=
  if s.type = StreamType.comp then
    let sub :=
      if ev.from.str ≠ "" ∧ ev.from.node = "" ∧ ev.from.resource = "" then
        getSubDomain e ev.from.domain
      else ""
    if sub = "" then (e, s, [Effect.terminate s.toString true XMPPError.HostUnknown])
    else
      let lcl := String.mk (ev.from.str.data.drop (sub.length + 1))
      if isServerItemDomain e ev.from.domain = true
          ∨ (L.findServerStream lcl ev.from.str false true).isSome = true then
        (e, s, [Effect.terminate s.toString true XMPPError.Conflict])
      else (setComponent e ev.from.str true, s, [Effect.startComp s.toString lcl ev.from.str])
  else
    let c2s : Bool := s.type == StreamType.c2s
    let s1 := if c2s then s.setTlsRequired e.m_c2sTlsRequired else s
    let set : List Effect :=
      if c2s then [Effect.setTlsRequired s.toString e.m_c2sTlsRequired] else []
    if s1.streamRemoteVer1 = false then
      if c2s then
        let asked := set ++ [Effect.lockEngine, Effect.unlockEngine]
        if e.m_c2sFeatures.contains XMPPNamespace.IqAuth then
          if s1.streamTls = true ∨ s1.tlsRequired = false then
            (e, s1, asked ++ [Effect.startFeatures s.toString
              [⟨XMPPNamespace.IqAuth, true, false, false⟩] false])
          else (e, s1, asked ++ [Effect.terminate s.toString true XMPPError.EncryptionRequired])
        else (e, s1, asked ++ [Effect.terminate s.toString true XMPPError.UnsupportedVersion])
      else (e, s1, set ++ [Effect.startFeatures s.toString [] false])
    else if s1.type = StreamType.s2s then
      (e, s1, set ++ [Effect.startServer s.toString
        (if !s1.streamSecured && s_s2sFeatures then
          [⟨XMPPNamespace.Tls, s1.tlsRequired, false, false⟩] else [])
        s_s2sFeatures])
    else
      let f := startFeatures e s1 s_s2sFeatures
      (e, s1, set ++ [Effect.startFeatures s.toString f.1 (c2s && f.2)])

/-- Constructor `UserAuthMessage::UserAuthMessage` for an event on the
stream `s`. -/
def UserAuthMessage.init (E : Env) (ev : JBEvent) (s : JBStream) : UserAuthMessage :=
  let m := (pluginMessage "user.auth").addParam "streamtype" (E.typeName s.type)
  let m :=
    match E.remoteAddr s with
    | some addr => (m.addParam "ip_host" addr.1).addParam "ip_port" addr.2
    | none => m
  { params := (m.addParam "requestid" ev.id).params, retValue := "", m_stream := s.toString,
    m_streamType := s.type, m_bindingUser := none }

/-- `NamedList::addParam` on a `user.auth` message. -/
def UserAuthMessage.addParam (m : UserAuthMessage) (name value : String) : UserAuthMessage :=
  { m with params := m.params ++ [(name, value)] }

/-- The outcome of the credential part of `processAuthIn`: the error, the
message, the engine, the number of dispatched messages and the calls made. -/
structure AuthRequest where
  error : XMPPError
  m : UserAuthMessage
  engine : YJBEngine
  t : Nat
  effects : List Effect

/-- The legacy (non SASL) request of `processAuthIn` on a client stream: `q`
is the child of the event. `bindingResource` takes the lock of the engine. -/
def authLegacy (L : Library) (E : Env) (e : YJBEngine) (t : Nat) (s : JBStream)
    (q : XmlElement) (allowPlain : Bool) (m : UserAuthMessage) : AuthRequest :=
  match E.getTag q with
  | none => ⟨XMPPError.Internal, m, e, t, []⟩
  | some tag =>
    if tag.1 ≠ "query" ∨ tag.2 ≠ XMPPNamespace.IqAuth then
      ⟨XMPPError.ServiceUnavailable, m, e, t, []⟩
    else
      let user : JabberID :=
        ⟨getChildText L q "username" "jabber:iq:auth", s.local.domain,
          getChildText L q "resource" "jabber:iq:auth"⟩
      if user.resource = "" then ⟨XMPPError.NotAcceptable, m, e, t, []⟩
      else
        let m := if user.bare ≠ "" then m.addParam "username" user.bare else m
        let pwd := getChildText L q "password" "jabber:iq:auth"
        if pwd ≠ "" ∧ allowPlain = false then ⟨XMPPError.EncryptionRequired, m, e, t, []⟩
        else
          let d := getChildText L q "digest" "jabber:iq:auth"
          let m :=
            if pwd ≠ "" then m.addParam "password" pwd
            else if d ≠ "" then m.addParam "digest" d
            else m
          let r := bindingResource L e t user
          let bound := { m with m_bindingUser := some user }
          if r.1 then
            ⟨XMPPError.NoError, bound.addParam "instance" user.resource, r.2.1, r.2.2,
              [Effect.lockEngine, Effect.unlockEngine]⟩
          else ⟨XMPPError.Conflict, m, r.2.1, r.2.2, [Effect.lockEngine, Effect.unlockEngine]⟩

/-- The credential part of `processAuthIn`, between the lock and the unlock
of the stream `s`. -/
def authRequest (L : Library) (E : Env) (e : YJBEngine) (t : Nat) (ev : JBEvent)
    (s : JBStream) : AuthRequest :=
  let m := UserAuthMessage.init E ev s
  if s.type = StreamType.c2s then
    let allowPlain := s.streamTls || e.m_allowUnsecurePlainAuth
    match s.m_sasl with
    | some sasl =>
      if sasl.m_plain = true ∧ allowPlain = false then
        ⟨XMPPError.EncryptionRequired, m, e, t, []⟩
      else
        match sasl.m_params with
        | some params =>
          let m := { m with params := m.params ++ params }
          let user := NamedList.getValue params "username"
          let named := NamedList.setParam m.params "username" (user ++ "@" ++ s.local.domain)
          let m := if user ≠ "" then { m with params := named } else m
          ⟨XMPPError.NoError, m, e, t, []⟩
        | none => ⟨XMPPError.NoError, m, e, t, []⟩
    | none =>
      match ev.child with
      | some q => authLegacy L E e t s q allowPlain m
      | none => ⟨XMPPError.Internal, m, e, t, []⟩
  else if s.type = StreamType.comp then
    let params := NamedList.setParam m.params "username" s.remote.str
    let m := { m with params := NamedList.setParam params "handshake" ev.text }
    ⟨XMPPError.NoError, m, e, t, []⟩
  else ⟨XMPPError.NoError, m, e, t, []⟩

/-- The outcome of `processAuthIn`: the engine and the number of dispatched
messages afterwards, the calls made, and the `user.auth` message when it was
enqueued. -/
structure AuthResult where
  engine : YJBEngine
  t : Nat
  effects : List Effect
  enqueued : Option UserAuthMessage

/-- Destructor `UserAuthMessage::~UserAuthMessage`: the reservation held by
the message is removed. -/
def UserAuthMessage.destruct (L : Library) (e : YJBEngine) (m : UserAuthMessage) : YJBEngine :=
  match m.m_bindingUser with
  | some user => removeBindingResource L e user
  | none => e

/-- `YJBEngine::processAuthIn` for an event on the stream `s`, when `t`
messages were dispatched so far. -/
def processAuthIn (L : Library) (E : Env) (e : YJBEngine) (t : Nat) (ev : JBEvent)
    (s : JBStream) : AuthResult :=
  let r := authRequest L E e t ev s
  let locked := [Effect.lock s.toString] ++ r.effects ++ [Effect.unlock s.toString]
  if r.error = XMPPError.NoError then
    ⟨r.engine, r.t, locked ++ [Effect.enqueue ⟨"user.auth", r.m.params⟩], some r.m⟩
  else
    ⟨r.m.destruct L r.engine, r.t,
      locked ++ [Effect.authenticated s.toString false "" r.error "" ev.id ""], none⟩

/-- The value of a new `YJBEngine`, as its constructor leaves it. -/
def YJBEngine.ctor : YJBEngine :=
  { m_dialbackSecret := "", m_domains := [], m_dynamicDomains := [], m_components := [],
    m_items := [], m_c2sTlsRequired := false, m_allowUnsecurePlainAuth := false,
    m_c2sFeatures := [XMPPNamespace.DiscoInfo, XMPPNamespace.DiscoItems, XMPPNamespace.Roster,
      XMPPNamespace.IqPrivate, XMPPNamespace.VCard, XMPPNamespace.MsgOffline,
      XMPPNamespace.IqVersion, XMPPNamespace.Session, XMPPNamespace.Register] }

/-- `YJBEngine::initialize`, as far as it changes the fields modelled here:
`params` is the `general` section of the configuration, and `now`, `runId`
and `random` are the three values fed to the MD5 hasher. The streams of the
domains that are no longer serviced are dropped there, which is not
recorded. -/
def YJBEngine.initialize (L : Library) (E : Env) (e : YJBEngine)
    (params : List (String × String)) (first : Bool) (now runId random : String) :
    YJBEngine :=
  let e := { e with
    m_allowUnsecurePlainAuth :=
      NamedList.getBoolValue E params "c2s_allowunsecureplainauth" false }
  let e := { e with m_domains := E.split (E.toLower (NamedList.getValue params "domains")) }
  let e := { e with
    m_restrictedResources :=
      match NamedList.getParam params "restricted_resources" with
      | some res =>
        (E.split res).foldl (fun acc tmp => if acc.contains tmp then acc else acc ++ [tmp]) []
      | none => [] }
  let e :=
    if first then
      let secret := NamedList.getValue params "dialback_secret"
      { e with
        m_dialbackSecret :=
          if secret = "" then L.md5Hex (now ++ runId ++ random) else secret }
    else e
  let e := { e with m_c2sTlsRequired := NamedList.getBoolValue E params "c2s_tlsrequired" false }
  let kept := e.m_c2sFeatures.filter (fun f => f != XMPPNamespace.IqAuth)
  let e := { e with
    m_c2sFeatures :=
      if NamedList.getBoolValue E params "c2s_oldstyleauth" true then
        kept ++ [XMPPNamespace.IqAuth]
      else kept }
  if e.m_progName = "" then
    { e with m_progName := "Yate",
             m_progVersion := E.runParam "version" ++ "" ++ E.runParam "release" }
  else e

/-- The state of the module: the `m_init` flag of `JBModule`, and the static
data `s_jabber`, the worker threads, `s_s2sFeatures` and `s_dumpIq`. -/
structure JBModule where
  m_init : Bool
  s_jabber : Option YJBEngine
  s_threads : Option PendingPool
  s_s2sFeatures : Bool
  s_dumpIq : Bool

/-- The module as it is constructed: `m_init` is false and the static data
have their initial values. -/
def JBModule.ctor : JBModule :=
  { m_init := false, s_jabber := none, s_threads := none, s_s2sFeatures := true,
    s_dumpIq := false }

/-- `JBModule::initialize`, without the message handlers and the listeners:
`general` is the `general` section of the configuration. -/
def JBModule.initialize (L : Library) (E : Env) (m : JBModule)
    (general : List (String × String)) (now runId random : String) : JBModule :=
  let m1 : JBModule :=
    if !m.m_init then
      { m with
        m_init := true
        s_jabber := some YJBEngine.ctor
        s_threads := JBPendingWorker.initializeStatic m.s_threads
          (workerCount ((NamedList.getParam general "workers").map
            (fun v => E.toInteger v 1))).toNat }
    else m
  let m2 : JBModule :=
    { m1 with
      s_s2sFeatures := NamedList.getBoolValue E general "s2s_offerfeatures" true
      s_dumpIq := NamedList.getBoolValue E general "dump_iq" false }
  { m2 with
    s_jabber := m2.s_jabber.map (fun e =>
      ( YJBEngine.initialize L E e general (!m2.m_init) now runId random)) }

/-! ## Reading the calls of the routers -/

/-- The call hands a message to `Engine::dispatch`. -/
def Effect.isDispatch : Effect → Bool
  | Effect.dispatch _ => true
  | _ => false

/-- The call sends a stanza on a stream. -/
def Effect.isSendStanza : Effect → Bool
  | Effect.sendStanza _ _ _ _ _ => true
  | Effect.sendStanzaError _ _ _ => true
  | _ => false

/-- The call asks the message handlers for a jabber feature, which is how
the offline storage of a message is requested. -/
def Effect.isFeatureRequest : Effect → Bool
  | Effect.dispatch m => m.name == "jabber.feature"
  | _ => false

/-- Reading a list of calls from the left with the stream locks held so far:
the lock of the engine is never taken while the lock of a stream is held. -/
def lockOrderFrom : List String → List Effect → Bool
  | _, [] => true
  | held, Effect.lock s :: rest => lockOrderFrom (s :: held) rest
  | held, Effect.unlock s :: rest => lockOrderFrom (held.erase s) rest
  | held, Effect.lockEngine :: rest => held.isEmpty && lockOrderFrom held rest
  | held, _ :: rest => lockOrderFrom held rest

/-- The lock order of a list of calls that starts with no lock held. -/
def lockOrder (effs : List Effect) : Bool := lockOrderFrom [] effs

/-! ## Concrete stanzas and settings -/

/-- An environment where no message handler is installed, so that every
dispatch fails and leaves the message as it is; the types of stanzas are read
from their usual names and the namespace of an element from its `xmlns`
attribute. -/
def demoEnv : Env :=
  { handle := fun _ m => ⟨false, "", m.params, none, []⟩
    msgType := fun s =>
      if s = "chat" then MsgType.Chat else if s = "groupchat" then MsgType.GroupChat
      else if s = "headline" then MsgType.HeadLine else if s = "error" then MsgType.MsgError
      else MsgType.Normal
    iqType := fun s =>
      if s = "set" then IqType.IqSet else if s = "get" then IqType.IqGet
      else if s = "result" then IqType.IqResult else if s = "error" then IqType.IqError
      else IqType.IqCount
    presenceType := fun s =>
      if s = "probe" then Presence.Probe else if s = "subscribe" then Presence.Subscribe
      else if s = "subscribed" then Presence.Subscribed
      else if s = "unavailable" then Presence.Unavailable
      else if s = "unsubscribe" then Presence.Unsubscribe
      else if s = "unsubscribed" then Presence.Unsubscribed
      else if s = "error" then Presence.PresenceError else Presence.PresenceNone
    childNs := fun x =>
      if x.getAttribute "xmlns" = "jabber:iq:register" then XMPPNamespace.IqRegister
      else if x.getAttribute "xmlns" = "jabber:iq:roster" then XMPPNamespace.Roster
      else if x.getAttribute "xmlns" = "jabber:iq:auth" then XMPPNamespace.IqAuth
      else if x.getAttribute "xmlns" = "urn:xmpp:ping" then XMPPNamespace.Ping
      else XMPPNamespace.Count
    xmlnsText := fun x => x.getAttribute "xmlns"
    nsName := fun ns =>
      if ns = XMPPNamespace.MsgOffline then "msgoffline"
      else if ns = XMPPNamespace.Roster then "jabber:iq:roster"
      else if ns = XMPPNamespace.IqRegister then "jabber:iq:register"
      else ""
    typeName := fun t =>
      if t = StreamType.c2s then "c2s" else if t = StreamType.s2s then "s2s"
      else if t = StreamType.comp then "comp" else "cluster"
    tagName := fun x => x.getAttribute "tag"
    isUnprefTag := fun x t => x.getAttribute "tag" == t
    getTag := fun x =>
      if x.getAttribute "tag" = "" then none
      else if x.getAttribute "xmlns" = "jabber:iq:auth" then
        some (x.getAttribute "tag", XMPPNamespace.IqAuth)
      else some (x.getAttribute "tag", XMPPNamespace.Count)
    toInteger := fun s d => if s = "0" then 0 else if s = "1" then 1 else d
    toBoolean := fun s d => if s = "true" then true else if s = "false" then false else d
    subject := fun x => x.getAttribute "subject"
    body := fun x => x.text
    priority := fun x => if x.getAttribute "priority" = "-1" then -1 else 0
    xmlString := fun x => x.text
    getChatXml := fun _ => none
    processRsp := fun _ _ _ => false
    sendOk := fun _ _ => true
    remoteAddr := fun _ => none
    flagTls := fun _ => false
    msgTime := "0"
    split := fun s => if s = "" then [] else [s]
    toLower := fun s => s
    runParam := fun _ => "" }

/-- The environment `demoEnv` with a router that knows the addressed user
but finds no resource to take a message: `msg.route` is refused with an
`instance.count` of 0, and every other message is handled when `stored` is
true. -/
def demoRouter (stored : Bool) : Env :=
  { demoEnv with
    handle := fun _ m =>
      if m.name = "msg.route" then ⟨false, "", m.params ++ [("instance.count", "0")], none, []⟩
      else ⟨stored, "", m.params, none, []⟩ }

/-- An iq of type `result` carrying a `jabber:iq:register` query, sent by
`alice@b.example/work` on `demoClient` to the user `bob@b.example`. -/
def demoRegisterResult : JBEvent :=
  { type := JBEventType.Iq, stream := some demoClient,
    element := some ⟨XmlTag.Iq, [("type", "result")], ""⟩,
    «from» := ⟨"alice", "b.example", "work"⟩, «to» := ⟨"bob", "b.example", ""⟩,
    id := "r9", text := "", refOk := true,
    child := some ⟨XmlTag.Other, [("tag", "query"), ("xmlns", "jabber:iq:register")], ""⟩,
    stanzaType := "result" }

/-- A roster `get` received on the server stream `demoIncoming`, from
`carol@a.example` to `bob@b.example`. -/
def demoRosterGet : JBEvent :=
  { type := JBEventType.Iq, stream := some demoIncoming,
    element := some ⟨XmlTag.Iq, [("type", "get")], ""⟩,
    «from» := ⟨"carol", "a.example", "home"⟩, «to» := ⟨"bob", "b.example", ""⟩,
    id := "r7", text := "", refOk := true,
    child := some ⟨XmlTag.Other, [("tag", "query"), ("xmlns", "jabber:iq:roster")], ""⟩,
    stanzaType := "get" }

/-- The outgoing client stream `c2s/out` of the account `alice@b.example`. -/
def demoClientOut : JBStream :=
  { demoClient with toString := "c2s/out", incoming := false }

/-- A `subscribe` presence for `bob@b.example` received on the outgoing
client stream `demoClientOut`. -/
def demoSubscribeOut : JBEvent :=
  { type := JBEventType.Presence, stream := some demoClientOut,
    element := some ⟨XmlTag.Presence, [("type", "subscribe")], ""⟩,
    «from» := ⟨"carol", "a.example", ""⟩, «to» := ⟨"bob", "b.example", ""⟩,
    id := "p1", text := "", refOk := true, stanzaType := "subscribe" }

/-- A legacy authentication request on `demoClient`: a `jabber:iq:auth` query
for the user `alice` with the given resource, password and digest, an empty
value standing for an absent child. -/
def demoLegacyAuth (resource password digest : String) : JBEvent :=
  { type := JBEventType.Auth, stream := some demoClient, element := none,
    «from» := ⟨"", "", ""⟩, «to» := JabberID.ofDomain "b.example",
    id := "a1", text := "", refOk := true,
    child := some ⟨XmlTag.Other,
      [("tag", "query"), ("xmlns", "jabber:iq:auth"), ("username", "alice")]
        ++ (if resource = "" then [] else [("resource", resource)])
        ++ (if password = "" then [] else [("password", password)])
        ++ (if digest = "" then [] else [("digest", digest)]), ""⟩,
    stanzaType := "set" }

/-- The client stream `demoClient` after the remote party asked for
version 1 of the protocol. -/
def demoClientV1 : JBStream := { demoClient with streamRemoteVer1 := true }

/-- The engine `demoEngine` with the features of a new engine on client
streams and the `c2s_tlsrequired` setting `required`. -/
def demoTlsEngine (required : Bool) : YJBEngine :=
  { demoEngine with m_c2sTlsRequired := required, m_c2sFeatures := YJBEngine.ctor.m_c2sFeatures }

/-- The stream start event of `demoClientV1`. -/
def demoStart : JBEvent := demoEvent JBEventType.Start demoClientV1 none ""

/-- A message stanza of the given type sent by `carol@a.example/home` over
the server stream `demoIncoming` to `alice@b.example`, with the given
resource. -/
def demoChat (type resource : String) : JBEvent :=
  { type := JBEventType.Message, stream := some demoIncoming,
    element := some ⟨XmlTag.Message, [("type", type)], "hi"⟩,
    «from» := ⟨"carol", "a.example", "home"⟩, «to» := ⟨"alice", "b.example", resource⟩,
    id := "m1", text := "", refOk := true, stanzaType := type }

/-- The job the workers hold for `demoChat`. -/
def demoChatJob (type resource : String) : JBPendingJob :=
  JBPendingJob.init demoLibrary demoEngine (demoChat type resource) demoIncoming

/-- The calls of the routing loop are dispatches of `msg.route` and
`msg.execute` messages. -/
def RouteCalls (effs : List Effect) : Prop :=
  ∀ eff ∈ effs, ∃ g : Message, eff = Effect.dispatch g
    ∧ (g.name = "msg.route" ∨ g.name = "msg.execute")

/-! ## Theorems -/

theorem str_append_right_cancel {a b c : String} (h : a ++ c = b ++ c) : a = b := by
  have h2 := congrArg String.data h
  simp only [String.data_append] at h2
  exact String.ext (List.append_cancel_right h2)

theorem str_append_left_cancel {a b c : String} (h : c ++ a = c ++ b) : a = b := by
  have h2 := congrArg String.data h
  simp only [String.data_append] at h2
  exact String.ext (List.append_cancel_left h2)

/-- C1: the dialback key is the hex digest of the hex digest of the secret
followed by `local`, a blank, `remote`, a blank and the id; engines with the
same secret build the same key. -/
theorem buildDialbackKey_formula (P : HashPrimitive) (e : YJBEngine) (id lcl remote : String) :
    buildDialbackKey P e id lcl remote
        = P.hex (P.digest (P.hex (P.digest e.m_dialbackSecret)
            ++ lcl ++ " " ++ remote ++ " " ++ id))
      ∧ ∀ e2 : YJBEngine, e2.m_dialbackSecret = e.m_dialbackSecret →
          buildDialbackKey P e2 id lcl remote = buildDialbackKey P e id lcl remote := by
  refine ⟨rfl, ?_⟩
  intro e2 h
  simp [buildDialbackKey, h]

theorem buildDialbackKey_eq (P : HashPrimitive) (e : YJBEngine) (id lcl remote : String) :
    buildDialbackKey P e id lcl remote
      = P.hex (P.digest (P.hex (P.digest e.m_dialbackSecret)
          ++ lcl ++ " " ++ remote ++ " " ++ id)) := rfl

/-- C2: when the hash primitive has no collision among the messages hashed
by two calls, and exactly one of secret, id, local and remote differs
between the calls, the two keys differ. -/
theorem buildDialbackKey_single_change (P : HashPrimitive) (e e2 : YJBEngine)
    (id lcl remote id2 lcl2 remote2 : String)
    (hone : changedInputs e.m_dialbackSecret id lcl remote
              e2.m_dialbackSecret id2 lcl2 remote2 = 1)
    (hfree : CollisionFreeOn P
      (dialbackMessages P e.m_dialbackSecret id lcl remote
        ++ dialbackMessages P e2.m_dialbackSecret id2 lcl2 remote2)) :
    buildDialbackKey P e id lcl remote ≠ buildDialbackKey P e2 id2 lcl2 remote2 := by
  intro hkey
  rw [buildDialbackKey_eq, buildDialbackKey_eq] at hkey
  have hmsg := hfree _ (by simp [dialbackMessages]) _ (by simp [dialbackMessages]) hkey
  have hsec : P.hex (P.digest e.m_dialbackSecret) = P.hex (P.digest e2.m_dialbackSecret)
      → e.m_dialbackSecret = e2.m_dialbackSecret :=
    hfree _ (by simp [dialbackMessages]) _ (by simp [dialbackMessages])
  unfold changedInputs at hone
  by_cases hs : e.m_dialbackSecret = e2.m_dialbackSecret
  · rw [hs] at hmsg
    by_cases hi : id = id2
    · by_cases hl : lcl = lcl2
      · by_cases hr : remote = remote2
        · (split_ifs at hone; all_goals omega)
        · subst hi hl
          apply hr
          have h1 := str_append_right_cancel (str_append_right_cancel hmsg)
          exact str_append_left_cancel h1
      · by_cases hr : remote = remote2
        · subst hi hr
          simp only [String.append_assoc] at hmsg
          exact hl (str_append_right_cancel (str_append_left_cancel hmsg))
        · (split_ifs at hone; all_goals omega)
    · by_cases hl : lcl = lcl2
      · by_cases hr : remote = remote2
        · subst hl hr
          exact hi (str_append_left_cancel hmsg)
        · (split_ifs at hone; all_goals omega)
      · (split_ifs at hone; all_goals omega)
  · by_cases hi : id = id2
    · by_cases hl : lcl = lcl2
      · by_cases hr : remote = remote2
        · subst hi hl hr
          simp only [String.append_assoc] at hmsg
          exact hs (hsec (str_append_right_cancel hmsg))
        · (split_ifs at hone; all_goals omega)
      · (split_ifs at hone; all_goals omega)
    · (split_ifs at hone; all_goals omega)

/-- Witness of C2 on the copying primitive: changing the id alone. -/
theorem buildDialbackKey_single_change_witness :
    changedInputs "S" "r1" "a.example" "b.example" "S" "r2" "a.example" "b.example" = 1
      ∧ buildDialbackKey copyHash demoEngine "r1" "a.example" "b.example"
          ≠ buildDialbackKey copyHash demoEngine "r2" "a.example" "b.example" :=
  ⟨by decide,
    buildDialbackKey_single_change copyHash demoEngine demoEngine
      "r1" "a.example" "b.example" "r2" "a.example" "b.example" (by decide)
      (fun _ _ _ _ h => str_append_left_cancel h)⟩

theorem copyHash_hex_ne_empty (m : String) :
    copyHash.hex (copyHash.digest m) ≠ "" := by
  intro h
  have h2 := congrArg String.length h
  simp [copyHash, String.length_append] at h2
  exact absurd h2.1 (by decide)

/-- C3: a verify request on an incoming server stream gets exactly one
verify response for (to, from, id), valid exactly when the id is not empty
and the text is the key built for (id, to, from), NotAuthorized otherwise.
The hex digest of the hasher is never empty. -/
theorem processDbVerify_incoming (L : Library) (e : YJBEngine) (ev : JBEvent)
    (stream : JBStream) (element : XmlElement)
    (hstream : ev.serverStream = some stream) (hel : ev.element = some element)
    (hin : stream.incoming = true)
    (hdigest : ∀ m : String, L.hash.hex (L.hash.digest m) ≠ "") :
    (processDbVerify L e ev).2 =
      [Effect.sendDbVerify stream.toString ev.to.str ev.from.str
        (element.getAttribute "id")
        (if element.getAttribute "id" ≠ "" ∧
            element.getText
              = buildDialbackKey L.hash e (element.getAttribute "id") ev.to.str ev.from.str
         then XMPPError.NoError else XMPPError.NotAuthorized)] := by
  have hkey : ∀ id l r, buildDialbackKey L.hash e id l r ≠ "" := by
    intro id l r
    rw [buildDialbackKey_eq]
    exact hdigest _
  unfold processDbVerify
  rw [hstream, hel]
  simp only [hin, if_true]
  by_cases hid : element.getAttribute "id" = ""
  · simp [hid]
  · have hk := hkey (element.getAttribute "id") ev.to.str ev.from.str
    by_cases ht : element.getText
        = buildDialbackKey L.hash e (element.getAttribute "id") ev.to.str ev.from.str
    · simp [hid, hk, ht]
    · have ht2 : ¬ buildDialbackKey L.hash e (element.getAttribute "id") ev.to.str ev.from.str
          = element.getText := fun h => ht h.symm
      simp [hid, hk, ht, ht2]

/-- Witness of C3: the verify request for the key of (r1, b.example,
a.example) on the incoming stream `s2s/1` is answered as valid. -/
theorem processDbVerify_incoming_witness :
    demoVerifyRequest.serverStream = some demoIncoming
      ∧ demoVerifyRequest.element = some (demoVerify "r1" "" "##Sb.example a.example r1")
      ∧ (processDbVerify demoLibrary demoEngine demoVerifyRequest).2
          = [Effect.sendDbVerify "s2s/1" "b.example" "a.example" "r1" XMPPError.NoError] :=
  ⟨rfl, rfl,
    (processDbVerify_incoming demoLibrary demoEngine demoVerifyRequest demoIncoming
      (demoVerify "r1" "" "##Sb.example a.example r1") rfl rfl rfl
      copyHash_hex_ne_empty).trans (by decide)⟩

theorem notifyDbVerifyResult_length (L : Library) (lcl remote : JabberID) (id : String)
    (rsp : XMPPError) : (notifyDbVerifyResult L lcl remote id rsp).length ≤ 1 := by
  unfold notifyDbVerifyResult
  split
  · simp
  · split
    · split <;> simp
    · simp

theorem notifyDbVerifyResult_filter (L : Library) (lcl remote : JabberID) (id : String)
    (rsp : XMPPError) :
    (notifyDbVerifyResult L lcl remote id rsp).filter Effect.isSendDbResult
      = notifyDbVerifyResult L lcl remote id rsp := by
  unfold notifyDbVerifyResult
  split
  · simp
  · split
    · split <;> simp [Effect.isSendDbResult]
    · simp

theorem notifyDbVerifyResult_no_take (L : Library) (lcl remote : JabberID) (id : String)
    (rsp : XMPPError) :
    (notifyDbVerifyResult L lcl remote id rsp).filter Effect.isTake = [] := by
  unfold notifyDbVerifyResult
  split
  · simp
  · split
    · split <;> simp [Effect.isTake]
    · simp

/-- C4, as stated, fails: a presented key that differs from the key derived
for the stream id and the two domains (in either order) still makes
`processDbResult` create an outgoing stream, and no RemoteConn is sent. -/
theorem processDbResult_key_not_compared :
    "bogus" ≠ buildDialbackKey copyHash demoEngine "r1" "b.example" "a.example"
      ∧ "bogus" ≠ buildDialbackKey copyHash demoEngine "r1" "a.example" "b.example"
      ∧ processDbResult demoLibrary demoEngine (demoDbResult "bogus")
          = [Effect.createServerStream "b.example" "a.example" "r1" "bogus" false
              (some "s2s/2")] := by
  decide

/-- C4, amended: with a non-empty stream id, key, `to` and `from`, and `to`
a serviced domain, `processDbResult` asks for an outgoing stream from `to`
to `from` carrying the stream id and the presented key, whatever that key
is; RemoteConn is sent exactly when no stream is obtained. -/
theorem processDbResult_defers_key_check (L : Library) (e : YJBEngine) (ev : JBEvent)
    (s : JBStream) (hs : ev.serverStream = some s) (hid : s.id ≠ "")
    (htext : ev.text ≠ "") (hto : ev.to.str ≠ "") (hdom : hasDomain e ev.to.str = true)
    (hfrom : ev.from.str ≠ "") :
    processDbResult L e ev =
      match L.createServerStream ev.to.str ev.from.str s.id ev.text
          (L.findServerStream ev.to.str ev.from.str true true).isSome with
      | some o =>
        [Effect.createServerStream ev.to.str ev.from.str s.id ev.text
          (L.findServerStream ev.to.str ev.from.str true true).isSome (some o.toString)]
      | none =>
        [Effect.createServerStream ev.to.str ev.from.str s.id ev.text
          (L.findServerStream ev.to.str ev.from.str true true).isSome none,
         Effect.sendDbResult s.toString ev.to.str ev.from.str XMPPError.RemoteConn] := by
  unfold processDbResult
  rw [hs]
  simp only [hid, if_false, htext, hto, hdom, hfrom, ne_eq, not_false_eq_true,
    Option.isSome_some, and_self, if_true]
  cases L.createServerStream ev.to.str ev.from.str s.id ev.text
      (L.findServerStream ev.to.str ev.from.str true true).isSome <;> rfl

/-- Witness of the amended C4: the key of the spec's scenario, presented on
`s2s/1`, gets an outgoing stream to `a.example`. -/
theorem processDbResult_defers_key_check_witness :
    (demoDbResult "##Sb.example a.example r1").serverStream = some demoIncoming
      ∧ processDbResult demoLibrary demoEngine (demoDbResult "##Sb.example a.example r1")
          = [Effect.createServerStream "b.example" "a.example" "r1"
              "##Sb.example a.example r1" false (some "s2s/2")] :=
  ⟨rfl,
    (processDbResult_defers_key_check demoLibrary demoEngine
      (demoDbResult "##Sb.example a.example r1") demoIncoming rfl (by decide) (by decide)
      (by decide) (by decide) (by decide)).trans (by decide)⟩

/-- C5: on a server stream, when no outgoing stream is obtained exactly one
result is sent to the stream, RemoteConn for (to, from); when one is
obtained no result is sent; the stream is never terminated; and an empty
key, an empty or unserviced `to`, an empty `from` or a failed creation all
mean that no stream is obtained. -/
theorem processDbResult_remoteConn (L : Library) (e : YJBEngine) (ev : JBEvent)
    (s : JBStream) (hs : ev.serverStream = some s) :
    (obtainsStream (processDbResult L e ev) = false →
        (processDbResult L e ev).filter Effect.isSendDbResult
          = [Effect.sendDbResult s.toString ev.to.str ev.from.str XMPPError.RemoteConn])
      ∧ (obtainsStream (processDbResult L e ev) = true →
          (processDbResult L e ev).filter Effect.isSendDbResult = [])
      ∧ (processDbResult L e ev).filter Effect.isTerminate = []
      ∧ ((ev.text = "" ∨ ev.to.str = "" ∨ hasDomain e ev.to.str = false ∨ ev.from.str = ""
            ∨ L.createServerStream ev.to.str ev.from.str s.id ev.text
                (L.findServerStream ev.to.str ev.from.str true true).isSome = none) →
          obtainsStream (processDbResult L e ev) = false) := by
  unfold processDbResult obtainsStream
  rw [hs]
  by_cases hid : s.id = ""
  · simp [hid, Effect.isSendDbResult, Effect.isCreated, Effect.isTerminate]
  · by_cases hc : ev.text ≠ "" ∧ (some s).isSome = true ∧ ev.to.str ≠ ""
        ∧ hasDomain e ev.to.str = true ∧ ev.from.str ≠ ""
    · obtain ⟨h1, -, h3, h4, h5⟩ := hc
      cases hcr : L.createServerStream ev.to.str ev.from.str s.id ev.text
          (L.findServerStream ev.to.str ev.from.str true true).isSome <;>
        simp [hid, h1, h3, h4, h5, hcr, Effect.isSendDbResult, Effect.isCreated,
          Effect.isTerminate]
    · simp only [hid, if_false, hc]
      simp only [Option.isSome_some, true_and, ne_eq, not_and, Classical.not_imp,
        not_not] at hc
      simp [Effect.isSendDbResult, Effect.isCreated, Effect.isTerminate]

/-- Witness of C5: an empty key on `s2s/1` is answered by RemoteConn. -/
theorem processDbResult_remoteConn_witness :
    (demoDbResult "").serverStream = some demoIncoming
      ∧ (processDbResult demoLibrary demoEngine (demoDbResult "")).filter
            Effect.isSendDbResult
          = [Effect.sendDbResult "s2s/1" "b.example" "a.example" XMPPError.RemoteConn] :=
  ⟨rfl,
    (processDbResult_remoteConn demoLibrary demoEngine (demoDbResult "") demoIncoming
      rfl).1 (by decide)⟩

/-- C6: a verify response on an outgoing server stream whose id is not empty
and is the id of the pending request is relayed by `notifyDbVerifyResult`
for (to, from, id), as NoRemote when the decoded response is ItemNotFound or
HostUnknown and as the decoded response otherwise. -/
theorem processDbVerify_outgoing_relay (L : Library) (e : YJBEngine) (ev : JBEvent)
    (stream : JBStream) (element : XmlElement) (db : NamedString)
    (hstream : ev.serverStream = some stream) (hel : ev.element = some element)
    (hout : stream.incoming = false) (hid : element.getAttribute "id" ≠ "")
    (hdb : stream.m_dbKey = some db) (hname : db.name = element.getAttribute "id") :
    ∃ relayed : XMPPError,
      (processDbVerify L e ev).2
          = [Effect.takeDb stream.toString (some db)]
            ++ notifyDbVerifyResult L ev.to ev.from (element.getAttribute "id") relayed
            ++ (if stream.dialback then
                  [Effect.terminate stream.toString true XMPPError.NoError]
                else [])
        ∧ ((L.decodeDbRsp element = XMPPError.ItemNotFound
              ∨ L.decodeDbRsp element = XMPPError.HostUnknown) →
            relayed = XMPPError.NoRemote)
        ∧ (¬ (L.decodeDbRsp element = XMPPError.ItemNotFound
              ∨ L.decodeDbRsp element = XMPPError.HostUnknown) →
            relayed = L.decodeDbRsp element) := by
  refine ⟨if L.decodeDbRsp element = XMPPError.ItemNotFound
      ∨ L.decodeDbRsp element = XMPPError.HostUnknown then XMPPError.NoRemote
    else L.decodeDbRsp element, ?_, ?_, ?_⟩
  · unfold processDbVerify
    rw [hstream, hel]
    simp [hout, JBStream.takeDb, hdb, hid, hname]
  · intro h
    simp [h]
  · intro h
    simp [h]

/-- Witness of C6: an `error` response (decoded as ItemNotFound) for the
pending request `r1` reaches the waiting stream `s2s/1` as NoRemote. -/
theorem processDbVerify_outgoing_relay_witness :
    (demoVerifyResponse demoOutgoing "r1" "error").serverStream = some demoOutgoing
      ∧ ∃ relayed : XMPPError,
        (processDbVerify demoLibrary demoEngine
            (demoVerifyResponse demoOutgoing "r1" "error")).2
          = [Effect.takeDb "s2s/2" (some ⟨"r1", "k1"⟩)]
            ++ notifyDbVerifyResult demoLibrary (JabberID.ofDomain "b.example")
                (JabberID.ofDomain "a.example") "r1" relayed
            ++ []
        ∧ ((demoLibrary.decodeDbRsp (demoVerify "r1" "error" "") = XMPPError.ItemNotFound
              ∨ demoLibrary.decodeDbRsp (demoVerify "r1" "error" "") = XMPPError.HostUnknown) →
            relayed = XMPPError.NoRemote)
        ∧ (¬ (demoLibrary.decodeDbRsp (demoVerify "r1" "error" "") = XMPPError.ItemNotFound
              ∨ demoLibrary.decodeDbRsp (demoVerify "r1" "error" "") = XMPPError.HostUnknown) →
            relayed = demoLibrary.decodeDbRsp (demoVerify "r1" "error" "")) :=
  ⟨rfl,
    processDbVerify_outgoing_relay demoLibrary demoEngine
      (demoVerifyResponse demoOutgoing "r1" "error") demoOutgoing
      (demoVerify "r1" "error" "") ⟨"r1", "k1"⟩ rfl rfl rfl (by decide) rfl rfl⟩

/-- C7: a verify response on an outgoing server stream with an empty id, with
no pending request, or with an id other than the pending one is dropped:
the pending request is taken and nothing is sent to any stream. A
notification with an empty id sends nothing either. -/
theorem processDbVerify_outgoing_drop (L : Library) (e : YJBEngine) (ev : JBEvent)
    (stream : JBStream) (element : XmlElement)
    (hstream : ev.serverStream = some stream) (hel : ev.element = some element)
    (hout : stream.incoming = false)
    (hdrop : element.getAttribute "id" = "" ∨ stream.m_dbKey = none
      ∨ ∃ db, stream.m_dbKey = some db ∧ db.name ≠ element.getAttribute "id") :
    (processDbVerify L e ev).2
        = [Effect.takeDb stream.toString stream.m_dbKey]
          ++ (if stream.dialback then
                [Effect.terminate stream.toString true XMPPError.NoError]
              else [])
      ∧ (processDbVerify L e ev).2.filter Effect.isSendDbResult = []
      ∧ ∀ (lcl remote : JabberID) (rsp : XMPPError),
          notifyDbVerifyResult L lcl remote "" rsp = [] := by
  have h1 : (processDbVerify L e ev).2
        = [Effect.takeDb stream.toString stream.m_dbKey]
          ++ (if stream.dialback then
                [Effect.terminate stream.toString true XMPPError.NoError]
              else []) := by
    unfold processDbVerify
    rw [hstream, hel]
    rcases hdrop with h | h | ⟨db, h, hne⟩
    · cases hdb : stream.m_dbKey <;> simp [hout, JBStream.takeDb, hdb, h]
    · simp [hout, JBStream.takeDb, h]
    · simp [hout, JBStream.takeDb, h, hne]
  refine ⟨h1, ?_, ?_⟩
  · rw [h1]
    split <;> simp [Effect.isSendDbResult]
  · intro lcl remote rsp
    simp [notifyDbVerifyResult]

/-- Witness of C7: a response for the id `zz` on the stream waiting for `r1`. -/
theorem processDbVerify_outgoing_drop_witness :
    (demoVerifyResponse demoOutgoing "zz" "valid").serverStream = some demoOutgoing
      ∧ (processDbVerify demoLibrary demoEngine
            (demoVerifyResponse demoOutgoing "zz" "valid")).2.filter Effect.isSendDbResult
          = [] :=
  ⟨rfl,
    (processDbVerify_outgoing_drop demoLibrary demoEngine
      (demoVerifyResponse demoOutgoing "zz" "valid") demoOutgoing
      (demoVerify "zz" "valid" "") rfl rfl rfl
      (Or.inr (Or.inr ⟨⟨"r1", "k1"⟩, rfl, by decide⟩))).2.1⟩

theorem processStreamEvent_term (L : Library) (e : YJBEngine) (ev : JBEvent)
    (s : JBStream) (db : NamedString) (hout : s.incoming = false)
    (htype : s.type = StreamType.s2s) (hdb : s.m_dbKey = some db)
    (hty : ev.type = JBEventType.Destroy ∨ ev.type = JBEventType.Terminated) :
    (processStreamEvent L e ev s).2.1.m_dbKey = none
      ∧ ∃ m : Message, m.name = "user.notify"
        ∧ (processStreamEvent L e ev s).2.2
            = [Effect.takeDb s.toString (some db)]
              ++ notifyDbVerifyResult L s.local s.remote db.name XMPPError.RemoteTimeout
              ++ [Effect.enqueue m] := by
  have hreg : ev.type ≠ JBEventType.Running := by
    rcases hty with h | h <;> simp [h]
  unfold processStreamEvent
  simp only [hout, hreg, htype, JBStream.takeDb, hdb, Bool.false_eq_true, if_false,
    not_false_eq_true, if_true, true_or]
  refine ⟨trivial, ?_⟩
  refine ⟨_, ?_, rfl⟩
  split <;> rfl

theorem processStreamEvent_running (L : Library) (e : YJBEngine) (ev : JBEvent)
    (s : JBStream) (hty : ev.type = JBEventType.Running) :
    (processStreamEvent L e ev s).2.1.m_dbKey = s.m_dbKey
      ∧ (processStreamEvent L e ev s).2.2.filter Effect.isTakeDb = []
      ∧ (processStreamEvent L e ev s).2.2.filter Effect.isSendDbResult = [] := by
  unfold processStreamEvent
  cases hin : s.incoming
  · simp [hty, Effect.isTakeDb, Effect.isSendDbResult]
  · by_cases hc : s.type = StreamType.c2s
    · simp [hty, hc]
    · simp [hty, hc, Effect.isTakeDb, Effect.isSendDbResult]

/-- C8: on an outgoing server stream holding the pending request `db`, a
Destroy or Terminated event takes the request off the stream and notifies
RemoteTimeout for (stream local, stream remote, request id) before the
`user.notify` message is enqueued; a Running event, on any stream, leaves the
request where it is, takes nothing and sends no result. -/
theorem processStreamEvent_timeout (L : Library) (e : YJBEngine) (ev : JBEvent)
    (s : JBStream) :
    (∀ db : NamedString, s.incoming = false → s.type = StreamType.s2s →
        s.m_dbKey = some db →
        (ev.type = JBEventType.Destroy ∨ ev.type = JBEventType.Terminated) →
        (processStreamEvent L e ev s).2.1.m_dbKey = none
          ∧ ∃ m : Message, m.name = "user.notify"
            ∧ (processStreamEvent L e ev s).2.2
                = [Effect.takeDb s.toString (some db)]
                  ++ notifyDbVerifyResult L s.local s.remote db.name
                      XMPPError.RemoteTimeout
                  ++ [Effect.enqueue m])
      ∧ (ev.type = JBEventType.Running →
          (processStreamEvent L e ev s).2.1.m_dbKey = s.m_dbKey
            ∧ (processStreamEvent L e ev s).2.2.filter Effect.isTakeDb = []
            ∧ (processStreamEvent L e ev s).2.2.filter Effect.isSendDbResult = []) :=
  ⟨fun db hout htype hdb hty => processStreamEvent_term L e ev s db hout htype hdb hty,
   fun hty => processStreamEvent_running L e ev s hty⟩

/-- Witness of C8: the stream `s2s/2` is terminated while waiting for `r1`,
and the waiting stream `s2s/1` gets the timeout. -/
theorem processStreamEvent_timeout_witness :
    (processStreamEvent demoLibrary demoEngine
        (demoEvent JBEventType.Terminated demoOutgoing none "") demoOutgoing).2.1.m_dbKey
        = none
      ∧ (processStreamEvent demoLibrary demoEngine
          (demoEvent JBEventType.Terminated demoOutgoing none "") demoOutgoing).2.2.filter
            Effect.isSendDbResult
          = [Effect.sendDbResult "s2s/1" "b.example" "a.example" XMPPError.RemoteTimeout] :=
  ⟨((processStreamEvent_timeout demoLibrary demoEngine
      (demoEvent JBEventType.Terminated demoOutgoing none "") demoOutgoing).1 ⟨"r1", "k1"⟩
      rfl rfl rfl (Or.inr rfl)).1,
   by decide⟩

theorem processDbVerify_outgoing_step (L : Library) (e : YJBEngine) (ev : JBEvent)
    (s : JBStream) (el : XmlElement) (hout : s.incoming = false)
    (htype : s.type = StreamType.s2s) (hel : ev.element = some el) :
    processDbVerify L e { ev with stream := some s }
      = (some { s with m_dbKey := none },
          [Effect.takeDb s.toString s.m_dbKey]
            ++ (match s.m_dbKey with
                | some d =>
                  if el.getAttribute "id" ≠ "" ∧ d.name = el.getAttribute "id" then
                    notifyDbVerifyResult L ev.to ev.from (el.getAttribute "id")
                      (adjustDbRsp (L.decodeDbRsp el))
                  else []
                | none => [])
            ++ (if s.dialback then [Effect.terminate s.toString true XMPPError.NoError]
                else [])) := by
  unfold processDbVerify JBEvent.serverStream
  simp only [htype, true_or, if_true, hel, hout, JBStream.takeDb, Bool.false_eq_true,
    if_false, adjustDbRsp]

theorem processDbVerify_no_element (L : Library) (e : YJBEngine) (ev : JBEvent)
    (s : JBStream) (hel : ev.element = none) :
    processDbVerify L e { ev with stream := some s } = (some s, []) := by
  unfold processDbVerify
  simp only [hel]
  split
  · rename_i h1 h2
    simp at h2
  · rfl

theorem processDbVerifySeq_idle (L : Library) (e : YJBEngine) (evs : List JBEvent) :
    ∀ s : JBStream, s.incoming = false → s.type = StreamType.s2s → s.m_dbKey = none →
      (processDbVerifySeq L e s evs).1 = s
        ∧ (processDbVerifySeq L e s evs).2.filter Effect.isTake = []
        ∧ (processDbVerifySeq L e s evs).2.filter Effect.isSendDbResult = [] := by
  induction evs with
  | nil => intro s _ _ _; simp [processDbVerifySeq]
  | cons ev rest ih =>
    intro s hout htype hdb
    have ih2 := ih s hout htype hdb
    cases hev : ev.element with
    | none =>
      simp only [processDbVerifySeq]
      rw [processDbVerify_no_element L e ev s hev]
      simpa using ih2
    | some el =>
      have hstep := processDbVerify_outgoing_step L e ev s el hout htype hev
      have hs : ({ s with m_dbKey := none } : JBStream) = s := by
        cases s; simp_all
      rw [hs, hdb] at hstep
      simp only [processDbVerifySeq]
      rw [hstep]
      simp only [Option.getD_some]
      refine ⟨ih2.1, ?_, ?_⟩
      · rw [List.filter_append, ih2.2.1]
        split <;> simp [Effect.isTake]
      · rw [List.filter_append, ih2.2.2]
        split <;> simp [Effect.isSendDbResult]

theorem processStreamEvent_idle (L : Library) (e : YJBEngine) (ev : JBEvent) (s : JBStream)
    (hout : s.incoming = false) (htype : s.type = StreamType.s2s)
    (hdb : s.m_dbKey = none) :
    (processStreamEvent L e ev s).2.1.m_dbKey = none
      ∧ (processStreamEvent L e ev s).2.2.filter Effect.isTake = []
      ∧ (processStreamEvent L e ev s).2.2.filter Effect.isSendDbResult = [] := by
  unfold processStreamEvent
  by_cases hreg : ev.type = JBEventType.Running
  · simp [hout, hreg, hdb, Effect.isTake, Effect.isSendDbResult]
  · simp [hout, hreg, htype, hdb, JBStream.takeDb, Effect.isTake, Effect.isSendDbResult]

theorem verifyThenTerminate_skip (L : Library) (e : YJBEngine) (s : JBStream)
    (ev : JBEvent) (rest : List JBEvent) (term : JBEvent) (hel : ev.element = none) :
    verifyThenTerminate L e s (ev :: rest) term = verifyThenTerminate L e s rest term := by
  simp only [verifyThenTerminate, processDbVerifySeq]
  rw [processDbVerify_no_element L e ev s hel]
  simp

theorem verifyThenTerminate_main (L : Library) (e : YJBEngine) (s : JBStream)
    (db : NamedString) (term : JBEvent)
    (hout : s.incoming = false) (htype : s.type = StreamType.s2s)
    (hdb : s.m_dbKey = some db)
    (hterm : term.type = JBEventType.Destroy ∨ term.type = JBEventType.Terminated) :
    ∀ evs : List JBEvent,
      (verifyThenTerminate L e s evs term).2.filter Effect.isTake
          = [Effect.takeDb s.toString (some db)]
        ∧ (verifyThenTerminate L e s evs term).1.m_dbKey = none
        ∧ (verifyThenTerminate L e s evs term).2.filter Effect.isSendDbResult
            = (match firstVerify evs with
                | none =>
                  notifyDbVerifyResult L s.local s.remote db.name XMPPError.RemoteTimeout
                | some (ev, el) =>
                  if el.getAttribute "id" ≠ "" ∧ db.name = el.getAttribute "id" then
                    notifyDbVerifyResult L ev.to ev.from (el.getAttribute "id")
                      (adjustDbRsp (L.decodeDbRsp el))
                  else []) := by
  intro evs
  induction evs with
  | nil =>
    obtain ⟨h1, m, -, h2⟩ :=
      processStreamEvent_term L e { term with stream := some s } s db hout htype hdb hterm
    simp only [verifyThenTerminate, processDbVerifySeq, List.nil_append, firstVerify]
    refine ⟨?_, h1, ?_⟩
    · rw [h2]
      simp [List.filter_append, notifyDbVerifyResult_no_take, Effect.isTake]
    · rw [h2]
      simp [List.filter_append, notifyDbVerifyResult_filter, Effect.isSendDbResult]
  | cons ev rest ih =>
    cases hev : ev.element with
    | none =>
      rw [verifyThenTerminate_skip L e s ev rest term hev]
      simpa only [firstVerify, hev] using ih
    | some el =>
      have hstep := processDbVerify_outgoing_step L e ev s el hout htype hev
      have hrest := processDbVerifySeq_idle L e rest { s with m_dbKey := none } hout htype rfl
      have hfin := processStreamEvent_idle L e
        { term with stream := some ({ s with m_dbKey := none } : JBStream) }
        { s with m_dbKey := none } hout htype rfl
      simp only [verifyThenTerminate, processDbVerifySeq, firstVerify]
      rw [hstep]
      simp only [Option.getD_some, hrest.1, hev, hdb]
      refine ⟨?_, hfin.1, ?_⟩
      · simp only [List.filter_append, hrest.2.1, hfin.2.1, List.append_nil]
        split <;> split <;>
          simp [Effect.isTake, notifyDbVerifyResult_no_take]
      · simp only [List.filter_append, hrest.2.2, hfin.2.2, List.append_nil]
        split <;> split <;>
          simp [Effect.isSendDbResult, notifyDbVerifyResult_filter]

/-- C9, as stated, fails: the stream `s2s/2` waits for `r1` and the incoming
stream `s2s/1` with id `r1` is registered; after a verify response for the
id `zz` and the termination of `s2s/2` the request was taken once and no
result was notified at all. -/
theorem verifyThenTerminate_never_notified :
    demoLibrary.findServerStream "b.example" "a.example" false false = some demoIncoming
      ∧ ((verifyThenTerminate demoLibrary demoEngine demoOutgoing
            [demoVerifyResponse demoOutgoing "zz" "valid"]
            (demoEvent JBEventType.Terminated demoOutgoing none "")).2.filter
          Effect.isTake).length = 1
      ∧ ((verifyThenTerminate demoLibrary demoEngine demoOutgoing
            [demoVerifyResponse demoOutgoing "zz" "valid"]
            (demoEvent JBEventType.Terminated demoOutgoing none "")).2.filter
          Effect.isSendDbResult).length = 0 := by
  decide

/-- C9, amended: over verify responses followed by a termination event on an
outgoing server stream holding the request `db`, the request is taken
exactly once and at most one result is notified: the timeout when no verify
response carried an element, the adjusted response when the first verify
response carries the pending id, and nothing when it carries an empty or
another id. -/
theorem verifyThenTerminate_takes_once (L : Library) (e : YJBEngine) (s : JBStream)
    (db : NamedString) (evs : List JBEvent) (term : JBEvent)
    (hout : s.incoming = false) (htype : s.type = StreamType.s2s)
    (hdb : s.m_dbKey = some db)
    (hterm : term.type = JBEventType.Destroy ∨ term.type = JBEventType.Terminated) :
    (verifyThenTerminate L e s evs term).2.filter Effect.isTake
        = [Effect.takeDb s.toString (some db)]
      ∧ (verifyThenTerminate L e s evs term).1.m_dbKey = none
      ∧ (verifyThenTerminate L e s evs term).2.filter Effect.isSendDbResult
          = (match firstVerify evs with
              | none =>
                notifyDbVerifyResult L s.local s.remote db.name XMPPError.RemoteTimeout
              | some (ev, el) =>
                if el.getAttribute "id" ≠ "" ∧ db.name = el.getAttribute "id" then
                  notifyDbVerifyResult L ev.to ev.from (el.getAttribute "id")
                    (adjustDbRsp (L.decodeDbRsp el))
                else [])
      ∧ ((verifyThenTerminate L e s evs term).2.filter Effect.isSendDbResult).length ≤ 1 := by
  obtain ⟨h1, h2, h3⟩ := verifyThenTerminate_main L e s db term hout htype hdb hterm evs
  refine ⟨h1, h2, h3, ?_⟩
  rw [h3]
  split
  · exact notifyDbVerifyResult_length _ _ _ _ _
  · split
    · exact notifyDbVerifyResult_length _ _ _ _ _
    · simp

/-- Witness of the amended C9: a valid response for `r1`, then termination. -/
theorem verifyThenTerminate_takes_once_witness :
    (verifyThenTerminate demoLibrary demoEngine demoOutgoing
        [demoVerifyResponse demoOutgoing "r1" "valid"]
        (demoEvent JBEventType.Terminated demoOutgoing none "")).2.filter Effect.isTake
        = [Effect.takeDb "s2s/2" (some ⟨"r1", "k1"⟩)]
      ∧ (verifyThenTerminate demoLibrary demoEngine demoOutgoing
          [demoVerifyResponse demoOutgoing "r1" "valid"]
          (demoEvent JBEventType.Terminated demoOutgoing none "")).2.filter
            Effect.isSendDbResult
          = [Effect.sendDbResult "s2s/1" "b.example" "a.example" XMPPError.NoError] :=
  ⟨(verifyThenTerminate_takes_once demoLibrary demoEngine demoOutgoing ⟨"r1", "k1"⟩
      [demoVerifyResponse demoOutgoing "r1" "valid"]
      (demoEvent JBEventType.Terminated demoOutgoing none "") rfl rfl rfl
      (Or.inr rfl)).1,
   by decide⟩

/-! ### The pending stanza workers -/

theorem thread_lt (p : PendingPool) (i : Nat) (w : JBPendingWorker)
    (h : p.thread i = some w) : i < p.s_threads.length := by
  unfold PendingPool.thread at h
  by_contra hlt
  rw [List.getElem?_eq_none (Nat.le_of_not_lt hlt)] at h
  simp at h

theorem thread_set (p : PendingPool) (i j : Nat) (x : Option JBPendingWorker)
    (w : JBPendingWorker) (h : p.thread i = some w) :
    (p.setThread i x).thread j = if i = j then x else p.thread j := by
  have hlt := thread_lt p i w h
  unfold PendingPool.thread PendingPool.setThread
  simp only [List.getElem?_set, hlt, if_true]
  split <;> simp

theorem setThread_count (p : PendingPool) (i : Nat) (x : Option JBPendingWorker) :
    (p.setThread i x).s_threadCount = p.s_threadCount := rfl

theorem setThread_routed (p : PendingPool) (i : Nat) (x : Option JBPendingWorker) :
    (p.setThread i x).routed = p.routed := rfl

theorem init_key (L : Library) (e : YJBEngine) (ev : JBEvent) (s : JBStream) :
    (JBPendingJob.init L e ev s).key = partitionKey ev s.type := rfl

theorem initialize_thread (N i : Nat) (w : JBPendingWorker)
    (h : ( JBPendingWorker.initialize N).thread i = some w) : w = ⟨i, [], false⟩ := by
  unfold PendingPool.thread JBPendingWorker.initialize at h
  simp only [List.getElem?_map, List.getElem?_range] at h
  by_cases hi : i < N
  · simp [List.getElem?_range hi] at h
    exact h.symm
  · rw [List.getElem?_eq_none (by simpa using hi)] at h
    simp at h

theorem add_accepts (L : Library) (e : YJBEngine) (p : PendingPool) (ev : JBEvent)
    (h : (JBPendingWorker.add L e p ev).1 = true) :
    ∃ s th, ev.stream = some s
      ∧ p.thread (L.stringHash (partitionKey ev s.type) % p.s_threadCount) = some th
      ∧ JBPendingWorker.add L e p ev
          = (true, p.setThread (L.stringHash (partitionKey ev s.type) % p.s_threadCount)
              (some { th with m_jobs := th.m_jobs ++ [JBPendingJob.init L e ev s] })) := by
  unfold JBPendingWorker.add at h ⊢
  cases hel : ev.element with
  | none => simp [hel] at h
  | some el =>
    cases hst : ev.stream with
    | none => simp [hel, hst] at h
    | some s =>
      simp only [hel, hst] at h ⊢
      by_cases hx : p.exiting = true
      · simp [hx] at h
      · by_cases hr : ev.refOk = true
        · cases hth : p.thread (L.stringHash (partitionKey ev s.type) % p.s_threadCount) with
          | none => simp [hx, hr, hth] at h
          | some th =>
            refine ⟨s, th, rfl, hth, ?_⟩
            simp [hx, hr, hth]
        · simp [hx, hr] at h

theorem add_rejects (L : Library) (e : YJBEngine) (p : PendingPool) (ev : JBEvent)
    (h : (JBPendingWorker.add L e p ev).1 = false) :
    (JBPendingWorker.add L e p ev).2.s_threads = p.s_threads
      ∧ (JBPendingWorker.add L e p ev).2.s_threadCount = p.s_threadCount
      ∧ (JBPendingWorker.add L e p ev).2.routed = p.routed := by
  unfold JBPendingWorker.add at h ⊢
  cases hel : ev.element with
  | none => simp
  | some el =>
    cases hst : ev.stream with
    | none => simp
    | some s =>
      simp only [hel, hst] at h ⊢
      by_cases hx : p.exiting = true
      · simp [hx]
      · by_cases hr : ev.refOk = true
        · cases hth : p.thread (L.stringHash (partitionKey ev s.type) % p.s_threadCount) with
          | none => simp [hx, hr]
          | some th => simp [hx, hr, hth] at h
        · simp [hx, hr]

theorem key_of_index_ne (L : Library) (N i : Nat) (k : String) (job : JBPendingJob)
    (hjob : L.stringHash job.key % N = i) (hne : i ≠ L.stringHash k % N) :
    keyIs k job = false ∧ selects k job = false := by
  have hk : job.key ≠ k := by
    intro h
    apply hne
    rw [← hjob, h]
  simp [keyIs, selects, hk]

theorem inv_add (L : Library) (e : YJBEngine) (k : String) (p : PendingPool)
    (A : List JBPendingJob) (ev : JBEvent)
    (hwf : p.WF L) (hby : p.RoutedBy L) (hfifo : p.Fifo L k A) :
    (JBPendingWorker.add L e p ev).2.s_threadCount = p.s_threadCount
      ∧ (JBPendingWorker.add L e p ev).2.WF L
      ∧ (JBPendingWorker.add L e p ev).2.RoutedBy L
      ∧ (JBPendingWorker.add L e p ev).2.Fifo L k
          (A ++ (if (JBPendingWorker.add L e p ev).1 then JBPendingJob.ofEvent L e ev
                 else [])) := by
  cases hacc : (JBPendingWorker.add L e p ev).1 with
  | false =>
    obtain ⟨h1, h2, h3⟩ := add_rejects L e p ev hacc
    have hthread : ∀ i, (JBPendingWorker.add L e p ev).2.thread i = p.thread i := by
      intro i
      simp [PendingPool.thread, h1]
    refine ⟨h2, ?_, ?_, ?_⟩
    · intro i w hw
      rw [hthread] at hw
      rw [h2]
      exact hwf i w hw
    · intro c hc
      rw [h3] at hc
      rw [h2]
      exact hby c hc
    · obtain ⟨pend, hp1, hp2⟩ := hfifo
      refine ⟨pend, ?_, ?_⟩
      · simpa [PendingPool.routedJobs, h3] using hp1
      · intro w hw
        rw [hthread, h2] at hw
        exact hp2 w hw
  | true =>
    obtain ⟨s, th, hst, hth, heq⟩ := add_accepts L e p ev hacc
    rw [heq]
    have hthread := fun j => thread_set p
      (L.stringHash (partitionKey ev s.type) % p.s_threadCount) j
      (some { th with m_jobs := th.m_jobs ++ [JBPendingJob.init L e ev s] }) th hth
    refine ⟨rfl, ?_, ?_, ?_⟩
    · intro i w hw
      rw [hthread] at hw
      by_cases hi : L.stringHash (partitionKey ev s.type) % p.s_threadCount = i
      · simp only [hi, if_true, Option.some.injEq] at hw
        subst hw
        rw [hi] at hth
        refine ⟨(hwf i th hth).1, ?_⟩
        intro job hjob
        rcases List.mem_append.mp hjob with h | h
        · exact (hwf i th hth).2 job h
        · rw [List.mem_singleton] at h
          rw [h, init_key]
          exact hi
      · simp only [hi, if_false] at hw
        exact hwf i w hw
    · exact hby
    · obtain ⟨pend, hp1, hp2⟩ := hfifo
      refine ⟨pend ++ [JBPendingJob.init L e ev s].filter (selects k), ?_, ?_⟩
      · simp only [JBPendingJob.ofEvent, hst, if_true, List.filter_append, hp1,
          List.append_assoc]
        rfl
      · intro w hw
        simp only [setThread_count] at hw
        rw [hthread] at hw
        by_cases hi : L.stringHash (partitionKey ev s.type) % p.s_threadCount
            = L.stringHash k % p.s_threadCount
        · simp only [hi, if_true, Option.some.injEq] at hw
          subst hw
          rw [hi] at hth
          rw [hp2 th hth, List.filter_append]
        · simp only [hi, if_false] at hw
          have hsel := (key_of_index_ne L p.s_threadCount _ k (JBPendingJob.init L e ev s)
            (init_key L e ev s ▸ rfl) hi).2
          simp only [List.filter_cons, hsel, List.filter_nil, List.append_nil,
            Bool.false_eq_true, if_false]
          exact hp2 w hw

theorem run_pop (p : PendingPool) (index : Nat) (w : JBPendingWorker) (job : JBPendingJob)
    (rest : List JBPendingJob) (hth : p.thread index = some w) (hc : w.cancelled = false)
    (hj : w.m_jobs = job :: rest) :
    ∃ cs : List RouterCall,
      JBPendingWorker.run p index
          = { p.setThread index (some { w with m_jobs := rest }) with
              routed := p.routed ++ cs }
        ∧ cs.map RouterCall.job = (if job.routable then [job] else [])
        ∧ ∀ c ∈ cs, c.worker = w.m_index ∧ c.job = job := by
  unfold JBPendingWorker.run
  simp only [hth, hc, hj, Bool.false_eq_true, if_false]
  cases hel : job.m_event.element with
  | none =>
    refine ⟨[], ?_, ?_, ?_⟩
    · simp
      rfl
    · simp [JBPendingJob.routable, hel]
    · simp
  | some el =>
    cases htag : el.tag with
    | Message =>
      refine ⟨[RouterCall.processChat w.m_index job], ?_, ?_, ?_⟩
      · simp [htag]
        rfl
      · simp [JBPendingJob.routable, hel, htag, RouterCall.job]
      · simp [RouterCall.worker, RouterCall.job]
    | Iq =>
      refine ⟨[RouterCall.processIq w.m_index job], ?_, ?_, ?_⟩
      · simp [htag]
        rfl
      · simp [JBPendingJob.routable, hel, htag, RouterCall.job]
      · simp [RouterCall.worker, RouterCall.job]
    | Presence =>
      refine ⟨[], ?_, ?_, ?_⟩
      · simp [htag]
        rfl
      · simp [JBPendingJob.routable, hel, htag]
      · simp
    | Other =>
      refine ⟨[], ?_, ?_, ?_⟩
      · simp [htag]
        rfl
      · simp [JBPendingJob.routable, hel, htag]
      · simp

theorem inv_setThread (L : Library) (k : String) (p : PendingPool) (A : List JBPendingJob)
    (index : Nat) (w : JBPendingWorker) (x : Option JBPendingWorker)
    (hwf : p.WF L) (hby : p.RoutedBy L) (hfifo : p.Fifo L k A)
    (hth : p.thread index = some w)
    (hx : ∀ w2, x = some w2 → w2.m_index = w.m_index ∧ w2.m_jobs = w.m_jobs) :
    (p.setThread index x).WF L ∧ (p.setThread index x).RoutedBy L
      ∧ (p.setThread index x).Fifo L k A := by
  have hthread := fun j => thread_set p index j x w hth
  refine ⟨?_, hby, ?_⟩
  · intro i w2 hw2
    rw [hthread] at hw2
    rw [setThread_count]
    by_cases hi : index = i
    · simp only [hi, if_true] at hw2
      obtain ⟨h1, h2⟩ := hx w2 hw2
      rw [hi] at hth
      rw [h1, h2]
      exact hwf i w hth
    · simp only [hi, if_false] at hw2
      exact hwf i w2 hw2
  · obtain ⟨pend, hp1, hp2⟩ := hfifo
    refine ⟨pend, hp1, ?_⟩
    intro w2 hw2
    rw [setThread_count, hthread] at hw2
    by_cases hi : index = L.stringHash k % p.s_threadCount
    · simp only [hi, if_true] at hw2
      obtain ⟨-, h2⟩ := hx w2 hw2
      rw [hi] at hth
      rw [h2]
      exact hp2 w hth
    · simp only [hi, if_false] at hw2
      exact hp2 w2 hw2

theorem inv_cancel (L : Library) (k : String) (p : PendingPool) (A : List JBPendingJob)
    (index : Nat) (hwf : p.WF L) (hby : p.RoutedBy L) (hfifo : p.Fifo L k A) :
    (JBPendingWorker.cancel p index).s_threadCount = p.s_threadCount
      ∧ (JBPendingWorker.cancel p index).WF L
      ∧ (JBPendingWorker.cancel p index).RoutedBy L
      ∧ (JBPendingWorker.cancel p index).Fifo L k A := by
  unfold JBPendingWorker.cancel
  cases hth : p.thread index with
  | none => exact ⟨rfl, hwf, hby, hfifo⟩
  | some w =>
    refine ⟨rfl, inv_setThread L k p A index w _ hwf hby hfifo hth ?_⟩
    intro w2 hw2
    simp only [Option.some.injEq] at hw2
    subst hw2
    exact ⟨rfl, rfl⟩

theorem inv_run (L : Library) (k : String) (p : PendingPool) (A : List JBPendingJob)
    (index : Nat) (hwf : p.WF L) (hby : p.RoutedBy L) (hfifo : p.Fifo L k A) :
    (JBPendingWorker.run p index).s_threadCount = p.s_threadCount
      ∧ (JBPendingWorker.run p index).WF L
      ∧ (JBPendingWorker.run p index).RoutedBy L
      ∧ (JBPendingWorker.run p index).Fifo L k A := by
  cases hth : p.thread index with
  | none =>
    have hrun : JBPendingWorker.run p index = p := by
      unfold JBPendingWorker.run
      simp [hth]
    rw [hrun]
    exact ⟨rfl, hwf, hby, hfifo⟩
  | some w =>
    have hidx := (hwf index w hth).1
    cases hc : w.cancelled with
    | true =>
      have hrun : JBPendingWorker.run p index = JBPendingWorker.resetIndex p w := by
        unfold JBPendingWorker.run
        simp [hth, hc]
      rw [hrun]
      unfold JBPendingWorker.resetIndex
      split
      · rw [hidx]
        refine ⟨rfl, inv_setThread L k p A index w none hwf hby hfifo hth ?_⟩
        intro w2 hw2
        simp at hw2
      · exact ⟨rfl, hwf, hby, hfifo⟩
    | false =>
      cases hj : w.m_jobs with
      | nil =>
        have hrun : JBPendingWorker.run p index = p := by
          unfold JBPendingWorker.run
          simp [hth, hc, hj]
        rw [hrun]
        exact ⟨rfl, hwf, hby, hfifo⟩
      | cons job rest =>
        obtain ⟨cs, hrun, hcs, hworker⟩ := run_pop p index w job rest hth hc hj
        rw [hrun]
        have hthread := fun j =>
          thread_set p index j (some { w with m_jobs := rest }) w hth
        have hjobidx : L.stringHash job.key % p.s_threadCount = index :=
          (hwf index w hth).2 job (by rw [hj]; exact List.mem_cons_self _ _)
        refine ⟨rfl, ?_, ?_, ?_⟩
        · intro i w2 hw2
          change (p.setThread index (some { w with m_jobs := rest })).thread i = some w2
            at hw2
          change w2.m_index = i ∧ ∀ job ∈ w2.m_jobs,
            L.stringHash job.key % p.s_threadCount = i
          rw [hthread] at hw2
          by_cases hi : index = i
          · simp only [hi, if_true, Option.some.injEq] at hw2
            subst hw2
            rw [hi] at hth
            refine ⟨(hwf i w hth).1, ?_⟩
            intro j2 hj2
            exact (hwf i w hth).2 j2 (by rw [hj]; exact List.mem_cons_of_mem _ hj2)
          · simp only [hi, if_false] at hw2
            exact hwf i w2 hw2
        · intro c hc2
          change c ∈ p.routed ++ cs at hc2
          change c.worker = L.stringHash c.job.key % p.s_threadCount
          rcases List.mem_append.mp hc2 with h | h
          · exact hby c h
          · obtain ⟨h1, h2⟩ := hworker c h
            rw [h1, h2, hjobidx, hidx]
        · obtain ⟨pend, hp1, hp2⟩ := hfifo
          have hrouted : PendingPool.routedJobs
              { p.setThread index (some { w with m_jobs := rest }) with
                routed := p.routed ++ cs }
              = p.routedJobs ++ (if job.routable then [job] else []) := by
            simp [PendingPool.routedJobs, hcs]
          by_cases hi : index = L.stringHash k % p.s_threadCount
          · have hpend : pend = (job :: rest).filter (selects k) := by
              rw [← hj]
              exact hp2 w (hi ▸ hth)
            refine ⟨rest.filter (selects k), ?_, ?_⟩
            · rw [hrouted, hp1, hpend, List.filter_append, List.append_assoc]
              congr 1
              cases hr : job.routable <;> cases hk : job.key == k <;>
                simp [selects, keyIs, hr, hk, List.filter_cons]
            · intro w2 hw2
              change (p.setThread index (some { w with m_jobs := rest })).thread
                (L.stringHash k % p.s_threadCount) = some w2 at hw2
              rw [hthread] at hw2
              simp only [hi, if_true, Option.some.injEq] at hw2
              subst hw2
              rfl
          · have hsel := (key_of_index_ne L p.s_threadCount index k job hjobidx hi).1
            refine ⟨pend, ?_, ?_⟩
            · rw [hrouted, hp1, List.filter_append]
              congr 1
              cases hr : job.routable <;> simp [hsel, List.filter_cons]
            · intro w2 hw2
              change (p.setThread index (some { w with m_jobs := rest })).thread
                (L.stringHash k % p.s_threadCount) = some w2 at hw2
              rw [hthread] at hw2
              simp only [hi, if_false] at hw2
              exact hp2 w2 hw2

theorem runOps_inv (L : Library) (e : YJBEngine) (k : String) (ops : List PoolOp) :
    ∀ (p : PendingPool) (A : List JBPendingJob), p.WF L → p.RoutedBy L → p.Fifo L k A →
      (runOps L e p ops).1.s_threadCount = p.s_threadCount
        ∧ (runOps L e p ops).1.WF L
        ∧ (runOps L e p ops).1.RoutedBy L
        ∧ (runOps L e p ops).1.Fifo L k (A ++ (runOps L e p ops).2) := by
  induction ops with
  | nil =>
    intro p A hwf hby hfifo
    simpa [runOps] using ⟨hwf, hby, hfifo⟩
  | cons op ops ih =>
    intro p A hwf hby hfifo
    cases op with
    | add ev =>
      obtain ⟨h1, h2, h3, h4⟩ := inv_add L e k p A ev hwf hby hfifo
      obtain ⟨g1, g2, g3, g4⟩ := ih _ _ h2 h3 h4
      simp only [runOps]
      refine ⟨g1.trans h1, g2, g3, ?_⟩
      rw [← List.append_assoc]
      exact g4
    | run index =>
      obtain ⟨h1, h2, h3, h4⟩ := inv_run L k p A index hwf hby hfifo
      obtain ⟨g1, g2, g3, g4⟩ := ih _ _ h2 h3 h4
      simp only [runOps]
      exact ⟨g1.trans h1, g2, g3, g4⟩
    | cancel index =>
      obtain ⟨h1, h2, h3, h4⟩ := inv_cancel L k p A index hwf hby hfifo
      obtain ⟨g1, g2, g3, g4⟩ := ih _ _ h2 h3 h4
      simp only [runOps]
      exact ⟨g1.trans h1, g2, g3, g4⟩

theorem initialize_inv (L : Library) (k : String) (N : Nat) :
    ( JBPendingWorker.initialize N).WF L ∧ ( JBPendingWorker.initialize N).RoutedBy L
      ∧ ( JBPendingWorker.initialize N).Fifo L k [] := by
  refine ⟨?_, ?_, ?_⟩
  · intro i w hw
    rw [initialize_thread N i w hw]
    simp
  · intro c hc
    simp [ JBPendingWorker.initialize] at hc
  · refine ⟨[], ?_, ?_⟩
    · simp [ JBPendingWorker.initialize, PendingPool.routedJobs]
    · intro w hw
      rw [initialize_thread N _ w hw]
      simp

/-- C10: `add` appends the job of an accepted event to the job list of the
worker at index hash(key) mod count, so events with equal keys go to the same
worker; and for every schedule of adds, worker turns and cancellations run
from `N` started workers, every job is routed by the worker its key hashes
to, the jobs of a key handed to the routers are a prefix, in order, of the
accepted jobs of that key, and while the worker of the key is registered the
accepted jobs of the key are exactly the routed ones followed by the ones
still in its list. -/
theorem pending_fifo (L : Library) (e : YJBEngine) (N : Nat) (ops : List PoolOp)
    (k : String) :
    (∀ (p : PendingPool) (ev : JBEvent), (JBPendingWorker.add L e p ev).1 = true →
        ∃ s th, ev.stream = some s
          ∧ p.thread (L.stringHash (partitionKey ev s.type) % p.s_threadCount) = some th
          ∧ JBPendingWorker.add L e p ev
              = (true, p.setThread (L.stringHash (partitionKey ev s.type) % p.s_threadCount)
                  (some { th with m_jobs := th.m_jobs ++ [JBPendingJob.init L e ev s] })))
      ∧ (∀ c ∈ (runOps L e ( JBPendingWorker.initialize N) ops).1.routed,
          c.worker = L.stringHash c.job.key % N)
      ∧ (runOps L e ( JBPendingWorker.initialize N) ops).1.routedJobs.filter (keyIs k)
          <+: (runOps L e ( JBPendingWorker.initialize N) ops).2.filter (selects k)
      ∧ (∀ w, (runOps L e ( JBPendingWorker.initialize N) ops).1.thread
            (L.stringHash k % N) = some w →
          (runOps L e ( JBPendingWorker.initialize N) ops).2.filter (selects k)
            = (runOps L e ( JBPendingWorker.initialize N) ops).1.routedJobs.filter (keyIs k)
              ++ w.m_jobs.filter (selects k)) := by
  obtain ⟨h1, h2, h3⟩ := initialize_inv L k N
  obtain ⟨g1, -, g3, pend, g4, g5⟩ :=
    runOps_inv L e k ops ( JBPendingWorker.initialize N) [] h1 h2 h3
  have hcount : (runOps L e ( JBPendingWorker.initialize N) ops).1.s_threadCount = N := g1
  rw [List.nil_append] at g4
  refine ⟨fun p ev h => add_accepts L e p ev h, ?_, ?_, ?_⟩
  · intro c hc
    have h := g3 c hc
    rw [hcount] at h
    exact h
  · rw [g4]
    exact List.prefix_append _ _
  · intro w hw
    rw [hcount] at g5
    rw [g4, g5 w hw]

/-- Witness of C10: on two workers, the two messages of the conversation
between `a.example` and `b.example` reach the chat router in the order they
were added. -/
theorem pending_fifo_witness :
    (runOps demoLibrary demoEngine ( JBPendingWorker.initialize 2) demoSchedule).1.routedJobs
        = (runOps demoLibrary demoEngine ( JBPendingWorker.initialize 2) demoSchedule).2
      ∧ (runOps demoLibrary demoEngine ( JBPendingWorker.initialize 2)
            demoSchedule).1.routedJobs.filter (keyIs "a.exampleb.example")
          <+: (runOps demoLibrary demoEngine ( JBPendingWorker.initialize 2)
            demoSchedule).2.filter (selects "a.exampleb.example") :=
  ⟨by decide,
    (pending_fifo demoLibrary demoEngine 2 demoSchedule "a.exampleb.example").2.2.1⟩

/-! ### Worker selection, cancellation and start -/

/-- C11, as stated, fails: on a server stream the hashed key is made of the
full `from` and `to`, not of their domains. Two stanzas with the same sender
domain and the same recipient domain, from the users `u` and `uu`, go to
different workers, while the concatenated domains hash to worker 0. -/
theorem add_key_not_domains :
    (demoStanza "u").from.domain ++ (demoStanza "u").to.domain
        = (demoStanza "uu").from.domain ++ (demoStanza "uu").to.domain
      ∧ demoLibrary.stringHash
          ((demoStanza "uu").from.domain ++ (demoStanza "uu").to.domain) % 2 = 0
      ∧ (((JBPendingWorker.add demoLibrary demoEngine ( JBPendingWorker.initialize 2)
            (demoStanza "u")).2.thread 0).map (fun w => w.m_jobs.length)) = some 1
      ∧ (((JBPendingWorker.add demoLibrary demoEngine ( JBPendingWorker.initialize 2)
            (demoStanza "uu")).2.thread 0).map (fun w => w.m_jobs.length)) = some 0
      ∧ (((JBPendingWorker.add demoLibrary demoEngine ( JBPendingWorker.initialize 2)
            (demoStanza "uu")).2.thread 1).map (fun w => w.m_jobs.length)) = some 1 := by
  decide

/-- C11, amended: an accepted event goes to the worker at index
hash(key) mod count, the key being the full `from` followed, on a server
stream only, by the full `to`; with at least one worker the index is below
the count. -/
theorem add_worker_index (L : Library) (e : YJBEngine) (p : PendingPool) (ev : JBEvent)
    (h : (JBPendingWorker.add L e p ev).1 = true) :
    ∃ s th, ev.stream = some s
      ∧ p.thread (L.stringHash
            (ev.from.str ++ (if s.type = StreamType.s2s then ev.to.str else ""))
          % p.s_threadCount) = some th
      ∧ (JBPendingWorker.add L e p ev).2
          = p.setThread (L.stringHash
              (ev.from.str ++ (if s.type = StreamType.s2s then ev.to.str else ""))
              % p.s_threadCount)
            (some { th with m_jobs := th.m_jobs ++ [JBPendingJob.init L e ev s] })
      ∧ (0 < p.s_threadCount →
          L.stringHash (ev.from.str ++ (if s.type = StreamType.s2s then ev.to.str else ""))
            % p.s_threadCount < p.s_threadCount) := by
  obtain ⟨s, th, h1, h2, h3⟩ := add_accepts L e p ev h
  refine ⟨s, th, h1, h2, ?_, fun hN => Nat.mod_lt _ hN⟩
  rw [h3]
  rfl

/-- Witness of the amended C11: the stanza of the user `uu` is accepted on
two workers and goes to worker 1, the index of the hash of `uu@a.example`
followed by `b.example`. -/
theorem add_worker_index_witness :
    (JBPendingWorker.add demoLibrary demoEngine ( JBPendingWorker.initialize 2)
        (demoStanza "uu")).1 = true
      ∧ demoLibrary.stringHash ("uu@a.example" ++ "b.example") % 2 = 1
      ∧ ∃ s, (demoStanza "uu").stream = some s
        ∧ (0 < ( JBPendingWorker.initialize 2).s_threadCount →
            demoLibrary.stringHash ((demoStanza "uu").from.str
                ++ (if s.type = StreamType.s2s then (demoStanza "uu").to.str else ""))
              % ( JBPendingWorker.initialize 2).s_threadCount
              < ( JBPendingWorker.initialize 2).s_threadCount) :=
  ⟨by decide, by decide,
    match add_worker_index demoLibrary demoEngine ( JBPendingWorker.initialize 2)
      (demoStanza "uu") (by decide) with
    | ⟨s, _, h1, _, _, h4⟩ => ⟨s, h1, h4⟩⟩

theorem run_cancelled_step (p : PendingPool) (index : Nat) (w : JBPendingWorker)
    (hth : p.thread index = some w) (hc : w.cancelled = true) (hidx : w.m_index = index)
    (hlt : index < p.s_threadCount) :
    JBPendingWorker.run p index = p.setThread index none := by
  unfold JBPendingWorker.run JBPendingWorker.resetIndex
  simp [hth, hc, hidx, hlt]

theorem run_unregistered (p : PendingPool) (index : Nat) (hth : p.thread index = none) :
    JBPendingWorker.run p index = p := by
  unfold JBPendingWorker.run
  simp [hth]

theorem runTurns_unregistered (index : Nat) (n : Nat) :
    ∀ p : PendingPool, p.thread index = none → runTurns index n p = p := by
  induction n with
  | zero => intro p _; rfl
  | succ n ih =>
    intro p hth
    simp only [runTurns, run_unregistered p index hth]
    exact ih p hth

/-- C12, as stated, fails: worker 0 holds one job when it is cancelled; at
its next turn it hands nothing to the routers and clears its slot, and the
job is never dispatched. -/
theorem run_cancelled_abandons :
    (demoCancelled.thread 0).map (fun w => (w.cancelled, w.m_jobs.length)) = some (true, 1)
      ∧ (JBPendingWorker.run demoCancelled 0).routed = []
      ∧ (JBPendingWorker.run demoCancelled 0).thread 0 = none
      ∧ (runTurns 0 5 demoCancelled).routed = [] := by
  decide

/-- C12, amended: a cancelled worker leaves its loop at its next turn
without taking a job: whatever its job list holds, nothing more is handed to
the routers, at that turn or at any later one, and its slot is cleared. -/
theorem run_cancelled_exits (p : PendingPool) (index : Nat) (w : JBPendingWorker)
    (n : Nat) (hth : p.thread index = some w) (hc : w.cancelled = true)
    (hidx : w.m_index = index) (hlt : index < p.s_threadCount) :
    (runTurns index (n + 1) p).routed = p.routed
      ∧ (runTurns index (n + 1) p).thread index = none
      ∧ runTurns index (n + 1) p = p.setThread index none := by
  have hstep := run_cancelled_step p index w hth hc hidx hlt
  have hnone : (p.setThread index none).thread index = none := by
    rw [thread_set p index index none w hth]
    simp
  have hall : runTurns index (n + 1) p = p.setThread index none := by
    simp only [runTurns, hstep]
    exact runTurns_unregistered index n _ hnone
  rw [hall]
  exact ⟨rfl, hnone, rfl⟩

/-- Witness of the amended C12 on the cancelled worker holding one job. -/
theorem run_cancelled_exits_witness :
    (runTurns 0 (2 + 1) demoCancelled).routed = demoCancelled.routed
      ∧ (runTurns 0 (2 + 1) demoCancelled).thread 0 = none
      ∧ runTurns 0 (2 + 1) demoCancelled = demoCancelled.setThread 0 none :=
  run_cancelled_exits demoCancelled 0 ⟨0, [JBPendingJob.init demoLibrary demoEngine
    (demoMessage "one") demoIncoming], true⟩ 2 (by decide) rfl rfl (by decide)

/-- C13: for an event with an element and a stream, either `add` returns
true, the job of the event is appended to the list of the selected worker and
no error is sent, or it returns false, no list changes and exactly one error
stanza is sent: Shutdown when the engine is exiting, Internal when the
reference is not obtained or no worker is registered at the index. -/
theorem add_queued_or_answered (L : Library) (e : YJBEngine) (p : PendingPool)
    (ev : JBEvent) (el : XmlElement) (s : JBStream)
    (hel : ev.element = some el) (hs : ev.stream = some s) :
    ((JBPendingWorker.add L e p ev).1 = true
        ∧ p.exiting = false ∧ ev.refOk = true
        ∧ ∃ th, p.thread (L.stringHash (partitionKey ev s.type) % p.s_threadCount) = some th
          ∧ (JBPendingWorker.add L e p ev).2
              = p.setThread (L.stringHash (partitionKey ev s.type) % p.s_threadCount)
                  (some { th with m_jobs := th.m_jobs ++ [JBPendingJob.init L e ev s] }))
      ∨ ((JBPendingWorker.add L e p ev).1 = false
        ∧ (p.exiting = true ∨ ev.refOk = false
            ∨ p.thread (L.stringHash (partitionKey ev s.type) % p.s_threadCount) = none)
        ∧ (JBPendingWorker.add L e p ev).2
            = { p with errors := p.errors
                  ++ [(ev, if p.exiting then XMPPError.Shutdown else XMPPError.Internal)] }) := by
  unfold JBPendingWorker.add
  simp only [hel, hs]
  by_cases hx : p.exiting = true
  · right
    simp [hx]
  · by_cases hr : ev.refOk = true
    · cases hth : p.thread (L.stringHash (partitionKey ev s.type) % p.s_threadCount) with
      | none =>
        right
        simp [hx, hr]
      | some th =>
        left
        simp [hx, hr]
    · right
      simp [hx, hr]

/-- Witness of C13: a message is queued on started workers, and answered by
Shutdown when the engine is exiting. -/
theorem add_queued_or_answered_witness :
    (JBPendingWorker.add demoLibrary demoEngine ( JBPendingWorker.initialize 2)
        (demoMessage "one")).1 = true
      ∧ (JBPendingWorker.add demoLibrary demoEngine
          { JBPendingWorker.initialize 2 with exiting := true } (demoMessage "one"))
          = (false, { JBPendingWorker.initialize 2 with
              exiting := true, errors := [(demoMessage "one", XMPPError.Shutdown)] })
      ∧ ((JBPendingWorker.add demoLibrary demoEngine
            { JBPendingWorker.initialize 2 with exiting := true } (demoMessage "one")).1 = true
          ∨ (JBPendingWorker.add demoLibrary demoEngine
              { JBPendingWorker.initialize 2 with exiting := true }
              (demoMessage "one")).1 = false) :=
  ⟨by decide, by decide,
    (add_queued_or_answered demoLibrary demoEngine
      { JBPendingWorker.initialize 2 with exiting := true }
      (demoMessage "one") ⟨XmlTag.Message, [], "one"⟩ demoIncoming rfl rfl).imp
      (fun h => h.1) (fun h => h.1)⟩

theorem workerCount_range (workers : Option Int) :
    1 ≤ workerCount workers ∧ workerCount workers ≤ 10 := by
  unfold workerCount
  simp only
  split
  · omega
  · split <;> omega

/-- C14: the number of workers started by the first module initialization
is the configured `workers` value brought into 1..10 (1 when nothing is
configured): it is between 1 and 10 for every configured integer, a value
already in that range is kept, every smaller one gives 1 and every larger
one 10; that many workers are registered, so the count the index is reduced
by is never zero. -/
theorem startPendingWorkers_count (workers : Option Int) :
    1 ≤ workerCount workers ∧ workerCount workers ≤ 10
      ∧ workerCount none = 1
      ∧ (∀ n : Int, workers = some n →
          (n < 1 → workerCount workers = 1) ∧ (10 < n → workerCount workers = 10)
            ∧ (1 ≤ n → n ≤ 10 → workerCount workers = n))
      ∧ ∃ p : PendingPool, startPendingWorkers workers = some p
          ∧ (p.s_threadCount : Int) = workerCount workers
          ∧ p.s_threadCount ≠ 0
          ∧ ∀ i, i < p.s_threadCount → ∃ w, p.thread i = some w := by
  obtain ⟨h1, h2⟩ := workerCount_range workers
  refine ⟨h1, h2, rfl, ?_, ?_⟩
  · intro n hn
    subst hn
    refine ⟨?_, ?_, ?_⟩
    · intro h
      simp [workerCount, h]
    · intro h
      have h3 : ¬ n < 1 := by omega
      simp [workerCount, h, h3]
    · intro ha hb
      have h3 : ¬ n < 1 := by omega
      have h4 : ¬ n > 10 := by omega
      simp [workerCount, h3, h4]
  · refine ⟨ JBPendingWorker.initialize (workerCount workers).toNat, rfl, ?_, ?_, ?_⟩
    · simp only [ JBPendingWorker.initialize]
      omega
    · simp only [ JBPendingWorker.initialize]
      omega
    · intro i hi
      refine ⟨⟨i, [], false⟩, ?_⟩
      simp only [ JBPendingWorker.initialize] at hi
      simp [PendingPool.thread, JBPendingWorker.initialize, List.getElem?_range hi]

/-- C15: for a Start event on an outgoing stream, a duplicate stream id
terminates the stream with InvalidId and the stream is not started; without
a duplicate the stream is started and not terminated. -/
theorem processEventStart_outgoing (L : Library) (processStartIn : JBEvent → List Effect)
    (ev : JBEvent) (stream : JBStream) (hs : ev.stream = some stream)
    (hout : stream.incoming = false) :
    (L.checkDupId stream = true →
        processEventStart L processStartIn ev
          = [Effect.terminate stream.toString true XMPPError.InvalidId])
      ∧ (L.checkDupId stream = false →
          processEventStart L processStartIn ev = [Effect.start stream.toString]) := by
  unfold processEventStart
  constructor <;> intro h <;> simp [hs, hout, h]

/-- Witness of C15: the outgoing stream `s2s/2` has no duplicate and is
started. -/
theorem processEventStart_outgoing_witness :
    processEventStart demoLibrary (fun _ => [])
        (demoEvent JBEventType.Start demoOutgoing none "") = [Effect.start "s2s/2"] :=
  (processEventStart_outgoing demoLibrary (fun _ => [])
    (demoEvent JBEventType.Start demoOutgoing none "") demoOutgoing rfl rfl).2 rfl

/-- Witness of C14: 25 configured workers give 10, -3 give 1. -/
theorem startPendingWorkers_count_witness :
    workerCount (some 25) = 10 ∧ workerCount (some (-3)) = 1 :=
  ⟨((startPendingWorkers_count (some 25)).2.2.2.1 25 rfl).2.1 (by decide),
   ((startPendingWorkers_count (some (-3))).2.2.2.1 (-3) rfl).1 (by decide)⟩

/-! ### Resource binding -/

theorem str_ne_empty_of_resource (j : JabberID) (h : j.resource ≠ "") : j.str ≠ "" := by
  intro heq
  have h2 := congrArg String.length heq
  simp only [JabberID.str, h, if_false, String.length_append] at h2
  have h3 : ("/" : String).length = 1 := by decide
  have h4 : ("" : String).length = 0 := by decide
  omega

theorem bindingResource_true (L : Library) (e : YJBEngine) (t : Nat) (u : JabberID)
    (h : (bindingResource L e t u).1 = true) :
    u.resource ≠ "" ∧ restrictedResource L e u.resource = false
      ∧ findBindingRes L e u = none ∧ L.dispatch t (resourceQuery u) = false
      ∧ bindingResource L e t u
          = (true, { e with m_bindingResources := e.m_bindingResources ++ [u] }, t + 1) := by
  unfold bindingResource at h ⊢
  by_cases h1 : u.resource = ""
  · simp [h1] at h
  · by_cases h2 : restrictedResource L e u.resource = true
    · simp [h2] at h
    · cases h3 : findBindingRes L e u with
      | some o => simp [h3] at h
      | none =>
        cases h4 : L.dispatch t (resourceQuery u) with
        | true => simp [h1, h2, h3, h4] at h
        | false => simp [h1, h2, h3, h4]

theorem bindingResource_false (L : Library) (e : YJBEngine) (t : Nat) (u : JabberID)
    (h : (bindingResource L e t u).1 = false) :
    (bindingResource L e t u).2.1 = e := by
  unfold bindingResource at h ⊢
  split
  · rfl
  · rename_i h1
    cases h4 : L.dispatch t (resourceQuery u) with
    | true => simp [h4]
    | false => simp [h1, h4] at h

theorem removeBinding_appended (L : Library) (e : YJBEngine) (u : JabberID)
    (hrefl : ∀ a, L.jidEq a a = true) (hnone : findBindingRes L e u = none)
    (hres : u.resource ≠ "") :
    removeBindingResource L { e with m_bindingResources := e.m_bindingResources ++ [u] } u
      = e := by
  have hstr := str_ne_empty_of_resource u hres
  have hall : ∀ b ∈ e.m_bindingResources, ¬ L.jidEq u b = true := by
    simpa [findBindingRes] using hnone
  have hfind : findBindingRes L
      { e with m_bindingResources := e.m_bindingResources ++ [u] } u = some u := by
    simp only [findBindingRes, List.find?_append]
    have h0 : e.m_bindingResources.find? (fun o => L.jidEq u o) = none := hnone
    rw [h0]
    simp [hrefl u]
  unfold removeBindingResource
  simp only [hstr, if_false, hfind]
  rw [List.eraseP_append_right _ hall]
  simp [hrefl u]

theorem removeBinding_bare (L : Library) (e : YJBEngine) (u : JabberID)
    (hsame : ∀ a b, L.jidEq a b = true → a.resource = b.resource)
    (hinv : ∀ j ∈ e.m_bindingResources, j.resource ≠ "") (h : u.resource = "") :
    removeBindingResource L e u = e := by
  have hfind : findBindingRes L e u = none := by
    simp only [findBindingRes, List.find?_eq_none]
    intro x hx hq
    exact hinv x hx ((hsame u x hq).symm.trans h)
  unfold removeBindingResource
  split
  · rfl
  · simp [hfind]

theorem removeBinding_reserved (L : Library) (e e1 : YJBEngine) (jid : JabberID)
    (hrefl : ∀ a, L.jidEq a a = true)
    (hsame : ∀ a b, L.jidEq a b = true → a.resource = b.resource)
    (hinv : ∀ j ∈ e.m_bindingResources, j.resource ≠ "") (h : Reserved L e jid e1) :
    removeBindingResource L e1 jid = e := by
  rcases h with ⟨h1, h2⟩ | ⟨h1, h2, h3⟩
  · rw [h2]
    exact removeBinding_bare L e jid hsame hinv h1
  · rw [h3]
    exact removeBinding_appended L e jid hrefl h2 h1

theorem bindRequested_reserved (L : Library) (e : YJBEngine) (t : Nat) (c2s : JBStream)
    (jid : JabberID) (hrefl : ∀ a, L.jidEq a a = true) :
    Reserved L e (bindRequested L e t c2s jid).1 (bindRequested L e t c2s jid).2.1 := by
  unfold bindRequested
  by_cases hr : jid.resource = ""
  · simp only [hr, ne_eq, not_true_eq_false, if_false]
    exact Or.inl ⟨hr, rfl⟩
  · simp only [hr, ne_eq, not_false_eq_true, if_true]
    cases hb : (bindingResource L e t jid).1 with
    | false =>
      simp only [Bool.false_eq_true, if_false]
      exact Or.inl ⟨rfl, bindingResource_false L e t jid hb⟩
    | true =>
      obtain ⟨h1, -, h3, -, h5⟩ := bindingResource_true L e t jid hb
      simp only [if_true]
      split
      · refine Or.inl ⟨rfl, ?_⟩
        simp only [h5]
        exact removeBinding_appended L e jid hrefl h3 h1
      · refine Or.inr ⟨h1, h3, ?_⟩
        simp only [h5]

theorem bindFallback_reserved (L : Library) (c2s : JBStream) (n : Nat) :
    ∀ (e : YJBEngine) (t : Nat) (jid : JabberID), jid.resource = "" →
      Reserved L e (bindFallback L c2s n e t jid).1 (bindFallback L c2s n e t jid).2.1 := by
  induction n with
  | zero =>
    intro e t jid h
    exact Or.inl ⟨h, rfl⟩
  | succ n ih =>
    intro e t jid _
    simp only [bindFallback]
    cases hb : (bindingResource L e t (jid.setResource (L.md5Hex c2s.id))).1 with
    | true =>
      obtain ⟨h1, -, h3, -, h5⟩ := bindingResource_true L e t _ hb
      simp only [if_true]
      refine Or.inr ⟨h1, h3, ?_⟩
      simp only [h5]
    | false =>
      have h6 := bindingResource_false L e t _ hb
      simp only [Bool.false_eq_true, if_false, h6]
      exact ih e _ _ rfl

theorem bindChoose_reserved (L : Library) (e : YJBEngine) (t : Nat) (c2s : JBStream)
    (requested : String) (hrefl : ∀ a, L.jidEq a a = true) :
    Reserved L e (bindChoose L e t c2s requested).1 (bindChoose L e t c2s requested).2.1 := by
  have h1 := bindRequested_reserved L e t c2s (c2s.remote.setResource requested) hrefl
  unfold bindChoose
  simp only
  split
  · rename_i hres
    rcases h1 with ⟨-, h2⟩ | ⟨h2, -, -⟩
    · rw [h2]
      exact bindFallback_reserved L c2s 3 e _ _ hres
    · exact absurd hres h2
  · exact h1

/-- C16: on every exit path of `processBind` the engine, and with it the list
of reservations, is what it was before the call. The equality of jabber ids
is reflexive and holds only between ids with the same resource, and every
reservation present has a resource. -/
theorem processBind_releases (L : Library) (e : YJBEngine) (t : Nat) (ev : JBEvent)
    (hrefl : ∀ a, L.jidEq a a = true)
    (hsame : ∀ a b, L.jidEq a b = true → a.resource = b.resource)
    (hinv : ∀ j ∈ e.m_bindingResources, j.resource ≠ "") :
    (processBind L e t ev).engine = e
      ∧ (processBind L e t ev).engine.m_bindingResources = e.m_bindingResources := by
  have hmain : (processBind L e t ev).engine = e := by
    unfold processBind
    simp only
    split
    · rename_i c2s child _ _
      split
      · exact removeBinding_reserved L e _ _ hrefl hsame hinv
          (bindChoose_reserved L e t c2s _ hrefl)
      · rfl
    · rfl
  exact ⟨hmain, by rw [hmain]⟩

/-- Witness of C16: `alice` binds the resource `work` while the resource
`home` of `bob` is reserved; the reservations are unchanged. -/
theorem processBind_releases_witness :
    (processBind demoLibrary demoBindEngine 0 (demoBind "work")).effects
        = [Effect.bind "c2s/42" "work" "b1"]
      ∧ (processBind demoLibrary demoBindEngine 0 (demoBind "work")).engine.m_bindingResources
          = [⟨"bob", "b.example", "home"⟩] :=
  ⟨by decide,
    (processBind_releases demoLibrary demoBindEngine 0 (demoBind "work")
      (fun a => by simp [demoLibrary])
      (fun a b h => by
        have h2 : a = b := by simpa [demoLibrary] using h
        rw [h2])
      (by decide)).2⟩

/-- C17: `bindingResource` refuses, and leaves the engine as it is, when the
resource is empty or restricted, when the jabber id is already reserved, or
when the resource query reports it in use; otherwise it appends the id to the
reservations and accepts. No two reservations are ever equal, the list keeps
no id twice, and of two attempts in a row for one id the second fails when
the first succeeded, and also when the query answers as it did before. -/
theorem bindingResource_unique (L : Library) (e : YJBEngine) (t : Nat) (u : JabberID)
    (hrefl : ∀ a, L.jidEq a a = true) :
    ((u.resource = "" ∨ restrictedResource L e u.resource = true
          ∨ (findBindingRes L e u).isSome = true
          ∨ L.dispatch t (resourceQuery u) = true) →
        (bindingResource L e t u).1 = false ∧ (bindingResource L e t u).2.1 = e)
      ∧ (¬ (u.resource = "" ∨ restrictedResource L e u.resource = true
            ∨ (findBindingRes L e u).isSome = true
            ∨ L.dispatch t (resourceQuery u) = true) →
          (bindingResource L e t u).1 = true
            ∧ (bindingResource L e t u).2.1.m_bindingResources
                = e.m_bindingResources ++ [u])
      ∧ (e.m_bindingResources.Pairwise (fun a b => L.jidEq b a = false) →
          (bindingResource L e t u).2.1.m_bindingResources.Pairwise
            (fun a b => L.jidEq b a = false))
      ∧ (e.m_bindingResources.Nodup → (bindingResource L e t u).2.1.m_bindingResources.Nodup)
      ∧ ((bindingResource L e t u).1 = true →
          (bindingResource L (bindingResource L e t u).2.1 (bindingResource L e t u).2.2 u).1
            = false)
      ∧ (L.dispatch (t + 1) (resourceQuery u) = L.dispatch t (resourceQuery u) →
          (bindingResource L (bindingResource L e t u).2.1 (bindingResource L e t u).2.2 u).1
            = false) := by
  have hsecond : (bindingResource L e t u).1 = true →
      (bindingResource L (bindingResource L e t u).2.1 (bindingResource L e t u).2.2 u).1
        = false := by
    intro h
    obtain ⟨-, -, h3, -, h5⟩ := bindingResource_true L e t u h
    rw [h5]
    have hfind : (findBindingRes L
        { e with m_bindingResources := e.m_bindingResources ++ [u] } u).isSome = true := by
      have h0 : e.m_bindingResources.find? (fun o => L.jidEq u o) = none := h3
      simp [findBindingRes, List.find?_append, h0, hrefl u]
    simp only [bindingResource, hfind, or_true, if_true]
  refine ⟨?_, ?_, ?_, ?_, hsecond, ?_⟩
  · intro h
    have h1 : (bindingResource L e t u).1 = false := by
      unfold bindingResource
      rcases h with h | h | h | h
      · simp [h]
      · simp [h]
      · simp [h]
      · split
        · rfl
        · simp [h]
    exact ⟨h1, bindingResource_false L e t u h1⟩
  · intro h
    simp only [not_or] at h
    obtain ⟨h1, h2, h3, h4⟩ := h
    unfold bindingResource
    simp [h1, h2, h3, h4]
  · intro hp
    cases hb : (bindingResource L e t u).1 with
    | false =>
      rw [bindingResource_false L e t u hb]
      exact hp
    | true =>
      obtain ⟨-, -, h3, -, h5⟩ := bindingResource_true L e t u hb
      rw [h5]
      rw [List.pairwise_append]
      refine ⟨hp, List.pairwise_singleton _ _, ?_⟩
      intro a ha b hb2
      rw [List.mem_singleton] at hb2
      subst hb2
      have hall : ∀ x ∈ e.m_bindingResources, ¬ L.jidEq b x = true := by
        simpa [findBindingRes] using h3
      simpa using hall a ha
  · intro hn
    cases hb : (bindingResource L e t u).1 with
    | false =>
      rw [bindingResource_false L e t u hb]
      exact hn
    | true =>
      obtain ⟨-, -, h3, -, h5⟩ := bindingResource_true L e t u hb
      rw [h5]
      have hall : ∀ x ∈ e.m_bindingResources, ¬ L.jidEq u x = true := by
        simpa [findBindingRes] using h3
      have hnot : u ∉ e.m_bindingResources := fun hm => hall u hm (hrefl u)
      rw [List.nodup_append]
      refine ⟨hn, List.nodup_singleton _, ?_⟩
      intro a ha hb2
      rw [List.mem_singleton] at hb2
      exact hnot (hb2 ▸ ha)
  · intro hstable
    cases hb : (bindingResource L e t u).1 with
    | true => exact hsecond hb
    | false =>
      have he := bindingResource_false L e t u hb
      rw [he]
      by_cases hloc : u.resource = "" ∨ restrictedResource L e u.resource = true
          ∨ (findBindingRes L e u).isSome = true
      · simp only [bindingResource, hloc, if_true]
      · have hq : L.dispatch t (resourceQuery u) = true := by
          cases hd : L.dispatch t (resourceQuery u) with
          | true => rfl
          | false =>
            have : (bindingResource L e t u).1 = true := by
              simp [bindingResource, hloc, hd]
            rw [this] at hb
            exact absurd hb (by decide)
        have ht : (bindingResource L e t u).2.2 = t + 1 := by
          simp [bindingResource, hloc, hq]
        rw [ht]
        simp [bindingResource, hloc, hstable, hq]

/-- Witness of C17: the resource `work` of `alice` is reserved once; the
second attempt in a row fails. -/
theorem bindingResource_unique_witness :
    (bindingResource demoLibrary demoBindEngine 0 ⟨"alice", "b.example", "work"⟩).1 = true
      ∧ (bindingResource demoLibrary
          (bindingResource demoLibrary demoBindEngine 0 ⟨"alice", "b.example", "work"⟩).2.1
          (bindingResource demoLibrary demoBindEngine 0 ⟨"alice", "b.example", "work"⟩).2.2
          ⟨"alice", "b.example", "work"⟩).1 = false :=
  ⟨by decide,
    (bindingResource_unique demoLibrary demoBindEngine 0 ⟨"alice", "b.example", "work"⟩
      (fun a => by simp [demoLibrary])).2.2.2.2.1 (by decide)⟩

theorem setResource_setResource (j : JabberID) (a b : String) :
    (j.setResource a).setResource b = j.setResource b := rfl

theorem setResource_resource (j : JabberID) (a : String) :
    (j.setResource a).resource = a := rfl

theorem bindRequested_jid (L : Library) (e : YJBEngine) (t : Nat) (c2s : JBStream)
    (jid : JabberID) (x : String) :
    (bindRequested L e t c2s jid).1.setResource x = jid.setResource x := by
  unfold bindRequested
  by_cases h1 : jid.resource = ""
  · simp [h1]
  · cases h2 : (bindingResource L e t jid).1 with
    | false => simp [h1, h2, setResource_setResource]
    | true =>
      cases h3 : (L.findClientStreams jid [jid.resource]).any
          (fun s => s.toString != c2s.toString) with
      | false => simp [h1, h2, h3]
      | true => simp [h1, h2, h3, setResource_setResource]

theorem bindRequested_kept (L : Library) (e : YJBEngine) (t : Nat) (c2s : JBStream)
    (jid : JabberID) (h : (bindRequested L e t c2s jid).1.resource ≠ "") :
    (bindRequested L e t c2s jid).1 = jid := by
  unfold bindRequested at h ⊢
  by_cases h1 : jid.resource = ""
  · simp [h1]
  · cases h2 : (bindingResource L e t jid).1 with
    | false =>
      simp only [h1, h2, ne_eq, not_false_eq_true, if_true, Bool.false_eq_true,
        if_false] at h
      exact absurd (setResource_resource jid "") h
    | true =>
      cases h3 : (L.findClientStreams jid [jid.resource]).any
          (fun s => s.toString != c2s.toString) with
      | false => simp [h1, h2, h3]
      | true =>
        simp only [h1, h2, h3, ne_eq, not_false_eq_true, if_true] at h
        exact absurd (setResource_resource jid "") h

theorem bindRequested_cleared (L : Library) (e : YJBEngine) (t : Nat) (c2s : JBStream)
    (jid : JabberID) :
    (bindRequested L e t c2s jid).1.resource = "" ↔
      (jid.resource = "" ∨ (bindingResource L e t jid).1 = false
        ∨ (L.findClientStreams jid [jid.resource]).any
            (fun s => s.toString != c2s.toString) = true) := by
  unfold bindRequested
  by_cases h1 : jid.resource = ""
  · simp [h1]
  · cases h2 : (bindingResource L e t jid).1 with
    | false => simp [h1, h2, setResource_resource]
    | true =>
      cases h3 : (L.findClientStreams jid [jid.resource]).any
          (fun s => s.toString != c2s.toString) with
      | false => simp [h1, h2, h3]
      | true => simp [h1, h2, h3, setResource_resource]

theorem bindFallback_attempts (L : Library) (c2s : JBStream) (n : Nat) :
    ∀ (e : YJBEngine) (t : Nat) (jid : JabberID), jid.resource = "" →
      (bindFallback L c2s n e t jid).2.2.2.length ≤ n
        ∧ (∀ a ∈ (bindFallback L c2s n e t jid).2.2.2,
            a = jid.setResource (L.md5Hex c2s.id))
        ∧ ((bindFallback L c2s n e t jid).1.resource = "" →
            (bindFallback L c2s n e t jid).2.2.2.length = n)
        ∧ ((bindFallback L c2s n e t jid).1.resource ≠ "" →
            (bindFallback L c2s n e t jid).1 = jid.setResource (L.md5Hex c2s.id))
        ∧ (0 < n → (bindFallback L c2s n e t jid).2.2.2 ≠ []) := by
  induction n with
  | zero =>
    intro e t jid h
    simp [bindFallback, h]
  | succ n ih =>
    intro e t jid _
    simp only [bindFallback]
    cases hb : (bindingResource L e t (jid.setResource (L.md5Hex c2s.id))).1 with
    | true =>
      obtain ⟨h1, -⟩ := bindingResource_true L e t _ hb
      simp only [if_true]
      refine ⟨by simp, by simp, ?_, ?_, by simp⟩
      · intro h
        exact absurd h h1
      · intro _
        trivial
    | false =>
      simp only [Bool.false_eq_true, if_false, setResource_setResource]
      obtain ⟨g1, g2, g3, g4, -⟩ := ih (bindingResource L e t
        (jid.setResource (L.md5Hex c2s.id))).2.1 (bindingResource L e t
        (jid.setResource (L.md5Hex c2s.id))).2.2 (jid.setResource "") rfl
      rw [setResource_setResource] at g2 g4
      refine ⟨?_, ?_, ?_, ?_, by simp⟩
      · simp only [List.length_cons]
        exact Nat.succ_le_succ g1
      · intro a ha
        rcases List.mem_cons.mp ha with h | h
        · exact h
        · exact g2 a h
      · intro h
        simp only [List.length_cons]
        rw [g3 h]
      · intro h
        exact g4 h

/-- C18: in `processBind`, the fallback loop runs exactly when the requested
resource is absent, cannot be reserved or is held by another stream of the
user; it makes at most 3 reservation attempts, each for the MD5 hex digest of
the stream id; when every attempt fails no resource is bound and one
NotAuthorized error is sent after 3 attempts; a resource is bound only when
it is the requested one or the digest, was not reserved before the call, was
reserved by it, and the registration was accepted; and a resource that was
reserved and whose registration was accepted is bound without any error. -/
theorem processBind_fallback (L : Library) (e : YJBEngine) (t : Nat) (ev : JBEvent)
    (c2s : JBStream) (child : XmlElement)
    (hc : ev.clientStream = some c2s) (hch : ev.child = some child)
    (hin : c2s.incoming = true) (hrefl : ∀ a, L.jidEq a a = true) :
    ((processBind L e t ev).attempts ≠ [] ↔
        (c2s.remote.setResource (getChildText L child "resource" "bind")).resource = ""
          ∨ (bindingResource L e t
              (c2s.remote.setResource (getChildText L child "resource" "bind"))).1 = false
          ∨ (L.findClientStreams
                (c2s.remote.setResource (getChildText L child "resource" "bind"))
                [getChildText L child "resource" "bind"]).any
              (fun s => s.toString != c2s.toString) = true)
      ∧ (processBind L e t ev).attempts.length ≤ 3
      ∧ (∀ a ∈ (processBind L e t ev).attempts,
          a = (c2s.remote.setResource (L.md5Hex c2s.id)))
      ∧ ((bindChoose L e t c2s (getChildText L child "resource" "bind")).1.resource = "" →
          (processBind L e t ev).attempts.length = 3
            ∧ (processBind L e t ev).effects
                = [Effect.sendStanzaError (some c2s.toString) ev.id XMPPError.NotAuthorized])
      ∧ (∀ x, Effect.bind c2s.toString x ev.id ∈ (processBind L e t ev).effects →
          x ≠ ""
            ∧ (x = getChildText L child "resource" "bind" ∨ x = L.md5Hex c2s.id)
            ∧ findBindingRes L e (c2s.remote.setResource x) = none
            ∧ (bindChoose L e t c2s (getChildText L child "resource" "bind")).2.1.m_bindingResources
                = e.m_bindingResources ++ [(c2s.remote.setResource x)]
            ∧ L.dispatch (bindChoose L e t c2s (getChildText L child "resource" "bind")).2.2.1
                (userRegister c2s true x) = true)
      ∧ ((bindChoose L e t c2s (getChildText L child "resource" "bind")).1.resource ≠ "" →
          L.dispatch (bindChoose L e t c2s (getChildText L child "resource" "bind")).2.2.1
              (userRegister c2s true
                (bindChoose L e t c2s (getChildText L child "resource" "bind")).1.resource)
            = true →
          (processBind L e t ev).effects
            = [Effect.bind c2s.toString
                (bindChoose L e t c2s (getChildText L child "resource" "bind")).1.resource
                ev.id])
      ∧ ((processBind L e t ev).effects
            = [Effect.sendStanzaError (some c2s.toString) ev.id XMPPError.NotAuthorized]
          ∨ ∃ x, (processBind L e t ev).effects = [Effect.bind c2s.toString x ev.id]) := by
  have hcleared := bindRequested_cleared L e t c2s
    (c2s.remote.setResource (getChildText L child "resource" "bind"))
  have hkept := bindRequested_kept L e t c2s
    (c2s.remote.setResource (getChildText L child "resource" "bind"))
  have hjid := bindRequested_jid L e t c2s
    (c2s.remote.setResource (getChildText L child "resource" "bind"))
    (L.md5Hex c2s.id)
  have hres := bindChoose_reserved L e t c2s (getChildText L child "resource" "bind") hrefl
  have hatt : (processBind L e t ev).attempts
      = (bindChoose L e t c2s (getChildText L child "resource" "bind")).2.2.2 := by
    simp [processBind, hc, hch, hin]
  have heff : (processBind L e t ev).effects
      = if ((bindChoose L e t c2s (getChildText L child "resource" "bind")).1.resource != ""
            && L.dispatch (bindChoose L e t c2s (getChildText L child "resource" "bind")).2.2.1
                (userRegister c2s true
                  (bindChoose L e t c2s (getChildText L child "resource" "bind")).1.resource))
            = true
        then [Effect.bind c2s.toString
          (bindChoose L e t c2s (getChildText L child "resource" "bind")).1.resource ev.id]
        else [Effect.sendStanzaError (some c2s.toString) ev.id XMPPError.NotAuthorized] := by
    simp [processBind, hc, hch, hin]
  -- the shape of the choice
  have hchoose : ∀ r : JabberID × YJBEngine × Nat × List JabberID,
      r = bindChoose L e t c2s (getChildText L child "resource" "bind") →
      (r.2.2.2 ≠ [] ↔ (bindRequested L e t c2s
          (c2s.remote.setResource (getChildText L child "resource" "bind"))).1.resource
            = "")
        ∧ r.2.2.2.length ≤ 3
        ∧ (∀ a ∈ r.2.2.2, a = (c2s.remote.setResource (L.md5Hex c2s.id)))
        ∧ (r.1.resource = "" → r.2.2.2.length = 3)
        ∧ (r.1.resource ≠ "" →
            r.1 = (c2s.remote.setResource (getChildText L child "resource" "bind"))
              ∨ r.1 = (c2s.remote.setResource (L.md5Hex c2s.id))) := by
    intro r hr
    subst hr
    unfold bindChoose
    simp only
    by_cases hq : (bindRequested L e t c2s
        (c2s.remote.setResource (getChildText L child "resource" "bind"))).1.resource = ""
    · obtain ⟨g1, g2, g3, g4, g5⟩ := bindFallback_attempts L c2s 3
        (bindRequested L e t c2s
          (c2s.remote.setResource (getChildText L child "resource" "bind"))).2.1
        (bindRequested L e t c2s
          (c2s.remote.setResource (getChildText L child "resource" "bind"))).2.2
        (bindRequested L e t c2s
          (c2s.remote.setResource (getChildText L child "resource" "bind"))).1 hq
      rw [hjid] at g2 g4
      simp only [hq, if_true]
      refine ⟨⟨fun _ => trivial, fun _ => g5 (by decide)⟩, g1, g2, g3, ?_⟩
      intro h
      exact Or.inr (g4 h)
    · simp only [hq, if_false]
      refine ⟨by simp, by simp, by simp, ?_, ?_⟩
      · intro h
        exact h.elim
      · intro _
        exact Or.inl (hkept hq)
  obtain ⟨c1, c2, c3, c4, c5⟩ := hchoose _ rfl
  refine ⟨?_, ?_, ?_, ?_, ?_, ?_, ?_⟩
  · rw [hatt, c1, hcleared]
    rfl
  · rw [hatt]
    exact c2
  · rw [hatt]
    exact c3
  · intro h
    rw [hatt, heff]
    refine ⟨c4 h, ?_⟩
    simp [h]
  · intro x hx
    rw [heff] at hx
    split at hx
    · rename_i hok
      simp only [List.mem_singleton, Effect.bind.injEq, true_and, and_true] at hx
      simp only [Bool.and_eq_true, bne_iff_ne, ne_eq] at hok
      obtain ⟨hne, hd⟩ := hok
      rcases hres with ⟨h1, -⟩ | ⟨-, h2, h3⟩
      · exact absurd h1 hne
      · have hform : (bindChoose L e t c2s (getChildText L child "resource" "bind")).1
            = (c2s.remote.setResource x) := by
          rcases c5 hne with h | h
          · rw [h] at hx ⊢
            rw [hx]
            rfl
          · rw [h] at hx ⊢
            rw [hx]
            rfl
        refine ⟨hx ▸ hne, ?_, ?_, ?_, ?_⟩
        · rcases c5 hne with h | h
          · left
            rw [h] at hx
            exact hx
          · right
            rw [h] at hx
            exact hx
        · rw [← hform]
          exact h2
        · rw [h3, hform]
        · rw [hx]
          exact hd
    · simp at hx
  · intro hne hd
    rw [heff]
    simp [hne, hd]
  · rw [heff]
    split
    · exact Or.inr ⟨_, rfl⟩
    · exact Or.inl rfl

/-- Witness of C18: `alice` asks for no resource and is bound to the digest
of the stream id after one fallback attempt. -/
theorem processBind_fallback_witness :
    (processBind demoLibrary demoBindEngine 0 (demoBind "")).effects
        = [Effect.bind "c2s/42" "md5:c2s/42" "b1"]
      ∧ (processBind demoLibrary demoBindEngine 0 (demoBind "")).attempts.length ≤ 3
      ∧ ∀ a ∈ (processBind demoLibrary demoBindEngine 0 (demoBind "")).attempts,
          a = demoClient.remote.setResource (demoLibrary.md5Hex demoClient.id) :=
  ⟨by decide,
    (processBind_fallback demoLibrary demoBindEngine 0 (demoBind "") demoClient
      ⟨XmlTag.Other, [("resource", "")], ""⟩ rfl rfl rfl
      (fun a => by simp [demoLibrary])).2.1,
    (processBind_fallback demoLibrary demoBindEngine 0 (demoBind "") demoClient
      ⟨XmlTag.Other, [("resource", "")], ""⟩ rfl rfl rfl
      (fun a => by simp [demoLibrary])).2.2.1⟩

/-! ### Restricted resources and authentication -/

/-- C19, as stated, fails: with the restricted entry `admin`, the name
`admin2` starts with the entry and is not restricted, and the name `adm`
starts with no entry (there is no server item) and is restricted. -/
theorem restrictedResource_reversed :
    demoLibrary.startsWith "admin2" "admin" = true
      ∧ restrictedResource demoLibrary demoBindEngine "admin2" = false
      ∧ demoLibrary.startsWith "adm" "admin" = false
      ∧ demoBindEngine.m_items = []
      ∧ restrictedResource demoLibrary demoBindEngine "adm" = true := by
  decide

/-- C19, amended: a name is restricted exactly when a restricted entry, or
the non-empty resource of a server item, starts with the name. -/
theorem restrictedResource_iff (L : Library) (e : YJBEngine) (name : String) :
    restrictedResource L e name = true ↔
      (∃ s ∈ e.m_restrictedResources, L.startsWith s name = true)
        ∨ (∃ jid ∈ e.m_items, jid.resource ≠ "" ∧ L.startsWith jid.resource name = true) := by
  unfold restrictedResource
  constructor
  · intro h
    by_cases h1 : e.m_restrictedResources.any (fun s => L.startsWith s name) = true
    · left
      simpa using h1
    · by_cases h2 : e.m_items.any
          (fun jid => jid.resource != "" && L.startsWith jid.resource name) = true
      · right
        simpa using h2
      · simp [h1, h2] at h
  · intro h
    rcases h with ⟨s, hs, hp⟩ | ⟨jid, hj, hne, hp⟩
    · have h1 : e.m_restrictedResources.any (fun s => L.startsWith s name) = true := by
        simp only [List.any_eq_true]
        exact ⟨s, hs, hp⟩
      simp [h1]
    · have h2 : e.m_items.any
          (fun jid => jid.resource != "" && L.startsWith jid.resource name) = true := by
        simp only [List.any_eq_true]
        exact ⟨jid, hj, by simp [hne, hp]⟩
      simp [h2]

/-- Witness of the amended C19: the restricted entry `admin` starts with
`adm`, so `adm` is restricted. -/
theorem restrictedResource_iff_witness :
    restrictedResource demoLibrary demoBindEngine "adm" = true :=
  (restrictedResource_iff demoLibrary demoBindEngine "adm").mpr
    (Or.inl ⟨"admin", by decide, by decide⟩)

theorem check_iff (L : Library) (m : UserAuthMessage) (accepted : Bool) (stream : JBStream) :
    (m.check L accepted stream).1 = true ↔
      (¬ m.denied accepted ∧ (L.jabberID (m.getValue "username")).str ≠ ""
        ∧ CredentialMatches L m stream) := by
  have hden : m.denied accepted ↔
      ((accepted = true ∧ m.retValue = "-") ∨ ¬ (accepted = true ∨ m.retValue ≠ "")) := by
    unfold UserAuthMessage.denied
    cases accepted <;> simp
  unfold UserAuthMessage.check
  simp only
  by_cases h1 : accepted = true ∧ m.retValue = "-"
  · rw [if_pos h1]
    constructor
    · intro h
      exact absurd h (by decide)
    · intro h
      exact absurd (hden.mpr (Or.inl h1)) h.1
  · by_cases h2 : ¬ (accepted = true ∨ m.retValue ≠ "")
    · rw [if_neg h1, if_pos h2]
      constructor
      · intro h
        exact absurd h (by decide)
      · intro h
        exact absurd (hden.mpr (Or.inr h2)) h.1
    · have hnd : ¬ m.denied accepted := by
        rw [hden]
        intro h
        rcases h with h | h
        · exact h1 h
        · exact h2 h
      rw [if_neg h1, if_neg h2]
      by_cases h3 : (L.jabberID (m.getValue "username")).str = ""
      · rw [if_pos h3]
        constructor
        · intro h
          exact absurd h (by decide)
        · intro h
          exact absurd h3 h.2.1
      · rw [if_neg h3]
        by_cases h4 : m.m_streamType = StreamType.c2s
        · rw [if_pos h4]
          cases hsasl : stream.m_sasl with
          | some sasl =>
            cases hrsp : m.getParam "response" with
            | none =>
              simp only
              constructor
              · intro h
                exact absurd h (by decide)
              · rintro ⟨-, -, hm⟩
                cases hm with
                | saslPlain s2 r _ a b c d => rw [hrsp] at c; cases c
                | saslMD5 s2 r _ a b c d => rw [hrsp] at c; cases c
                | legacyDigest d _ a b c => rw [hsasl] at a; cases a
                | legacyPassword p _ a b c d => rw [hsasl] at a; cases a
                | component a b c => exact absurd h4 a
            | some rsp =>
              simp only
              cases hplain : sasl.m_plain with
              | true =>
                simp only [if_true, beq_iff_eq]
                constructor
                · intro h
                  exact ⟨hnd, h3, CredentialMatches.saslPlain sasl rsp h4 hsasl hplain hrsp h⟩
                · rintro ⟨-, -, hm⟩
                  cases hm with
                  | saslPlain s2 r _ a b c d =>
                    rw [hrsp] at c
                    cases c
                    exact d
                  | saslMD5 s2 r _ a b c d =>
                    rw [hsasl] at a
                    cases a
                    rw [hplain] at b
                    cases b
                  | legacyDigest d _ a b c => rw [hsasl] at a; cases a
                  | legacyPassword p _ a b c d => rw [hsasl] at a; cases a
                  | component a b c => exact absurd h4 a
              | false =>
                simp only [Bool.false_eq_true, if_false]
                constructor
                · intro h
                  have hq : rsp = L.buildMD5Digest sasl m.retValue true := by
                    by_contra hne
                    simp [hne] at h
                  exact ⟨hnd, h3, CredentialMatches.saslMD5 sasl rsp h4 hsasl hplain hrsp hq⟩
                · rintro ⟨-, -, hm⟩
                  cases hm with
                  | saslPlain s2 r _ a b c d =>
                    rw [hsasl] at a
                    cases a
                    rw [hplain] at b
                    cases b
                  | saslMD5 s2 r _ a b c d =>
                    rw [hsasl] at a
                    cases a
                    rw [hrsp] at c
                    cases c
                    simp [← d]
                  | legacyDigest d _ a b c => rw [hsasl] at a; cases a
                  | legacyPassword p _ a b c d => rw [hsasl] at a; cases a
                  | component a b c => exact absurd h4 a
          | none =>
            cases hdig : m.getParam "digest" with
            | some auth =>
              simp only [beq_iff_eq]
              constructor
              · intro h
                exact ⟨hnd, h3, CredentialMatches.legacyDigest auth h4 hsasl hdig h.symm⟩
              · rintro ⟨-, -, hm⟩
                cases hm with
                | saslPlain s2 r _ a b c d => rw [hsasl] at a; cases a
                | saslMD5 s2 r _ a b c d => rw [hsasl] at a; cases a
                | legacyDigest d _ a b c =>
                  rw [hdig] at b
                  cases b
                  exact c.symm
                | legacyPassword p _ a b c d => rw [hdig] at b; cases b
                | component a b c => exact absurd h4 a
            | none =>
              cases hpwd : m.getParam "password" with
              | some auth =>
                simp only [beq_iff_eq]
                constructor
                · intro h
                  exact ⟨hnd, h3,
                    CredentialMatches.legacyPassword auth h4 hsasl hdig hpwd h⟩
                · rintro ⟨-, -, hm⟩
                  cases hm with
                  | saslPlain s2 r _ a b c d => rw [hsasl] at a; cases a
                  | saslMD5 s2 r _ a b c d => rw [hsasl] at a; cases a
                  | legacyDigest d _ a b c => rw [hdig] at b; cases b
                  | legacyPassword p _ a b c d =>
                    rw [hpwd] at c
                    cases c
                    exact d
                  | component a b c => exact absurd h4 a
              | none =>
                simp only
                constructor
                · intro h
                  exact absurd h (by decide)
                · rintro ⟨-, -, hm⟩
                  cases hm with
                  | saslPlain s2 r _ a b c d => rw [hsasl] at a; cases a
                  | saslMD5 s2 r _ a b c d => rw [hsasl] at a; cases a
                  | legacyDigest d _ a b c => rw [hdig] at b; cases b
                  | legacyPassword p _ a b c d => rw [hpwd] at c; cases c
                  | component a b c => exact absurd h4 a
        · rw [if_neg h4]
          by_cases h5 : stream.type = StreamType.comp
          · rw [if_pos h5]
            simp only [beq_iff_eq]
            constructor
            · intro h
              exact ⟨hnd, h3, CredentialMatches.component h4 h5 h.symm⟩
            · rintro ⟨-, -, hm⟩
              cases hm with
              | saslPlain s2 r a b c d _ => exact absurd a h4
              | saslMD5 s2 r a b c d _ => exact absurd a h4
              | legacyDigest d a b c _ => exact absurd a h4
              | legacyPassword p a b c d _ => exact absurd a h4
              | component a b c => exact c.symm
          · rw [if_neg h5]
            constructor
            · intro h
              exact absurd h (by decide)
            · rintro ⟨-, -, hm⟩
              cases hm with
              | saslPlain s2 r a b c d _ => exact absurd a h4
              | saslMD5 s2 r a b c d _ => exact absurd a h4
              | legacyDigest d a b c _ => exact absurd a h4
              | legacyPassword p a b c d _ => exact absurd a h4
              | component a b c => exact absurd b h5

/-- C20: when the stream of the message still exists, `dispatched` makes
exactly one `authenticated` call on it, with NotAuthorized as the error of a
failure; the call reports success exactly when the answer is not a denial,
the username is not empty and the presented credential matches the returned
value. -/
theorem dispatched_authenticated (L : Library) (m : UserAuthMessage) (accepted : Bool)
    (stream : JBStream) (hs : L.findStream m.m_stream m.m_streamType = some stream) :
    ∃ (ok : Bool) (rspValue : String),
      m.dispatched L accepted
          = [Effect.authenticated stream.toString ok rspValue XMPPError.NotAuthorized
              (L.jabberID (m.getValue "username")).node (m.getValue "requestid")
              (m.getValue "instance")]
        ∧ (ok = true ↔
            (¬ m.denied accepted ∧ (L.jabberID (m.getValue "username")).str ≠ ""
              ∧ CredentialMatches L m stream)) := by
  refine ⟨(m.check L accepted stream).1, (m.check L accepted stream).2, ?_,
    check_iff L m accepted stream⟩
  unfold UserAuthMessage.dispatched
  rw [hs]

/-- Witness of C20: the password `secret` presented by `alice` on `c2s/42`
is the returned value, and the stream is told it is authenticated; the
password `guess` fails. -/
theorem dispatched_authenticated_witness :
    demoAuthLibrary.findStream (demoAuth "secret").m_stream (demoAuth "secret").m_streamType
        = some demoClient
      ∧ (demoAuth "secret").dispatched demoAuthLibrary true
          = [Effect.authenticated "c2s/42" true "" XMPPError.NotAuthorized "alice" "a1" "work"]
      ∧ (demoAuth "guess").dispatched demoAuthLibrary true
          = [Effect.authenticated "c2s/42" false "" XMPPError.NotAuthorized "alice" "a1" "work"]
      ∧ ∃ (ok : Bool) (rspValue : String),
          (demoAuth "secret").dispatched demoAuthLibrary true
            = [Effect.authenticated demoClient.toString ok rspValue XMPPError.NotAuthorized
                (demoAuthLibrary.jabberID ((demoAuth "secret").getValue "username")).node
                ((demoAuth "secret").getValue "requestid")
                ((demoAuth "secret").getValue "instance")]
          ∧ (ok = true ↔
              (¬ (demoAuth "secret").denied true
                ∧ (demoAuthLibrary.jabberID
                    ((demoAuth "secret").getValue "username")).str ≠ ""
                ∧ CredentialMatches demoAuthLibrary (demoAuth "secret") demoClient)) :=
  ⟨by decide, by decide, by decide,
    dispatched_authenticated demoAuthLibrary (demoAuth "secret") true demoClient
      (by decide)⟩

/-! ### Radio read buffers -/

/-- C26, the code at the failing input: a buffer that holds 3 valid samples
at offset 8 is reported valid for a required minimum of 5 samples, by
`validSamples` and by `RadioReadBufs::valid` with the threshold 5, while a
buffer that holds 10 valid samples at offset 10 is reported not valid for the
same minimum. -/
theorem validSamples_reversed :
    RadioBufDesc.validSamples ⟨8, 3⟩ 5 = true
      ∧ RadioReadBufs.valid (RadioReadBufs.init 16 5) ⟨8, 3⟩ = true
      ∧ RadioBufDesc.validSamples ⟨10, 10⟩ 5 = false := by
  decide

/-! ### Iq stanzas -/

/-- C22, the code at the failing input: for an iq of type `result` with a
`jabber:iq:register` child addressed to another user, `processIq` sends a
ServiceUnavailable iq error back on the stream of the sender, and dispatches
nothing. -/
theorem processIq_result_answered :
    processIq demoAuthLibrary demoEnv demoEngine false 0
        (JBPendingJob.init demoAuthLibrary demoEngine demoRegisterResult demoClient)
      = ([Effect.sendStanza "c2s/42" "bob@b.example" ""
          (Stanza.iqError "r9" XMPPError.ServiceUnavailable) true], 0) := by
  decide

/-- C27, the code on a stream that is not a client stream: `processIqRoster`
returns no response and makes no call whatever the type of the iq, a `get` and
a `set` included, on a server stream and on a component stream; and for a
roster `get` coming from another server `processIq` sends nothing back. -/
theorem processIqRoster_server_silent (E : Env) (n : Nat) (ev : JBEvent) (t : IqType) :
    processIqRoster E n ev StreamType.s2s t = (none, [], n)
      ∧ processIqRoster E n ev StreamType.comp t = (none, [], n)
      ∧ processIq demoLibrary demoEnv demoEngine false 0
          (JBPendingJob.init demoLibrary demoEngine demoRosterGet demoIncoming) = ([], 0) := by
  refine ⟨?_, ?_, by decide⟩ <;> (unfold processIqRoster; cases t <;> simp)

/-! ### Presence stanzas -/

/-- C30, the code at the failing input: a `subscribe` presence received on
an outgoing client stream is answered with a ServiceUnavailable error and is
then processed all the same, a `resource.subscribe` message being enqueued. -/
theorem processPresenceStanza_outgoing_continues :
    processPresenceStanza demoEnv demoEngine 0 demoSubscribeOut
      = (some demoClientOut,
          [Effect.sendStanzaError (some "c2s/out") "p1" XMPPError.ServiceUnavailable,
           Effect.enqueue (presenceSubscribe demoEngine demoSubscribeOut true)], 0) := by
  decide

/-! ### Module start -/

/-- C29, the code at the first initialization: whatever the `general`
section holds, a `dialback_secret` included, the engine of a module that was
just constructed has an empty dialback secret after `JBModule::initialize`,
and still has after a second call. -/
theorem initialize_first_secret (L : Library) (E : Env) (general again : List (String × String))
    (now runId random : String) :
    (( JBModule.initialize L E JBModule.ctor general now runId random).s_jabber.map
        YJBEngine.m_dialbackSecret) = some ""
      ∧ (( JBModule.initialize L E
            ( JBModule.initialize L E JBModule.ctor general now runId random)
            again now runId random).s_jabber.map YJBEngine.m_dialbackSecret) = some "" := by
  constructor
  · simp only [ JBModule.initialize, JBModule.ctor, YJBEngine.initialize, YJBEngine.ctor,
      Bool.not_false, Bool.not_true, if_true, Option.map_some', Bool.false_eq_true, if_false]
  · simp only [ JBModule.initialize, JBModule.ctor, YJBEngine.initialize, YJBEngine.ctor,
      Bool.not_false, Bool.not_true, if_true, Option.map_some', Bool.false_eq_true, if_false]
    split <;> rfl

/-! ### Authentication requests -/

/-- C25, the code at the failing input: for a legacy digest request on a
client stream `processAuthIn` locks the stream, takes the lock of the engine in
`bindingResource` and releases it, and only then unlocks the stream; the lock
of the engine is taken while the lock of the stream is held. -/
theorem processAuthIn_locks_engine_under_stream :
    (processAuthIn demoLibrary demoEnv demoEngine 0 (demoLegacyAuth "work" "" "d1")
        demoClient).effects.take 4
      = [Effect.lock "c2s/42", Effect.lockEngine, Effect.unlockEngine, Effect.unlock "c2s/42"]
      ∧ lockOrder (processAuthIn demoLibrary demoEnv demoEngine 0
          (demoLegacyAuth "work" "" "d1") demoClient).effects = false := by
  decide

theorem authLegacy_refused (L : Library) (E : Env) (e : YJBEngine) (t : Nat) (s : JBStream)
    (q : XmlElement) (m : UserAuthMessage)
    (htag : E.getTag q = some ("query", XMPPNamespace.IqAuth))
    (hpwd : getChildText L q "password" "jabber:iq:auth" ≠ "") :
    (authLegacy L E e t s q false m).error
        = (if getChildText L q "resource" "jabber:iq:auth" = "" then XMPPError.NotAcceptable
           else XMPPError.EncryptionRequired)
      ∧ (authLegacy L E e t s q false m).engine = e
      ∧ (authLegacy L E e t s q false m).t = t
      ∧ (authLegacy L E e t s q false m).effects = []
      ∧ (authLegacy L E e t s q false m).m.m_bindingUser = m.m_bindingUser := by
  unfold authLegacy
  simp only [htag, ne_eq, not_true_eq_false, or_self, if_false]
  by_cases hres : getChildText L q "resource" "jabber:iq:auth" = ""
  · simp [hres]
  · simp only [hres, if_false, hpwd, not_false_eq_true, and_self, if_true, true_and]
    split <;> simp [UserAuthMessage.addParam]

theorem processAuthIn_failed (L : Library) (E : Env) (e : YJBEngine) (t : Nat)
    (ev : JBEvent) (s : JBStream) (err : XMPPError) (herr : err ≠ XMPPError.NoError)
    (h1 : (authRequest L E e t ev s).error = err)
    (h2 : (authRequest L E e t ev s).engine = e)
    (h3 : (authRequest L E e t ev s).t = t)
    (h4 : (authRequest L E e t ev s).effects = [])
    (h5 : (authRequest L E e t ev s).m.m_bindingUser = none) :
    (processAuthIn L E e t ev s).enqueued = none
      ∧ (processAuthIn L E e t ev s).engine = e
      ∧ (processAuthIn L E e t ev s).t = t
      ∧ (processAuthIn L E e t ev s).effects
          = [Effect.lock s.toString, Effect.unlock s.toString,
             Effect.authenticated s.toString false "" err "" ev.id ""] := by
  unfold processAuthIn
  simp only [h1, herr, if_false, h2, h3, h4, UserAuthMessage.destruct, h5, List.append_nil,
    List.singleton_append, List.cons_append, List.nil_append, and_self]

/-- C28: the counterexample. A legacy request that carries a password but
names no resource, on a client stream without TLS where unsecured plain
authentication is not allowed, fails with NotAcceptable and not with
EncryptionRequired. -/
theorem processAuthIn_password_no_resource :
    (processAuthIn demoLibrary demoEnv demoEngine 0 (demoLegacyAuth "" "secret" "")
        demoClient).effects
      = [Effect.lock "c2s/42", Effect.unlock "c2s/42",
         Effect.authenticated "c2s/42" false "" XMPPError.NotAcceptable "" "a1" ""] := by
  decide

/-- C28, amended: on a client stream where TLS is not active and unsecured
plain authentication is not allowed, a SASL PLAIN request and a legacy
`jabber:iq:auth` query that carries a password are both refused inside the
locked section: no `user.auth` message is enqueued, the engine is left as it
was (no reservation made, none left behind), nothing is dispatched, and the
only call after the unlock is the failed authentication, with
EncryptionRequired, or with NotAcceptable when the legacy query names no
resource. -/
theorem processAuthIn_plain_refused (L : Library) (E : Env) (e : YJBEngine) (t : Nat)
    (ev : JBEvent) (s : JBStream) (hc : s.type = StreamType.c2s)
    (htls : s.streamTls = false) (hallow : e.m_allowUnsecurePlainAuth = false) :
    (∀ sasl : XMPPSasl, s.m_sasl = some sasl → sasl.m_plain = true →
        (processAuthIn L E e t ev s).enqueued = none
          ∧ (processAuthIn L E e t ev s).engine = e
          ∧ (processAuthIn L E e t ev s).t = t
          ∧ (processAuthIn L E e t ev s).effects
              = [Effect.lock s.toString, Effect.unlock s.toString,
                 Effect.authenticated s.toString false "" XMPPError.EncryptionRequired ""
                   ev.id ""])
      ∧ (∀ q : XmlElement, s.m_sasl = none → ev.child = some q →
          E.getTag q = some ("query", XMPPNamespace.IqAuth) →
          getChildText L q "password" "jabber:iq:auth" ≠ "" →
          (processAuthIn L E e t ev s).enqueued = none
            ∧ (processAuthIn L E e t ev s).engine = e
            ∧ (processAuthIn L E e t ev s).t = t
            ∧ (processAuthIn L E e t ev s).effects
                = [Effect.lock s.toString, Effect.unlock s.toString,
                   Effect.authenticated s.toString false ""
                     (if getChildText L q "resource" "jabber:iq:auth" = "" then
                        XMPPError.NotAcceptable
                      else XMPPError.EncryptionRequired) "" ev.id ""]) := by
  constructor
  · intro sasl hs hp
    have hr : authRequest L E e t ev s
        = ⟨XMPPError.EncryptionRequired, UserAuthMessage.init E ev s, e, t, []⟩ := by
      simp [authRequest, hc, htls, hallow, hs, hp]
    exact processAuthIn_failed L E e t ev s _ (by decide) (by rw [hr]) (by rw [hr])
      (by rw [hr]) (by rw [hr]) (by rw [hr]; rfl)
  · intro q hs hq htag hpwd
    have hr : authRequest L E e t ev s
        = authLegacy L E e t s q false (UserAuthMessage.init E ev s) := by
      simp [authRequest, hc, htls, hallow, hs, hq]
    have h := authLegacy_refused L E e t s q (UserAuthMessage.init E ev s) htag hpwd
    refine processAuthIn_failed L E e t ev s _ ?_ (by rw [hr]; exact h.1) (by rw [hr]; exact h.2.1)
      (by rw [hr]; exact h.2.2.1) (by rw [hr]; exact h.2.2.2.1) (by rw [hr]; exact h.2.2.2.2)
    split <;> decide

/-- Witness of C28: a legacy request for the resource `work` that carries a
password, on `demoClient`, is refused with EncryptionRequired and leaves no
reservation. -/
theorem processAuthIn_plain_refused_witness :
    demoClient.type = StreamType.c2s ∧ demoClient.streamTls = false
      ∧ demoEngine.m_allowUnsecurePlainAuth = false
      ∧ (processAuthIn demoLibrary demoEnv demoEngine 0 (demoLegacyAuth "work" "secret" "")
          demoClient).engine = demoEngine
      ∧ (processAuthIn demoLibrary demoEnv demoEngine 0 (demoLegacyAuth "work" "secret" "")
          demoClient).effects
          = [Effect.lock "c2s/42", Effect.unlock "c2s/42",
             Effect.authenticated "c2s/42" false "" XMPPError.EncryptionRequired "" "a1" ""] :=
  ⟨rfl, rfl, rfl,
    ((processAuthIn_plain_refused demoLibrary demoEnv demoEngine 0
      (demoLegacyAuth "work" "secret" "") demoClient rfl rfl rfl).2 _ rfl rfl (by decide)
      (by decide)).2.1,
    ((processAuthIn_plain_refused demoLibrary demoEnv demoEngine 0
      (demoLegacyAuth "work" "secret" "") demoClient rfl rfl rfl).2 _ rfl rfl (by decide)
      (by decide)).2.2.2.trans (by decide)⟩

/-! ### Stream features -/

/-- C24: on a client stream whose remote party asked for version 1,
`processStartIn` sets the TLS required flag of the stream from the
`c2s_tlsrequired` setting and starts the stream with a list of features. When
the stream is not secured and has the TLS required flag, as the handler has
just set it, that list is StartTLS marked required and nothing else.
Otherwise SASL is in the list iff the stream is not authenticated, a SASL
feature offers PLAIN iff TLS is active or unsecured plain authentication is
allowed, and resource bind is in the list iff SASL is not. -/
theorem processStartIn_features (L : Library) (e : YJBEngine) (s_s2sFeatures : Bool)
    (ev : JBEvent) (s : JBStream) (hc : s.type = StreamType.c2s)
    (hv : s.streamRemoteVer1 = true) :
    (processStartIn L e s_s2sFeatures ev s).2.1 = s.setTlsRequired e.m_c2sTlsRequired
      ∧ ∃ (features : List XMPPFeature) (caps : Bool),
          (processStartIn L e s_s2sFeatures ev s).2.2
              = [Effect.setTlsRequired s.toString e.m_c2sTlsRequired,
                 Effect.startFeatures s.toString features caps]
            ∧ ((s.setTlsRequired e.m_c2sTlsRequired).streamSecured = false
                  ∧ (s.setTlsRequired e.m_c2sTlsRequired).tlsRequired = true →
                features = [⟨XMPPNamespace.Tls, true, false, false⟩])
            ∧ (¬ ((s.setTlsRequired e.m_c2sTlsRequired).streamSecured = false
                  ∧ (s.setTlsRequired e.m_c2sTlsRequired).tlsRequired = true) →
                ((∃ f ∈ features, f.ns = XMPPNamespace.Sasl)
                    ↔ (s.setTlsRequired e.m_c2sTlsRequired).streamAuthenticated = false)
                  ∧ (∀ f ∈ features, f.ns = XMPPNamespace.Sasl →
                      (f.plain = true
                        ↔ ((s.setTlsRequired e.m_c2sTlsRequired).streamTls = true
                            ∨ e.m_allowUnsecurePlainAuth = true)))
                  ∧ ((∃ f ∈ features, f.ns = XMPPNamespace.Bind)
                      ↔ ¬ ∃ f ∈ features, f.ns = XMPPNamespace.Sasl)) := by
  refine ⟨?_, (startFeatures e (s.setTlsRequired e.m_c2sTlsRequired) s_s2sFeatures).1,
    (startFeatures e (s.setTlsRequired e.m_c2sTlsRequired) s_s2sFeatures).2, ?_, ?_, ?_⟩
  · simp [processStartIn, hc, hv, JBStream.setTlsRequired]
  · simp [processStartIn, hc, hv, JBStream.setTlsRequired]
  · rintro ⟨hsec, hreq⟩
    simp only [JBStream.setTlsRequired] at hsec hreq
    simp [startFeatures, featureGet, JBStream.setTlsRequired, hc, hsec, hreq]
  · intro hnot
    simp only [JBStream.setTlsRequired] at hnot
    simp only [JBStream.setTlsRequired]
    by_cases hreg : XMPPNamespace.Register ∈ e.m_c2sFeatures
      <;> cases hsec : s.streamSecured <;> cases hreq : e.m_c2sTlsRequired
      <;> cases hauth : s.streamAuthenticated
      <;> simp [hsec, hreq] at hnot
      <;> simp [startFeatures, featureGet, hc, hsec, hreq, hauth, hreg]

/-- Witness of C24: with `c2s_tlsrequired` set, the first start of the client
stream `c2s/42`, which is not secured, offers StartTLS marked required and
nothing else. -/
theorem processStartIn_features_witness :
    demoClientV1.type = StreamType.c2s ∧ demoClientV1.streamRemoteVer1 = true
      ∧ ∃ (features : List XMPPFeature) (caps : Bool),
          (processStartIn demoLibrary (demoTlsEngine true) true demoStart demoClientV1).2.2
              = [Effect.setTlsRequired "c2s/42" true,
                 Effect.startFeatures "c2s/42" features caps]
            ∧ features = [⟨XMPPNamespace.Tls, true, false, false⟩] :=
  ⟨rfl, rfl,
    (processStartIn_features demoLibrary (demoTlsEngine true) true demoStart demoClientV1
      rfl rfl).2.imp (fun _ h => h.imp (fun _ h2 => ⟨h2.1, h2.2.1 ⟨rfl, rfl⟩⟩))⟩

/-! ### Message stanzas -/

theorem addValidParam_name (m : Message) (param value : String) :
    (addValidParam m param value).name = m.name := by
  unfold addValidParam
  split <;> rfl

theorem chatRouteMessage_name (ev : JBEvent) : (chatRouteMessage ev).name = "msg.route" := by
  simp [chatRouteMessage, addValidParam_name, Message.addParam, pluginMessage]

theorem chatExecute_effects (E : Env) (n : Nat) (ev : JBEvent) (m : Message)
    (done : List Effect) :
    ∃ g : Message, g.name = "msg.execute"
      ∧ (chatExecute E n ev m done).effects = done ++ [Effect.dispatch g] := by
  unfold chatExecute
  cases ev.element with
  | none => exact ⟨_, rfl, rfl⟩
  | some xml => exact ⟨_, by simp [addValidParam_name, Message.addParam], rfl⟩

theorem chatExecute_error (E : Env) (n : Nat) (ev : JBEvent) (m : Message)
    (done : List Effect) :
    (chatExecute E n ev m done).error ≠ XMPPError.ItemNotFound := by
  unfold chatExecute
  simp only
  split <;> decide

theorem refusedError_notFound (a : Answer) (h : a.refusedError = XMPPError.ItemNotFound) :
    (NamedList.getParam a.params "instance.count").isSome = true := by
  unfold Answer.refusedError at h
  split at h
  · assumption
  · exact absurd h (by decide)

theorem routeCalls_execute (E : Env) (n : Nat) (ev : JBEvent) (m : Message)
    (done : List Effect) (h : RouteCalls done) :
    RouteCalls (chatExecute E n ev m done).effects := by
  obtain ⟨g, hg, heq⟩ := chatExecute_effects E n ev m done
  rw [heq]
  intro eff hmem
  rcases List.mem_append.1 hmem with h1 | h1
  · exact h eff h1
  · simp only [List.mem_singleton] at h1
    exact ⟨g, h1, Or.inr hg⟩

theorem routeCalls_nil : RouteCalls [] := by
  intro eff h
  cases h

theorem routeCalls_one (g : Message) (hg : g.name = "msg.route") :
    RouteCalls [Effect.dispatch g] := by
  intro eff h
  simp only [List.mem_singleton] at h
  exact ⟨g, h, Or.inl hg⟩

theorem routeCalls_two (g g2 : Message) (hg : g.name = "msg.route")
    (hg2 : g2.name = "msg.route") :
    RouteCalls [Effect.dispatch g, Effect.dispatch g2] := by
  intro eff h
  simp only [List.mem_cons, List.mem_singleton, List.not_mem_nil, or_false] at h
  rcases h with h | h
  · exact ⟨g, h, Or.inl hg⟩
  · exact ⟨g2, h, Or.inl hg2⟩

theorem chatRoute_calls (E : Env) (n : Nat) (ev : JBEvent) (localTarget : Bool)
    (mType : MsgType) : RouteCalls (chatRoute E n ev localTarget mType).effects := by
  have hn := chatRouteMessage_name ev
  unfold chatRoute
  simp only
  split_ifs
  · exact routeCalls_one _ hn
  · exact routeCalls_execute _ _ _ _ _ (routeCalls_one _ hn)
  · exact routeCalls_one _ hn
  · exact routeCalls_one _ hn
  · exact routeCalls_two _ _ hn hn
  · exact routeCalls_execute _ _ _ _ _ (routeCalls_two _ _ hn hn)
  · exact routeCalls_execute _ _ _ _ _ (routeCalls_one _ hn)
  · exact routeCalls_execute _ _ _ _ _ routeCalls_nil

theorem chatRoute_notFound (E : Env) (n : Nat) (ev : JBEvent) (localTarget : Bool)
    (mType : MsgType)
    (h : (chatRoute E n ev localTarget mType).error = XMPPError.ItemNotFound) :
    localTarget = true ∧ (chatRoute E n ev localTarget mType).xml = ev.element
      ∧ ∃ (k : Nat) (g : Message), n ≤ k ∧ k < (chatRoute E n ev localTarget mType).n
          ∧ Effect.dispatch g ∈ (chatRoute E n ev localTarget mType).effects
          ∧ g.name = "msg.route" ∧ (E.handle k g).refused = true
          ∧ (NamedList.getParam (E.handle k g).params "instance.count").isSome = true := by
  have hn := chatRouteMessage_name ev
  revert h
  unfold chatRoute
  simp only
  split_ifs with h1 h2 h3 h4 h5 h6 h7 <;> intro h
  · exact ⟨h1, rfl, n, _, le_refl n, Nat.lt_succ_self n, List.mem_singleton.2 rfl, hn, h2,
      refusedError_notFound _ h⟩
  · exact absurd h (chatExecute_error _ _ _ _ _)
  · exact absurd h (by decide)
  · exact absurd h (by decide)
  · exact ⟨h1, rfl, n + 1, _, Nat.le_succ n, Nat.lt_succ_self (n + 1),
      List.mem_cons_of_mem _ (List.mem_singleton.2 rfl), hn, h7, refusedError_notFound _ h⟩
  · exact absurd h (chatExecute_error _ _ _ _ _)
  · exact absurd h (chatExecute_error _ _ _ _ _)
  · exact absurd h (chatExecute_error _ _ _ _ _)

theorem routeCalls_dispatch (effs : List Effect) (h : RouteCalls effs) :
    ∀ eff ∈ effs, eff.isDispatch = true ∧ eff.isFeatureRequest = false := by
  intro eff hmem
  obtain ⟨g, hg, hname⟩ := h eff hmem
  subst hg
  rcases hname with hname | hname <;> simp [Effect.isDispatch, Effect.isFeatureRequest, hname]

theorem chatOffline_calls (E : Env) (job : JBPendingJob) (mType : MsgType) (r : ChatRoute) :
    ∀ eff ∈ (chatOffline E job mType r).2.1, eff.isDispatch = true := by
  unfold chatOffline
  simp only
  split
  · split_ifs <;> simp [Effect.isDispatch]
  · simp

theorem dispatch_no_send (effs : List Effect) (h : ∀ eff ∈ effs, eff.isDispatch = true) :
    effs.filter Effect.isSendStanza = [] := by
  rw [List.filter_eq_nil_iff]
  intro eff hmem
  have hd := h eff hmem
  cases eff <;> simp_all [Effect.isDispatch, Effect.isSendStanza]

/-- C21: for a message job whose type is `error`, every call `processChat`
makes hands a message to the message handlers; no stanza is sent, to the
sender or to anyone, whatever the target and whatever the handlers answer. -/
theorem processChat_error_silent (L : Library) (E : Env) (e : YJBEngine) (n : Nat)
    (job : JBPendingJob) (h : E.msgType job.m_event.stanzaType = MsgType.MsgError) :
    (∀ eff ∈ (processChat L E e n job).1, eff.isDispatch = true)
      ∧ (processChat L E e n job).1.filter Effect.isSendStanza = [] := by
  have hroute := routeCalls_dispatch _
    (chatRoute_calls E n job.m_event (chatLocalTarget e job.m_event) MsgType.MsgError)
  have hoff := chatOffline_calls E job MsgType.MsgError
    (chatRoute E n job.m_event (chatLocalTarget e job.m_event) MsgType.MsgError)
  have hall : ∀ eff ∈ (processChat L E e n job).1, eff.isDispatch = true := by
    unfold processChat chatRouteOf
    simp only [h, ne_eq, not_true_eq_false, if_false, List.append_nil]
    split_ifs <;> intro eff hmem
    · cases hmem
    · cases hmem
    · cases hmem
    · exact (hroute eff hmem).1
    · rcases List.mem_append.1 hmem with h1 | h1
      · exact (hroute eff h1).1
      · exact hoff eff h1
    · rcases List.mem_append.1 hmem with h1 | h1
      · exact (hroute eff h1).1
      · exact hoff eff h1
    · exact (hroute eff hmem).1
  exact ⟨hall, dispatch_no_send _ hall⟩

/-- Witness of C21: an error message for `alice@b.example/work` whose route
is refused brings no stanza back. -/
theorem processChat_error_silent_witness :
    demoEnv.msgType (demoChatJob "error" "work").m_event.stanzaType = MsgType.MsgError
      ∧ (processChat demoLibrary (demoRouter false) demoEngine 0
          (demoChatJob "error" "work")).1.filter Effect.isSendStanza = [] :=
  ⟨by decide,
    (processChat_error_silent demoLibrary (demoRouter false) demoEngine 0
      (demoChatJob "error" "work") (by decide)).2⟩

theorem str_eq_empty_domain (j : JabberID) (h : j.str = "") : j.domain = "" := by
  have h2 := congrArg String.data h
  simp only [JabberID.str, String.data_append] at h2
  have h3 : j.domain.data = [] := by
    have h4 := List.append_eq_nil.1 h2
    exact (List.append_eq_nil.1 h4.1).2
  exact String.ext h3

theorem localTarget_to (e : YJBEngine) (ev : JBEvent) (h : chatLocalTarget e ev = true) :
    ev.to.str ≠ "" := by
  intro hto
  have hd := str_eq_empty_domain _ hto
  simp [chatLocalTarget, hasDomain, hd] at h

theorem sendStanza_calls (L : Library) (e : YJBEngine) (job : JBPendingJob)
    (xml : Option Stanza) (regular : Bool) :
    ∀ eff ∈ job.sendStanza L e xml regular, eff.isFeatureRequest = false := by
  unfold JBPendingJob.sendStanza JBPendingJob.getStream getServerStream
  intro eff hmem
  cases eff <;> simp [Effect.isFeatureRequest]
  rename_i m
  revert hmem
  cases xml with
  | none => simp
  | some x =>
    simp only
    split_ifs <;> (try split) <;> (try split) <;> simp

theorem chatOffline_eq (E : Env) (job : JBPendingJob) (mType : MsgType) (r : ChatRoute)
    (xml : XmlElement) (h : r.xml = some xml) :
    chatOffline E job mType r
      = (if mType = MsgType.Chat ∨ mType = MsgType.Normal then
          ((E.handle r.n (offlineRequest E job xml)).ok,
            [Effect.dispatch (offlineRequest E job xml)], r.n + 1)
         else (false, [], r.n)) := by
  unfold chatOffline
  simp only [h]

theorem offlineRequest_name (E : Env) (job : JBPendingJob) (xml : XmlElement) :
    (offlineRequest E job xml).name = "jabber.feature" := by
  simp [offlineRequest, jabberFeature, addValidParam_name, Message.addParam, pluginMessage]

theorem chatOffline_none (E : Env) (job : JBPendingJob) (mType : MsgType) (r : ChatRoute)
    (h : ¬ (mType = MsgType.Chat ∨ mType = MsgType.Normal)) :
    chatOffline E job mType r = (false, [], r.n) := by
  unfold chatOffline
  simp only [h, if_false]
  split <;> rfl

theorem processChat_routed (L : Library) (E : Env) (e : YJBEngine) (n : Nat)
    (job : JBPendingJob) (hlt : chatLocalTarget e job.m_event = true)
    (hpre : ¬ (job.m_event.to.resource = ""
      ∧ (E.msgType job.m_event.stanzaType = MsgType.MsgError
          ∨ E.msgType job.m_event.stanzaType = MsgType.GroupChat)))
    (hinf : (chatRouteOf E e n job).error = XMPPError.ItemNotFound) :
    processChat L E e n job
      = (if (chatOffline E job (E.msgType job.m_event.stanzaType) (chatRouteOf E e n job)).1
            = true then
          ((chatRouteOf E e n job).effects
            ++ (chatOffline E job (E.msgType job.m_event.stanzaType)
                (chatRouteOf E e n job)).2.1,
           (chatOffline E job (E.msgType job.m_event.stanzaType) (chatRouteOf E e n job)).2.2)
         else
          ((chatRouteOf E e n job).effects
            ++ (chatOffline E job (E.msgType job.m_event.stanzaType)
                (chatRouteOf E e n job)).2.1
            ++ (if E.msgType job.m_event.stanzaType ≠ MsgType.MsgError then
                  job.sendChatErrorStanza L e XMPPError.ServiceUnavailable
                else []),
           (chatOffline E job (E.msgType job.m_event.stanzaType)
             (chatRouteOf E e n job)).2.2)) := by
  have hto := localTarget_to e job.m_event hlt
  have h1 : ¬ (chatLocalTarget e job.m_event = true ∧ job.m_event.to.resource = ""
      ∧ E.msgType job.m_event.stanzaType = MsgType.MsgError) :=
    fun h => hpre ⟨h.2.1, Or.inl h.2.2⟩
  have h2 : ¬ (chatLocalTarget e job.m_event = true ∧ job.m_event.to.resource = ""
      ∧ E.msgType job.m_event.stanzaType = MsgType.GroupChat) :=
    fun h => hpre ⟨h.2.1, Or.inr h.2.2⟩
  have h3 : ¬ ((chatRouteOf E e n job).error = XMPPError.NoError) := by
    rw [hinf]; decide
  unfold processChat
  simp only
  rw [if_neg hto, if_neg h1, if_neg h2, if_neg h3, if_pos ⟨hlt, hinf⟩]

theorem processChat_no_request (L : Library) (E : Env) (e : YJBEngine) (n : Nat)
    (job : JBPendingJob)
    (h : ¬ (chatLocalTarget e job.m_event = true
      ∧ (chatRouteOf E e n job).error = XMPPError.ItemNotFound
      ∧ (E.msgType job.m_event.stanzaType = MsgType.Chat
          ∨ E.msgType job.m_event.stanzaType = MsgType.Normal))) :
    ∀ eff ∈ (processChat L E e n job).1, eff.isFeatureRequest = false := by
  have hroute := routeCalls_dispatch _
    (chatRoute_calls E n job.m_event (chatLocalTarget e job.m_event)
      (E.msgType job.m_event.stanzaType))
  have hreply : ∀ (err : XMPPError),
      ∀ eff ∈ (if E.msgType job.m_event.stanzaType ≠ MsgType.MsgError then
        job.sendChatErrorStanza L e err else []), eff.isFeatureRequest = false := by
    intro err eff hmem
    split_ifs at hmem
    · exact sendStanza_calls L e job _ true eff hmem
    · cases hmem
  unfold processChat
  simp only
  by_cases c1 : job.m_event.to.str = ""
  · rw [if_pos c1]
    exact hreply _
  rw [if_neg c1]
  by_cases c2 : chatLocalTarget e job.m_event = true ∧ job.m_event.to.resource = ""
      ∧ E.msgType job.m_event.stanzaType = MsgType.MsgError
  · rw [if_pos c2]
    intro eff hmem
    cases hmem
  rw [if_neg c2]
  by_cases c3 : chatLocalTarget e job.m_event = true ∧ job.m_event.to.resource = ""
      ∧ E.msgType job.m_event.stanzaType = MsgType.GroupChat
  · rw [if_pos c3]
    exact hreply _
  rw [if_neg c3]
  by_cases c4 : (chatRouteOf E e n job).error = XMPPError.NoError
  · rw [if_pos c4]
    intro eff hmem
    exact (hroute eff hmem).2
  rw [if_neg c4]
  by_cases c5 : chatLocalTarget e job.m_event = true
      ∧ (chatRouteOf E e n job).error = XMPPError.ItemNotFound
  · rw [if_pos c5]
    have hcn : ¬ (E.msgType job.m_event.stanzaType = MsgType.Chat
        ∨ E.msgType job.m_event.stanzaType = MsgType.Normal) := fun hcn => h ⟨c5.1, c5.2, hcn⟩
    rw [chatOffline_none E job _ _ hcn]
    simp only [Bool.false_eq_true, if_false, List.append_nil]
    intro eff hmem
    rcases List.mem_append.1 hmem with h1 | h1
    · exact (hroute eff h1).2
    · exact hreply _ eff h1
  · rw [if_neg c5]
    intro eff hmem
    rcases List.mem_append.1 hmem with h1 | h1
    · exact (hroute eff h1).2
    · exact hreply _ eff h1

theorem processChat_groupchat_bare (L : Library) (E : Env) (e : YJBEngine) (n : Nat)
    (job : JBPendingJob) (hlt : chatLocalTarget e job.m_event = true)
    (hres : job.m_event.to.resource = "")
    (hg : E.msgType job.m_event.stanzaType = MsgType.GroupChat) :
    processChat L E e n job
      = (job.sendChatErrorStanza L e XMPPError.ServiceUnavailable, n) := by
  have hto := localTarget_to e job.m_event hlt
  have h1 : ¬ (chatLocalTarget e job.m_event = true ∧ job.m_event.to.resource = ""
      ∧ E.msgType job.m_event.stanzaType = MsgType.MsgError) := by
    rw [hg]
    exact fun h => absurd h.2.2 (by decide)
  have h3 : E.msgType job.m_event.stanzaType ≠ MsgType.MsgError := by
    rw [hg]; decide
  unfold processChat
  simp only
  rw [if_neg hto, if_neg h1, if_pos ⟨hlt, hres, hg⟩, if_pos h3]

/-- C23: for a job whose event carries its stanza, as every job the workers
route does, `processChat` asks the message handlers for the offline storage
of the message (a `jabber.feature` request) exactly when the target is a user
of a serviced domain, the routing loop ended with ItemNotFound and the type of
the message is `chat` or `normal`. When the request is accepted nothing is
sent back; when it is refused, and in every other case where the loop ended
with ItemNotFound on such a target, the calls end with the ServiceUnavailable
error reply to the sender, unless the message is of type `error`. The loop
makes dispatches only, and it ends with ItemNotFound only after a `msg.route`
message was refused by the handlers with an `instance.count` parameter set. -/
theorem processChat_offline (L : Library) (E : Env) (e : YJBEngine) (n : Nat)
    (job : JBPendingJob) (xml : XmlElement) (hxml : job.m_event.element = some xml) :
    ((∃ eff ∈ (processChat L E e n job).1, eff.isFeatureRequest = true)
        ↔ (chatLocalTarget e job.m_event = true
            ∧ (chatRouteOf E e n job).error = XMPPError.ItemNotFound
            ∧ (E.msgType job.m_event.stanzaType = MsgType.Chat
                ∨ E.msgType job.m_event.stanzaType = MsgType.Normal)))
      ∧ (chatLocalTarget e job.m_event = true →
          (chatRouteOf E e n job).error = XMPPError.ItemNotFound →
          (E.msgType job.m_event.stanzaType = MsgType.Chat
            ∨ E.msgType job.m_event.stanzaType = MsgType.Normal) →
          ((E.handle (chatRouteOf E e n job).n (offlineRequest E job xml)).ok = true →
              processChat L E e n job
                = ((chatRouteOf E e n job).effects
                    ++ [Effect.dispatch (offlineRequest E job xml)],
                   (chatRouteOf E e n job).n + 1))
            ∧ ((E.handle (chatRouteOf E e n job).n (offlineRequest E job xml)).ok = false →
              processChat L E e n job
                = ((chatRouteOf E e n job).effects
                    ++ [Effect.dispatch (offlineRequest E job xml)]
                    ++ job.sendChatErrorStanza L e XMPPError.ServiceUnavailable,
                   (chatRouteOf E e n job).n + 1)))
      ∧ (chatLocalTarget e job.m_event = true →
          (chatRouteOf E e n job).error = XMPPError.ItemNotFound →
          ¬ (E.msgType job.m_event.stanzaType = MsgType.Chat
            ∨ E.msgType job.m_event.stanzaType = MsgType.Normal) →
          E.msgType job.m_event.stanzaType ≠ MsgType.MsgError →
          ∃ pre : List Effect,
            (∀ eff ∈ pre, eff.isDispatch = true ∧ eff.isFeatureRequest = false)
              ∧ (processChat L E e n job).1
                  = pre ++ job.sendChatErrorStanza L e XMPPError.ServiceUnavailable)
      ∧ (∀ eff ∈ (chatRouteOf E e n job).effects,
          eff.isDispatch = true ∧ eff.isFeatureRequest = false)
      ∧ ((chatRouteOf E e n job).error = XMPPError.ItemNotFound →
          ∃ (k : Nat) (g : Message), n ≤ k ∧ k < (chatRouteOf E e n job).n
            ∧ Effect.dispatch g ∈ (chatRouteOf E e n job).effects
            ∧ g.name = "msg.route" ∧ (E.handle k g).refused = true
            ∧ (NamedList.getParam (E.handle k g).params "instance.count").isSome = true) := by
  have hroute : ∀ eff ∈ (chatRouteOf E e n job).effects,
      eff.isDispatch = true ∧ eff.isFeatureRequest = false :=
    routeCalls_dispatch _
      (chatRoute_calls E n job.m_event (chatLocalTarget e job.m_event)
        (E.msgType job.m_event.stanzaType))
  have hnf : (chatRouteOf E e n job).error = XMPPError.ItemNotFound →
      (chatRouteOf E e n job).xml = some xml := by
    intro h
    rw [← hxml]
    exact (chatRoute_notFound E n job.m_event _ _ h).2.1
  have hstored : chatLocalTarget e job.m_event = true →
      (chatRouteOf E e n job).error = XMPPError.ItemNotFound →
      (E.msgType job.m_event.stanzaType = MsgType.Chat
        ∨ E.msgType job.m_event.stanzaType = MsgType.Normal) →
      ((E.handle (chatRouteOf E e n job).n (offlineRequest E job xml)).ok = true →
          processChat L E e n job
            = ((chatRouteOf E e n job).effects
                ++ [Effect.dispatch (offlineRequest E job xml)],
               (chatRouteOf E e n job).n + 1))
        ∧ ((E.handle (chatRouteOf E e n job).n (offlineRequest E job xml)).ok = false →
          processChat L E e n job
            = ((chatRouteOf E e n job).effects
                ++ [Effect.dispatch (offlineRequest E job xml)]
                ++ job.sendChatErrorStanza L e XMPPError.ServiceUnavailable,
               (chatRouteOf E e n job).n + 1)) := by
    intro hlt hinf hcn
    have hpre : ¬ (job.m_event.to.resource = ""
        ∧ (E.msgType job.m_event.stanzaType = MsgType.MsgError
            ∨ E.msgType job.m_event.stanzaType = MsgType.GroupChat)) := by
      rintro ⟨_, hm | hm⟩ <;> rcases hcn with hc | hc <;> rw [hc] at hm <;>
        exact absurd hm (by decide)
    have hne : E.msgType job.m_event.stanzaType ≠ MsgType.MsgError := by
      rcases hcn with hc | hc <;> rw [hc] <;> decide
    have hval := processChat_routed L E e n job hlt hpre hinf
    rw [chatOffline_eq E job _ _ xml (hnf hinf), if_pos hcn] at hval
    constructor
    · intro hok
      rw [hval, if_pos hok]
    · intro hok
      rw [hval]
      simp only [hok, Bool.false_eq_true, if_false, hne, ne_eq, not_false_eq_true, if_true]
  refine ⟨⟨?_, ?_⟩, hstored, ?_, hroute, ?_⟩
  · intro hex
    by_contra hnot
    obtain ⟨eff, hmem, hreq⟩ := hex
    have := processChat_no_request L E e n job hnot eff hmem
    rw [this] at hreq
    exact absurd hreq (by decide)
  · rintro ⟨hlt, hinf, hcn⟩
    have hf : (Effect.dispatch (offlineRequest E job xml)).isFeatureRequest = true := by
      simp [Effect.isFeatureRequest, offlineRequest_name]
    refine ⟨Effect.dispatch (offlineRequest E job xml), ?_, hf⟩
    cases hok : (E.handle (chatRouteOf E e n job).n (offlineRequest E job xml)).ok
    · rw [(hstored hlt hinf hcn).2 hok]
      simp
    · rw [(hstored hlt hinf hcn).1 hok]
      simp
  · intro hlt hinf hcn hne
    by_cases hb : job.m_event.to.resource = ""
        ∧ E.msgType job.m_event.stanzaType = MsgType.GroupChat
    · refine ⟨[], ?_, ?_⟩
      · intro eff hmem
        cases hmem
      · rw [processChat_groupchat_bare L E e n job hlt hb.1 hb.2]
        rfl
    · have hpre : ¬ (job.m_event.to.resource = ""
          ∧ (E.msgType job.m_event.stanzaType = MsgType.MsgError
              ∨ E.msgType job.m_event.stanzaType = MsgType.GroupChat)) := by
        rintro ⟨hr, hm | hm⟩
        · exact hne hm
        · exact hb ⟨hr, hm⟩
      refine ⟨(chatRouteOf E e n job).effects, hroute, ?_⟩
      rw [processChat_routed L E e n job hlt hpre hinf, chatOffline_none E job _ _ hcn]
      simp [hne]
  · intro hinf
    exact (chatRoute_notFound E n job.m_event _ _ hinf).2.2

/-- Witness of C23: a chat for the bare `alice@b.example`, a user the router
knows but for whom no resource takes the message, is handed to the offline
storage, and nothing is sent back when the storage accepts it. -/
theorem processChat_offline_witness :
    (demoChatJob "chat" "").m_event.element = some ⟨XmlTag.Message, [("type", "chat")], "hi"⟩
      ∧ processChat demoLibrary (demoRouter true) demoEngine 0 (demoChatJob "chat" "")
          = ([Effect.dispatch (chatRouteMessage (demoChat "chat" "")),
              Effect.dispatch (offlineRequest (demoRouter true) (demoChatJob "chat" "")
                ⟨XmlTag.Message, [("type", "chat")], "hi"⟩)], 2) :=
  ⟨rfl,
    (((processChat_offline demoLibrary (demoRouter true) demoEngine 0 (demoChatJob "chat" "")
      ⟨XmlTag.Message, [("type", "chat")], "hi"⟩ rfl).2.1 (by decide) (by decide)
      (by decide)).1 (by decide)).trans (by decide)⟩

end Yate
